import Mathlib

/-! # Office seat booking: the allocation engine

A shallow embedding of the booking handlers of
`seat-booking-system/backend/controllers/bookingController.js` together with the
calendar helpers of `backend/utils/bookingHelpers.js` they call.

Modelling conventions.

* A JavaScript `Date` is its millisecond timestamp, an `Int`.  The process is taken to
  run in a fixed-offset local time zone, UTC, so a civil day is `86400000` ms long and
  `setHours(0, 0, 0, 0)` is `startOfDay`.  Only valid dates are modelled.
* A MongoDB collection is the list of its documents in insertion order; `findOne` is
  `List.find?`, `findById` looks the `_id` up, `doc.save()` of a loaded document
  rewrites the documents carrying that `_id`, and saving a new document appends it
  under an `_id` no document of the collection carries.
* The clock (`new Date()`, `moment()`, `Date.now`) is the explicit argument `now`.
* A handler maps the store to the store after the request and the response sent.
* Strings that are compared (`startTime`, `endTime`) are lists of UTF-16 code units.
  Display-only fields (`seatNumber`, `name`, `email`, ...) are left out.
-/

namespace SeatBooking

/-! ## Data model (`models/User.js`, `models/Seat.js`, `models/Booking.js`) -/

inductive Role where
  | employee
  | admin
  deriving DecidableEq

inductive SeatType where
  | designated
  | floating
  deriving DecidableEq

inductive SeatStatus where
  | available
  | booked
  | released
  deriving DecidableEq

inductive BookingType where
  | designated
  | floating
  deriving DecidableEq

inductive BookingStatus where
  | active
  | cancelled
  | completed
  deriving DecidableEq

/-- A JavaScript string as the sequence of its UTF-16 code units. -/
abbrev JsString := List Nat

structure User where
  id : Nat
  batch : Nat
  squad : Nat
  designatedSeat : Option Nat
  role : Role
  deriving DecidableEq

structure Seat where
  id : Nat
  type : SeatType
  designatedFor : Option Nat
  squad : Option Nat
  batch : Option Nat
  status : SeatStatus
  isTempFloating : Bool
  releasedBy : Option Nat
  releaseDate : Option Int
  deriving DecidableEq

structure Booking where
  id : Nat
  user : Nat
  seat : Nat
  date : Int
  bookingType : BookingType
  startTime : JsString
  endTime : JsString
  status : BookingStatus
  bookedAt : Int
  cancelledAt : Option Int
  deriving DecidableEq

/-- The three collections the handlers read and write. -/
structure Store where
  users : List User
  seats : List Seat
  bookings : List Booking
  deriving DecidableEq

/-- The authenticated requester `req.user` set by the `auth` middleware. -/
structure ReqUser where
  id : Nat
  role : Role
  deriving DecidableEq

/-! ## Dates -/

/-- Milliseconds in a civil day. -/
def dayMs : Int := 86400000

/-- The instant `d.setHours(0, 0, 0, 0)` and `moment(d).startOf('day')`. -/
def startOfDay (t : Int) : Int := t - t % dayMs

/-- The instant `d.setHours(23, 59, 59, 999)`. -/
def endOfDay (t : Int) : Int := startOfDay t + 86399999

structure DayRange where
  start : Int
  stop : Int
  deriving DecidableEq

/-- `getDayRange(date)`: start and end of the day of `date`. -/
def getDayRange (date : Int) : DayRange :=
  { start := startOfDay date, stop := endOfDay date }

/-- The Mongo filter `date: { $gte: dayStart, $lt: dayEnd }`. -/
def inRange (r : DayRange) (date : Int) : Bool :=
  decide (r.start ≤ date) && decide (date < r.stop)

/-! ## Calendar rules (`utils/bookingHelpers.js`) -/

inductive WindowMessage where
  | pastDate
  | beyondTwoWeeks
  deriving DecidableEq

structure WindowCheck where
  allowed : Bool
  message : Option WindowMessage
  deriving DecidableEq

/-- `isWithinBookingWindow(targetDate)` evaluated at clock `now`. -/
def isWithinBookingWindow (now targetDate : Int) : WindowCheck :=
  let today := startOfDay now
  let target := startOfDay targetDate
  let maxDate := startOfDay now + 14 * dayMs
  if target < today then
    { allowed := false, message := some .pastDate }
  else if target > maxDate then
    { allowed := false, message := some .beyondTwoWeeks }
  else
    { allowed := true, message := none }

/-- The number of the civil day of an instant, day 0 being 1 January 1970. -/
def dayNumber (t : Int) : Int := t / dayMs

/-- Year, month and day of the month of the civil day `z` in the Gregorian calendar,
which `moment` and `Date` use. -/
def civilFromDays (z : Int) : Int × Int × Int :=
  let z := z + 719468
  let era := z / 146097
  let doe := z - era * 146097
  let yoe := (doe - doe / 1460 + doe / 36524 - doe / 146096) / 365
  let y := yoe + era * 400
  let doy := doe - (365 * yoe + yoe / 4 - yoe / 100)
  let mp := (5 * doy + 2) / 153
  let d := doy - (153 * mp + 2) / 5 + 1
  let m := if mp < 10 then mp + 3 else mp - 9
  (if m ≤ 2 then y + 1 else y, m, d)

/-- The day of the month, `moment(t).date()`. -/
def dayOfMonth (t : Int) : Int := (civilFromDays (dayNumber t)).2.2

/-- The instant `moment(t).startOf('month')`: midnight of the first day of the month. -/
def startOfMonth (t : Int) : Int := startOfDay t - (dayOfMonth t - 1) * dayMs

/-- The weekday `moment(t).isoWeekday()`, 1 for Monday to 7 for Sunday; day 0 was a
Thursday. -/
def isoWeekday (t : Int) : Int := (dayNumber t + 3) % 7 + 1

/-- The whole weeks `moment(a).diff(b, 'weeks')`: the quotient by the length of a week,
truncated towards zero. -/
def diffWeeks (a b : Int) : Int := Int.tdiv (a - b) (7 * dayMs)

/-- `getWeekNumber(date)`: week 1 or week 2 of the rota.  The test `weekNumber % 2 === 0`
asks whether 2 divides `weekNumber`. -/
def getWeekNumber (date : Int) : Nat :=
  let startOfMonth := startOfMonth date
  let weekNumber := diffWeeks date startOfMonth + 1
  if weekNumber % 2 = 0 then 2 else 1

/-- `isWorkingDayForBatch(date, batch)`. -/
def isWorkingDayForBatch (date : Int) (batch : Nat) : Bool :=
  let dayOfWeek := isoWeekday date
  let weekNum := getWeekNumber date
  if weekNum = 1 then
    batch == 1 && decide (dayOfWeek ≥ 1) && decide (dayOfWeek ≤ 3)
  else
    batch == 2 && decide (dayOfWeek ≥ 4) && decide (dayOfWeek ≤ 5)

/-- The instant `moment(t).set({ hour: h, minute: m, second: s })`: the milliseconds
are kept. -/
def setHourMinuteSecond (t h m s : Int) : Int :=
  startOfDay t + h * 3600000 + m * 60000 + s * 1000 + t % 1000

/-- `canBookFloatingSeat(targetDate)` evaluated at clock `now`. -/
def canBookFloatingSeat (now targetDate : Int) : Bool :=
  let target := startOfDay targetDate
  let today := startOfDay now
  if target < today then false
  else if startOfDay target = startOfDay today then true
  else
    let yesterday := target - dayMs
    let cutoffTime := setHourMinuteSecond yesterday 15 0 0
    decide (now ≥ cutoffTime)

/-! ## Strings -/

/-- JavaScript `a < b` on two strings: lexicographic order on code units. -/
def jsStringLt : JsString → JsString → Bool
  | [], [] => false
  | [], _ :: _ => true
  | _ :: _, [] => false
  | a :: as, b :: bs =>
    if a < b then true else if b < a then false else jsStringLt as bs

/-- JavaScript `a >= b` on two strings. -/
def jsStringGe (a b : JsString) : Bool := !jsStringLt a b

/-- The string `'09:00'`. -/
def defaultStartTime : JsString := [48, 57, 58, 48, 48]

/-- The string `'18:00'`. -/
def defaultEndTime : JsString := [49, 56, 58, 48, 48]

/-- The expression `s || d` for an optional string `s`: the empty string, `null` and
`undefined` are falsy. -/
def orDefault (s : Option JsString) (d : JsString) : JsString :=
  match s with
  | some (c :: cs) => c :: cs
  | _ => d

/-! ## Collections -/

/-- `User.findById(id)`. -/
def findUser (users : List User) (id : Nat) : Option User :=
  users.find? (fun u => u.id == id)

/-- `Seat.findById(id)`. -/
def findSeat (seats : List Seat) (id : Nat) : Option Seat :=
  seats.find? (fun s => s.id == id)

/-- `Booking.findById(id)`. -/
def findBooking (bookings : List Booking) (id : Nat) : Option Booking :=
  bookings.find? (fun b => b.id == id)

/-- `seat.save()` for a seat loaded from the collection. -/
def saveSeat (seats : List Seat) (seat : Seat) : List Seat :=
  seats.map (fun s => if s.id = seat.id then seat else s)

/-- `booking.save()` for a booking loaded from the collection. -/
def saveBooking (bookings : List Booking) (booking : Booking) : List Booking :=
  bookings.map (fun b => if b.id = booking.id then booking else b)

/-- An `_id` that no booking of the collection carries. -/
def freshBookingId (bookings : List Booking) : Nat :=
  (bookings.map (fun b => b.id)).foldr max 0 + 1

/-- The filter `{ user: userId, date: { $gte, $lt }, status: 'active' }`. -/
def userActiveIn (userId : Nat) (r : DayRange) (b : Booking) : Bool :=
  b.user == userId && inRange r b.date && b.status == .active

/-- The filter `{ seat: seatId, date: { $gte, $lt }, status: 'active' }`. -/
def seatActiveIn (seatId : Nat) (r : DayRange) (b : Booking) : Bool :=
  b.seat == seatId && inRange r b.date && b.status == .active

/-! ## Requests and responses -/

/-- The body of `POST /api/bookings/book`. -/
structure BookRequest where
  seatId : Nat
  date : Int
  startTime : Option JsString
  endTime : Option JsString
  deriving DecidableEq

/-- The responses of the three mutating handlers, named after the error kinds of the
specification.
* `created`: 201, `Seat booked successfully`, with the booking;
* `cancelled d`: 200 from `cancelBooking`, where `d` tells which of the two messages
  was sent (`d = true` for a booking of type `designated`);
* `released h seat`: 200 from `releaseDesignatedSeat`, `h` telling whether a booking
  was cancelled on the way;
* `invalidTimeRange`: 400, `End time must be after start time`;
* `seatNotFound`: 404, `Seat not found`;
* `outsideBookingHorizon`: 403 with the message of `isWithinBookingWindow`;
* `duplicateUserBooking`: 400, `You already have a booking for this date`;
* `seatAlreadyBooked`: 400, `Seat is already booked`;
* `notFound`: 404, `Booking not found`;
* `forbidden`: 403, `Not authorized` or `Seat is booked by someone else for this date`;
* `noDesignatedSeat`: 400, `You do not have a designated seat`;
* `serverError`: 500, from the `catch` block. -/
inductive Response where
  | created (booking : Booking)
  | cancelled (designated : Bool)
  | released (hadBooking : Bool) (seat : Seat)
  | invalidTimeRange
  | seatNotFound
  | outsideBookingHorizon (message : Option WindowMessage)
  | duplicateUserBooking
  | seatAlreadyBooked
  | notFound
  | forbidden
  | noDesignatedSeat
  | serverError
  deriving DecidableEq

/-- One entry of `allSeats` in the answer of `getAvailableSeats`: the seat document and
the four flags computed for it. -/
structure SeatWithStatus where
  seat : Seat
  isBooked : Bool
  isAvailable : Bool
  bookedByCurrentUser : Bool
  releasedByOwner : Bool
  deriving DecidableEq

/-- The object `floatingInfo` in the answer of `getAvailableSeats`. -/
structure FloatingInfo where
  total : Int
  booked : Int
  available : Int
  baseFloating : Int
  released : Int
  deriving DecidableEq

/-- The body of the 200 answer of `getAvailableSeats`. -/
structure Availability where
  seats : List Seat
  allSeats : List SeatWithStatus
  isWorkingDay : Bool
  canBook : Bool
  canBookFloating : Bool
  floatingInfo : FloatingInfo
  userHasBooking : Bool
  currentBooking : Option Booking
  hasReleasedOwnSeat : Bool
  deriving DecidableEq

/-- The answers of `getAvailableSeats`.
* `ok`: 200 with the availability snapshot;
* `userNotFound`: 404, `User not found`;
* `outsideBookingHorizon`: 403 with the message of `isWithinBookingWindow` and
  `canBook: false`;
* `serverError`: 500, from the `catch` block. -/
inductive AvailabilityResponse where
  | ok (availability : Availability)
  | userNotFound
  | outsideBookingHorizon (message : Option WindowMessage)
  | serverError
  deriving DecidableEq

/-! ## Handlers (`controllers/bookingController.js`) -/

/-- `bookSeat`: `POST /api/bookings/book` by the user `userId`.  The user document the
handler loads is not read afterwards and is left out. -/
def bookSeat (st : Store) (now : Int) (userId : Nat) (req : BookRequest) :
    Store × Response :=
  let targetDate := startOfDay req.date
  let bookingStartTime := orDefault req.startTime defaultStartTime
  let bookingEndTime := orDefault req.endTime defaultEndTime
  if jsStringGe bookingStartTime bookingEndTime then (st, .invalidTimeRange) else
  match findSeat st.seats req.seatId with
  | none => (st, .seatNotFound)
  | some seat =>
    let windowCheck := isWithinBookingWindow now targetDate
    if !windowCheck.allowed then (st, .outsideBookingHorizon windowCheck.message) else
    let r := getDayRange targetDate
    match st.bookings.find? (userActiveIn userId r) with
    | some _ => (st, .duplicateUserBooking)
    | none =>
    match st.bookings.find? (seatActiveIn req.seatId r) with
    | some _ => (st, .seatAlreadyBooked)
    | none =>
      let isOwnSeat := seat.type == .designated && seat.designatedFor == some userId
      let bookingType : BookingType :=
        if seat.type == .designated && isOwnSeat then .designated else .floating
      let booking : Booking :=
        { id := freshBookingId st.bookings
          user := userId
          seat := req.seatId
          date := targetDate
          bookingType := bookingType
          startTime := bookingStartTime
          endTime := bookingEndTime
          status := .active
          bookedAt := now
          cancelledAt := none }
      let bookings := st.bookings ++ [booking]
      let seats :=
        if seat.status == .released then
          saveSeat st.seats
            { seat with
              status := .available
              isTempFloating := false
              releasedBy := none
              releaseDate := none }
        else st.seats
      ({ st with seats := seats, bookings := bookings }, .created booking)

/-- `cancelBooking`: `DELETE /api/bookings/:bookingId` by the requester `reqUser`. -/
def cancelBooking (st : Store) (now : Int) (reqUser : ReqUser) (bookingId : Nat) :
    Store × Response :=
  match findBooking st.bookings bookingId with
  | none => (st, .notFound)
  | some booking =>
    if booking.user ≠ reqUser.id ∧ reqUser.role ≠ .admin then (st, .forbidden) else
    let booking := { booking with status := .cancelled, cancelledAt := some now }
    let bookings := saveBooking st.bookings booking
    let seats :=
      match findSeat st.seats booking.seat with
      | none => st.seats
      | some seat =>
        if seat.type == .designated then
          let bookingDate := booking.date
          let today := startOfDay now
          if bookingDate ≥ today then
            saveSeat st.seats
              { seat with
                status := .released
                isTempFloating := true
                releasedBy := some booking.user
                releaseDate := some bookingDate }
          else st.seats
        else st.seats
    ({ st with seats := seats, bookings := bookings },
      .cancelled (booking.bookingType == .designated))

/-- `releaseDesignatedSeat`: `POST /api/bookings/release` by the user `userId`.  A missing
user document makes `user.designatedSeat` throw, which the `catch` block answers. -/
def releaseDesignatedSeat (st : Store) (now : Int) (userId : Nat) (date : Int) :
    Store × Response :=
  let targetDate := startOfDay date
  match findUser st.users userId with
  | none => (st, .serverError)
  | some user =>
    match user.designatedSeat with
    | none => (st, .noDesignatedSeat)
    | some seatId =>
      match findSeat st.seats seatId with
      | none => (st, .seatNotFound)
      | some seat =>
        let r := getDayRange targetDate
        let released : Seat :=
          { seat with
            status := .released
            isTempFloating := true
            releasedBy := some userId
            releaseDate := some targetDate }
        match st.bookings.find? (seatActiveIn seat.id r) with
        | some existingBooking =>
          if existingBooking.user ≠ userId then (st, .forbidden) else
          let cancelled :=
            { existingBooking with status := .cancelled, cancelledAt := some now }
          ({ st with
              seats := saveSeat st.seats released
              bookings := saveBooking st.bookings cancelled },
            .released true released)
        | none =>
          ({ st with seats := saveSeat st.seats released }, .released false released)

/-- The method `set.add(id)` of a `Set`, kept as the list of its members. -/
def setAdd (ids : List Nat) (id : Nat) : List Nat :=
  if ids.contains id then ids else ids ++ [id]

/-- `getAvailableSeats`: `GET /api/bookings/available/:date` by the user `userId`.
`populate('seat')` leaves `null` in a booking whose seat document is missing, on which
`b.seat._id` throws and the `catch` block answers.  `populate('designatedFor')` only
changes what is displayed: the requester exists, so `isOwnSeat` compares identifiers. -/
def getAvailableSeats (st : Store) (now : Int) (userId : Nat) (date : Int) :
    AvailabilityResponse :=
  let targetDate := date
  match findUser st.users userId with
  | none => .userNotFound
  | some user =>
    let windowCheck := isWithinBookingWindow now targetDate
    if !windowCheck.allowed then .outsideBookingHorizon windowCheck.message else
    let isWorkingDay := isWorkingDayForBatch targetDate user.batch
    let allSeats := st.seats
    let r := getDayRange targetDate
    let activeBookings :=
      st.bookings.filter (fun b => inRange r b.date && b.status == .active)
    if activeBookings.any (fun b => (findSeat st.seats b.seat).isNone) then .serverError else
    let bookedSeatIds := activeBookings.map (fun b => b.seat)
    let userBooking := activeBookings.find? (fun b => b.user == userId)
    let hasReleasedOwnSeat :=
      match user.designatedSeat with
      | none => false
      | some ownSeatId =>
        let hasActiveOwnBooking :=
          match userBooking with
          | some ub => ub.seat == ownSeatId
          | none => false
        if !hasActiveOwnBooking then
          let cancelledOwnSeat :=
            st.bookings.find? (fun b =>
              b.user == userId && b.seat == ownSeatId && inRange r b.date &&
                b.status == .cancelled)
          cancelledOwnSeat.isSome
        else false
    let availableSeats := allSeats.filter (fun seat => !bookedSeatIds.contains seat.id)
    let allSeatsWithStatus := allSeats.map (fun seat =>
      let isBooked := bookedSeatIds.contains seat.id
      let isAvailable := availableSeats.any (fun s => s.id == seat.id)
      let isOwnSeat := seat.type == .designated && seat.designatedFor == some userId
      ({ seat := seat
         isBooked := isBooked
         isAvailable := isAvailable
         bookedByCurrentUser :=
           match userBooking with
           | some ub => ub.seat == seat.id
           | none => false
         releasedByOwner := isOwnSeat && hasReleasedOwnSeat } : SeatWithStatus))
    let baseFloatingSeats := allSeats.filter (fun s => s.type == .floating)
    let baseFloatingCount : Int := baseFloatingSeats.length
    let cancelledOwnerBookings :=
      st.bookings.filter (fun b =>
        inRange r b.date && b.status == .cancelled && b.bookingType == .designated)
    let releasedSeatIds := cancelledOwnerBookings.foldl (fun ids b => setAdd ids b.seat) []
    let releasedSeatIds :=
      allSeats.foldl (fun ids s =>
        if s.type == .designated && s.status == .released then
          match s.releaseDate with
          | some rd => if rd ≥ r.start ∧ rd < r.stop then setAdd ids s.id else ids
          | none => ids
        else ids) releasedSeatIds
    let releasedCount : Int := releasedSeatIds.length
    let effectiveTotalFloating := baseFloatingCount + releasedCount
    let bookedBaseFloating : Int :=
      (activeBookings.filter (fun b =>
        match findSeat st.seats b.seat with
        | some seatObj => seatObj.type == .floating
        | none => false)).length
    let bookedReleasedFloating : Int :=
      (activeBookings.filter (fun b => releasedSeatIds.contains b.seat)).length
    let totalBookedFloating := bookedBaseFloating + bookedReleasedFloating
    let availableFloatingCount := effectiveTotalFloating - totalBookedFloating
    .ok
      { seats := availableSeats
        allSeats := allSeatsWithStatus
        isWorkingDay := isWorkingDay
        canBook := true
        canBookFloating := true
        floatingInfo :=
          { total := effectiveTotalFloating
            booked := totalBookedFloating
            available := availableFloatingCount
            baseFloating := baseFloatingCount
            released := releasedCount }
        userHasBooking := userBooking.isSome
        currentBooking := userBooking
        hasReleasedOwnSeat := hasReleasedOwnSeat }

/-! ## The statistics handler (`controllers/seatController.js`) -/

/-- The body of the answer of `getSeatStats`. -/
structure SeatStats where
  totalSeats : Int
  baseFloating : Int
  designatedTotal : Int
  releasedSeats : Int
  totalFloating : Int
  booked : Int
  available : Int
  deriving DecidableEq

/-- `getSeatStats`: `GET /api/seats/stats`, the query parameter `date` being optional and
the clock standing in for it. -/
def getSeatStats (st : Store) (now : Int) (date : Option Int) : SeatStats :=
  let targetDate :=
    match date with
    | some d => d
    | none => now
  let totalSeats : Int := st.seats.length
  let baseFloating : Int := (st.seats.filter (fun s => s.type == .floating)).length
  let designatedTotal : Int := (st.seats.filter (fun s => s.type == .designated)).length
  let dayStart := startOfDay targetDate
  let dayEnd := endOfDay targetDate
  let r : DayRange := { start := dayStart, stop := dayEnd }
  let cancelledOwnerBookings :=
    st.bookings.filter (fun b =>
      inRange r b.date && b.status == .cancelled && b.bookingType == .designated)
  let releasedSeatIds := cancelledOwnerBookings.foldl (fun ids b => setAdd ids b.seat) []
  let releasedSeatsGlobal :=
    st.seats.filter (fun s =>
      s.type == .designated && s.status == .released &&
        match s.releaseDate with
        | some rd => inRange r rd
        | none => false)
  let releasedSeatIds := releasedSeatsGlobal.foldl (fun ids s => setAdd ids s.id) releasedSeatIds
  let releasedSeats : Int := releasedSeatIds.length
  let bookedCount : Int :=
    (st.bookings.filter (fun b => inRange r b.date && b.status == .active)).length
  { totalSeats := totalSeats
    baseFloating := baseFloating
    designatedTotal := designatedTotal
    releasedSeats := releasedSeats
    totalFloating := baseFloating + releasedSeats
    booked := bookedCount
    available := totalSeats - bookedCount }

/-! ## The front-end copies of the calendar rules (`app/src/utils/dateHelpers.js`) -/

/-- The weekday `d.getDay()`, 0 for Sunday to 6 for Saturday; day 0 was a Thursday. -/
def getDay (t : Int) : Int := (dayNumber t + 4) % 7

/-- The year `d.getFullYear()`. -/
def getFullYear (t : Int) : Int := (civilFromDays (dayNumber t)).1

/-- The month `d.getMonth()`, 0 for January to 11 for December. -/
def getMonth (t : Int) : Int := (civilFromDays (dayNumber t)).2.1 - 1

/-- The number of the civil day `day` of the month `month`, 1 to 12, of `year` in the
Gregorian calendar, day 0 being 1 January 1970. -/
def daysFromCivil (year month day : Int) : Int :=
  let y := if month ≤ 2 then year - 1 else year
  let era := y / 400
  let yoe := y - era * 400
  let mp := if month > 2 then month - 3 else month + 9
  let doy := (153 * mp + 2) / 5 + day - 1
  let doe := yoe * 365 + yoe / 4 - yoe / 100 + doy
  era * 146097 + doe - 719468

/-- The instant `new Date(year, month, day)` for a month index from 0 to 11: midnight of
that civil day.  The constructor reads a year from 0 to 99 as `1900 + year`. -/
def newDate (year month day : Int) : Int :=
  let yr := if 0 ≤ year ∧ year ≤ 99 then 1900 + year else year
  daysFromCivil yr (month + 1) day * dayMs

/-- The instant after `d.setDate(d.getDate() + k)`: the same time of day `k` days on. -/
def addDays (d k : Int) : Int := d + k * dayMs

/-- The instant after `d.setHours(h, 0, 0, 0)`. -/
def setHours (d h : Int) : Int := startOfDay d + h * 3600000

/-- `getWeekNumber(date)` of the front end. -/
def DateHelpers.getWeekNumber (date : Int) : Nat :=
  let d := date
  let startOfMonth := newDate (getFullYear d) (getMonth d) 1
  let diff := d - startOfMonth
  let weekNum := diff / (7 * 24 * 60 * 60 * 1000) + 1
  if weekNum % 2 = 0 then 2 else 1

/-- `isWorkingDayForBatch(date, batch)` of the front end. -/
def DateHelpers.isWorkingDayForBatch (date : Int) (batch : Nat) : Bool :=
  let d := date
  let dayOfWeek := getDay d
  let weekNum := DateHelpers.getWeekNumber d
  let mondayBasedDay := if dayOfWeek = 0 then 7 else dayOfWeek
  if weekNum = 1 then
    batch == 1 && decide (mondayBasedDay ≥ 1) && decide (mondayBasedDay ≤ 3)
  else
    batch == 2 && decide (mondayBasedDay ≥ 4) && decide (mondayBasedDay ≤ 5)

/-- `canBookFloatingSeat(targetDate)` of the front end, evaluated at clock `now`. -/
def DateHelpers.canBookFloatingSeat (now targetDate : Int) : Bool :=
  let target := setHours targetDate 0
  let today := setHours now 0
  if target < today then false
  else if target = today then true
  else
    let yesterday := setHours (addDays target (-1)) 15
    decide (now ≥ yesterday)

/-- `isWithinBookingWindow(date)` of the front end, evaluated at clock `now`. -/
def DateHelpers.isWithinBookingWindow (now date : Int) : Bool :=
  let target := setHours date 0
  let today := setHours now 0
  let maxDate := addDays today 14
  decide (target ≥ today) && decide (target ≤ maxDate)

/-! ## The seed script (`utils/seed.js`) -/

/-- An entry of the array `users` handed to `User.insertMany`. -/
structure SeedUser where
  batch : Nat
  squad : Nat
  role : Role
  deriving DecidableEq

/-- An entry of the array `seats` handed to `Seat.insertMany`.  The field `id` is the
property `_id` of the object, which none of the object literals of the script sets. -/
structure SeedSeat where
  id : Option Nat
  type : SeatType
  squad : Option Nat
  batch : Option Nat
  status : SeatStatus
  designatedFor : Option Nat
  deriving DecidableEq

/-- The array `users` when it is inserted: the admin, eight members for each of the five
squads of batch 1, the same for batch 2, and the two demo accounts. -/
def seedUsers : List SeedUser :=
  [{ batch := 1, squad := 1, role := .admin }] ++
    ([1, 2, 3, 4, 5].flatMap fun squad =>
      [1, 2, 3, 4, 5, 6, 7, 8].map fun _ => { batch := 1, squad := squad, role := .employee }) ++
    ([1, 2, 3, 4, 5].flatMap fun squad =>
      [1, 2, 3, 4, 5, 6, 7, 8].map fun _ => { batch := 2, squad := squad, role := .employee }) ++
    [{ batch := 1, squad := 1, role := .employee }] ++
    [{ batch := 2, squad := 1, role := .employee }]

/-- `User.insertMany(users)` into the emptied collection: the documents in the order of
the array, the `n`-th under the identifier `n`, with `designatedSeat` at its default. -/
def insertManyUsers (users : List SeedUser) : List User :=
  users.enum.map fun p =>
    { id := p.1 + 1, batch := p.2.batch, squad := p.2.squad, designatedSeat := none,
      role := p.2.role }

/-- `Seat.insertMany(seats)` into the emptied collection: the documents in the order of
the array, the `n`-th under the identifier `n`, the fields left out at their defaults. -/
def insertManySeats (seats : List SeedSeat) : List Seat :=
  seats.enum.map fun p =>
    { id := p.1 + 1, type := p.2.type, designatedFor := p.2.designatedFor,
      squad := p.2.squad, batch := p.2.batch, status := p.2.status,
      isTempFloating := false, releasedBy := none, releaseDate := none }

/-- The variables `createdUsers` and `seats` of `seedData` during the loop that creates
the designated seats. -/
structure SeedState where
  createdUsers : List User
  seats : List SeedSeat
  deriving DecidableEq

/-- One pass of the innermost loop body for `batch` and `squad`: pick the first employee
of the batch and squad whose `designatedSeat` is falsy, push the seat with that user as
`designatedFor`, and assign `seats[seats.length - 1]._id` to the `designatedSeat` of the
picked document. -/
def seedSeatStep (s : SeedState) (batch squad : Nat) : SeedState :=
  let userForSeat := s.createdUsers.find? fun u =>
    u.batch == batch && u.squad == squad && u.designatedSeat.isNone && u.role == .employee
  let seats := s.seats ++
    [{ id := none, type := .designated, squad := some squad, batch := some batch,
       status := .available, designatedFor := userForSeat.map fun u => u.id }]
  match userForSeat with
  | some u =>
    { createdUsers := s.createdUsers.map fun v =>
        if v.id = u.id then { v with designatedSeat := seats.getLast?.bind fun x => x.id }
        else v,
      seats := seats }
  | none => { createdUsers := s.createdUsers, seats := seats }

/-- The three nested loops that create the forty designated seats. -/
def seedDesignatedSeats (createdUsers : List User) : SeedState :=
  [1, 2].foldl (fun s1 batch =>
    [1, 2, 3, 4, 5].foldl (fun s2 squad =>
      [1, 2, 3, 4].foldl (fun s3 _ => seedSeatStep s3 batch squad) s2) s1)
    { createdUsers := createdUsers, seats := [] }

/-- The ten floating seats pushed after the designated ones. -/
def seedFloatingSeats : List SeedSeat :=
  [1, 2, 3, 4, 5, 6, 7, 8, 9, 10].map fun _ =>
    { id := none, type := .floating, squad := none, batch := none, status := .available,
      designatedFor := none }

/-- `User.findByIdAndUpdate(id, { designatedSeat: seat })` on the collection. -/
def setDesignatedSeat (users : List User) (id seat : Nat) : List User :=
  users.map fun u => if u.id = id then { u with designatedSeat := some seat } else u

/-- The last loop of `seedData`: for each created seat with a `designatedFor`, point
that user's `designatedSeat` at the seat. -/
def seedUpdateUsers (users : List User) (createdSeats : List Seat) : List User :=
  createdSeats.foldl (fun us seat =>
    match seat.designatedFor with
    | some uid => setDesignatedSeat us uid seat.id
    | none => us) users

/-- `seedData()`: users and seats are cleared and recreated, bookings are left alone. -/
def seedData (st : Store) : Store :=
  let createdUsers := insertManyUsers seedUsers
  let seats := (seedDesignatedSeats createdUsers).seats ++ seedFloatingSeats
  let createdSeats := insertManySeats seats
  { users := seedUpdateUsers createdUsers createdSeats, seats := createdSeats,
    bookings := st.bookings }

/-! ## Sequential executions -/

/-- One request to a mutating handler, with the clock reading at which it is served. -/
inductive Call where
  | reserve (now : Int) (userId : Nat) (req : BookRequest)
  | cancel (now : Int) (reqUser : ReqUser) (bookingId : Nat)
  | release (now : Int) (userId : Nat) (date : Int)

/-- The store after serving one request. -/
def step (st : Store) : Call → Store
  | .reserve now userId req => (bookSeat st now userId req).1
  | .cancel now reqUser bookingId => (cancelBooking st now reqUser bookingId).1
  | .release now userId date => (releaseDesignatedSeat st now userId date).1

/-- The store after serving the requests one after the other. -/
def run (st : Store) (calls : List Call) : Store :=
  calls.foldl step st

/-! ## The documents the handlers write -/

/-- The document `new Booking(...)` built by `bookSeat` for the seat `seat`. -/
def bookingFor (st : Store) (now : Int) (userId : Nat) (req : BookRequest) (seat : Seat) :
    Booking :=
  { id := freshBookingId st.bookings
    user := userId
    seat := req.seatId
    date := startOfDay req.date
    bookingType :=
      if seat.type == .designated &&
          (seat.type == .designated && seat.designatedFor == some userId) then
        .designated
      else .floating
    startTime := orDefault req.startTime defaultStartTime
    endTime := orDefault req.endTime defaultEndTime
    status := .active
    bookedAt := now
    cancelledAt := none }

/-- The seat with its release record cleared. -/
def clearRelease (seat : Seat) : Seat :=
  { seat with status := .available, isTempFloating := false, releasedBy := none,
              releaseDate := none }

/-- The seat collection after a booking of `seat` went through. -/
def seatsAfterBooking (seats : List Seat) (seat : Seat) : List Seat :=
  if seat.status == .released then saveSeat seats (clearRelease seat) else seats

/-- The seat as `releaseDesignatedSeat` and `cancelBooking` mark it. -/
def markReleased (seat : Seat) (userId : Nat) (date : Int) : Seat :=
  { seat with status := .released, isTempFloating := true, releasedBy := some userId,
              releaseDate := some date }

/-- The booking as `cancelBooking` and `releaseDesignatedSeat` cancel it. -/
def markCancelled (b : Booking) (now : Int) : Booking :=
  { b with status := .cancelled, cancelledAt := some now }

/-- The seat collection after `cancelBooking` cancelled the booking `b`. -/
def seatsAfterCancel (seats : List Seat) (b : Booking) (now : Int) : List Seat :=
  match findSeat seats b.seat with
  | none => seats
  | some seat =>
    if seat.type == .designated then
      if b.date ≥ startOfDay now then saveSeat seats (markReleased seat b.user b.date)
      else seats
    else seats

/-- The conditions under which `bookSeat` reaches `booking.save()`. -/
def Passes (st : Store) (now : Int) (userId : Nat) (req : BookRequest) (seat : Seat) : Prop :=
  jsStringGe (orDefault req.startTime defaultStartTime)
      (orDefault req.endTime defaultEndTime) = false ∧
    findSeat st.seats req.seatId = some seat ∧
    (isWithinBookingWindow now (startOfDay req.date)).allowed = true ∧
    st.bookings.find? (userActiveIn userId (getDayRange (startOfDay req.date))) = none ∧
    st.bookings.find? (seatActiveIn req.seatId (getDayRange (startOfDay req.date))) = none

/-! ## The values `getAvailableSeats` computes -/

/-- The body of a 200 answer of `getAvailableSeats`, if the answer is one. -/
def AvailabilityResponse.body : AvailabilityResponse → Option Availability
  | .ok a => some a
  | _ => none

/-- The list `activeBookings` of `getAvailableSeats`: the active bookings in the day. -/
def activeBookingsOn (st : Store) (date : Int) : List Booking :=
  st.bookings.filter (fun b => inRange (getDayRange date) b.date && b.status == .active)

/-- The set `releasedSeatIds` of `getAvailableSeats` and `getSeatStats` after its first
loop: the seats of the cancelled bookings of type `designated` in the day. -/
def releasedByCancellation (st : Store) (date : Int) : List Nat :=
  (st.bookings.filter (fun b =>
    inRange (getDayRange date) b.date && b.status == .cancelled &&
      b.bookingType == .designated)).foldl (fun ids b => setAdd ids b.seat) []

/-- The set `releasedSeatIds` of `getAvailableSeats` after both loops. -/
def releasedSeatIdsOn (st : Store) (date : Int) : List Nat :=
  st.seats.foldl (fun ids s =>
    if s.type == .designated && s.status == .released then
      match s.releaseDate with
      | some rd =>
        if rd ≥ (getDayRange date).start ∧ rd < (getDayRange date).stop then setAdd ids s.id
        else ids
      | none => ids
    else ids) (releasedByCancellation st date)

/-- The flag `hasReleasedOwnSeat` as `getAvailableSeats` computes it for the user. -/
def ownSeatFlag (st : Store) (userId : Nat) (user : User) (date : Int) : Bool :=
  match user.designatedSeat with
  | none => false
  | some ownSeatId =>
    if !(match (activeBookingsOn st date).find? (fun b => b.user == userId) with
        | some ub => ub.seat == ownSeatId
        | none => false) then
      (st.bookings.find? (fun b =>
        b.user == userId && b.seat == ownSeatId && inRange (getDayRange date) b.date &&
          b.status == .cancelled)).isSome
    else false

/-- The set `releasedSeatIds` of `getSeatStats` after both loops. -/
def releasedSeatIdsStats (st : Store) (date : Int) : List Nat :=
  (st.seats.filter (fun s =>
    s.type == .designated && s.status == .released &&
      match s.releaseDate with
      | some rd => inRange (getDayRange date) rd
      | none => false)).foldl (fun ids s => setAdd ids s.id) (releasedByCancellation st date)

/-! ## The two occupancy invariants -/

/-- An active booking of the seat stored under exactly the date `date`. -/
def seatActiveOn (seatId : Nat) (date : Int) (b : Booking) : Bool :=
  b.seat == seatId && b.date == date && b.status == .active

/-- An active booking of the user stored under exactly the date `date`. -/
def userActiveOn (userId : Nat) (date : Int) (b : Booking) : Bool :=
  b.user == userId && b.date == date && b.status == .active

/-- Every (seat, date) pair has at most one active booking, `date` being the stored
`date` field. -/
def NoDoubleSeat (bookings : List Booking) : Prop :=
  ∀ (seatId : Nat) (date : Int), bookings.countP (seatActiveOn seatId date) ≤ 1

/-- Every seat has at most one active booking in the day of every date, the day being
the range `getDayRange` gives the handlers. -/
def NoDoubleSeatDay (bookings : List Booking) : Prop :=
  ∀ (seatId : Nat) (date : Int),
    bookings.countP (seatActiveIn seatId (getDayRange date)) ≤ 1

/-- Every (user, date) pair has at most one active booking, `date` being the stored
`date` field. -/
def NoDoubleUser (bookings : List Booking) : Prop :=
  ∀ (userId : Nat) (date : Int), bookings.countP (userActiveOn userId date) ≤ 1

/-- Every user has at most one active booking in the day of every date. -/
def NoDoubleUserDay (bookings : List Booking) : Prop :=
  ∀ (userId : Nat) (date : Int),
    bookings.countP (userActiveIn userId (getDayRange date)) ≤ 1

/-- A filter that only active bookings pass. -/
def ActiveOnly (p : Booking → Bool) : Prop :=
  ∀ b, p b = true → b.status = .active

/-! ## Vocabulary of the properties -/

/-- The five conditions of a successful reservation: the start time is before the end
time, the seat exists, the day of the date is today or one of the fourteen days after
it, and neither the user nor the seat has an active booking in the day of the date. -/
def Reservable (st : Store) (now : Int) (userId : Nat) (req : BookRequest) : Prop :=
  jsStringLt (orDefault req.startTime defaultStartTime)
      (orDefault req.endTime defaultEndTime) = true ∧
    (∃ seat ∈ st.seats, seat.id = req.seatId) ∧
    (startOfDay now ≤ startOfDay req.date ∧
      startOfDay req.date ≤ startOfDay now + 14 * dayMs) ∧
    (∀ b ∈ st.bookings, b.user = userId → b.status = .active →
      inRange (getDayRange req.date) b.date = false) ∧
    (∀ b ∈ st.bookings, b.seat = req.seatId → b.status = .active →
      inRange (getDayRange req.date) b.date = false)

/-- The seat is in the normal state: nothing of a release is recorded on it. -/
def IsNormal (s : Seat) : Prop :=
  s.status = .available ∧ s.isTempFloating = false ∧ s.releasedBy = none ∧
    s.releaseDate = none

/-- The seat is marked released by `userId` for the date `date`. -/
def IsReleasedFor (s : Seat) (userId : Nat) (date : Int) : Prop :=
  s.status = .released ∧ s.isTempFloating = true ∧ s.releasedBy = some userId ∧
    s.releaseDate = some date

/-- The fields of a seat no handler writes. -/
def SameIdentity (s t : Seat) : Prop :=
  s.id = t.id ∧ s.type = t.type ∧ s.designatedFor = t.designatedFor ∧ s.squad = t.squad ∧
    s.batch = t.batch

/-- The list `l1` is the list `l` with the documents under the identifier `id` replaced
by `d`, every other document being where and as it was. -/
def ReplacedAt {α : Type} (key : α → Nat) (id : Nat) (d : α) (l l1 : List α) : Prop :=
  List.Forall₂ (fun x x1 => if key x = id then x1 = d else x1 = x) l l1

/-- The seat has an active booking in the day of `date` that belongs to a user other
than `userId`. -/
def BookedByOther (bookings : List Booking) (seatId : Nat) (date : Int) (userId : Nat) :
    Prop :=
  ∃ x ∈ bookings, x.seat = seatId ∧ x.status = .active ∧
    inRange (getDayRange date) x.date = true ∧ x.user ≠ userId

/-- The day of `date` is today or one of the fourteen days after it. -/
def WithinHorizon (now date : Int) : Prop :=
  dayNumber now ≤ dayNumber date ∧ dayNumber date ≤ dayNumber now + 14

/-- A time of day in hours and minutes. -/
structure TimeOfDay where
  hour : Nat
  minute : Nat
  deriving DecidableEq

/-- The hour is below 24 and the minute below 60. -/
def TimeOfDay.Valid (t : TimeOfDay) : Prop := t.hour < 24 ∧ t.minute < 60

/-- The zero-padded 24-hour string `HH:MM` of a time of day; 48 is the digit `0` and 58
the colon. -/
def TimeOfDay.render (t : TimeOfDay) : JsString :=
  [48 + t.hour / 10, 48 + t.hour % 10, 58, 48 + t.minute / 10, 48 + t.minute % 10]

/-- The minutes since midnight. -/
def TimeOfDay.minutes (t : TimeOfDay) : Nat := 60 * t.hour + t.minute

/-- The request for a seat and a date with the two times as `HH:MM` strings, a time
left out being absent from the body. -/
def timedRequest (seatId : Nat) (date : Int) (startTime endTime : Option TimeOfDay) :
    BookRequest :=
  { seatId := seatId, date := date, startTime := startTime.map TimeOfDay.render,
    endTime := endTime.map TimeOfDay.render }

/-- The whole days elapsed since the start of the month. -/
def daysSinceStartOfMonth (t : Int) : Int := (t - startOfMonth t) / dayMs

/-- The week of the rota: 1 when `floor(daysSinceStartOfMonth / 7) + 1` is odd, 2 when it
is even. -/
def rotaWeek (t : Int) : Nat :=
  if (daysSinceStartOfMonth t / 7 + 1) % 2 = 1 then 1 else 2

/-- The booking `x1` is the booking `x` up to its status, which is the one of `x` or
`cancelled`, and its `cancelledAt`. -/
def SameIntent (x x1 : Booking) : Prop :=
  x1.id = x.id ∧ x1.user = x.user ∧ x1.seat = x.seat ∧ x1.date = x.date ∧
    x1.bookingType = x.bookingType ∧ x1.startTime = x.startTime ∧ x1.endTime = x.endTime ∧
    x1.bookedAt = x.bookedAt ∧ (x1.status = x.status ∨ x1.status = .cancelled)

/-- The status of `x1` is the status of `x`, or `x` was `active` and `x1` is
`cancelled`. -/
def StatusKept (x x1 : Booking) : Prop :=
  x1.status = x.status ∨ (x.status = .active ∧ x1.status = .cancelled)

/-- Every booking of `l` is still in `l1`, at its place, up to status and `cancelledAt`. -/
def HistoryPreserved (l l1 : List Booking) : Prop :=
  ∀ (i : Nat) (x : Booking), l[i]? = some x → ∃ x1, l1[i]? = some x1 ∧ SameIntent x x1

/-- No two bookings carry the same `_id`, as MongoDB guarantees. -/
def UniqueBookingIds (l : List Booking) : Prop := (l.map Booking.id).Nodup

/-- The seat is a designated seat marked released with a release date in the day of
`date`. -/
def releasedOn (date : Int) (s : Seat) : Bool :=
  s.type == .designated && s.status == .released &&
    match s.releaseDate with
    | some rd => inRange (getDayRange date) rd
    | none => false

/-- The booking is a cancelled booking of type `designated` in the day of `date`. -/
def cancelledDesignatedOn (date : Int) (b : Booking) : Bool :=
  inRange (getDayRange date) b.date && b.status == .cancelled && b.bookingType == .designated

/-- The two-method union: the seats of the cancelled bookings of type `designated` in the
day, united with the designated seats marked released with a release date in the day. -/
def releasedUnion (st : Store) (date : Int) : Finset Nat :=
  ((st.bookings.filter (cancelledDesignatedOn date)).map Booking.seat).toFinset ∪
    ((st.seats.filter (releasedOn date)).map Seat.id).toFinset

/-- The booking is on an existing seat of type `floating`. -/
def onFloatingSeat (st : Store) (b : Booking) : Bool :=
  match findSeat st.seats b.seat with
  | some seatObj => seatObj.type == .floating
  | none => false

/-- The seat is in the floating pool of the date when the pool is read off the seats
alone: a floating seat, or a designated seat marked released for the date. -/
def inPoolOn (date : Int) (s : Seat) : Bool := s.type == .floating || releasedOn date s

/-- No seat is marked released for a date for which an active booking of the seat
exists. -/
def ReleaseExcludesOccupancy (st : Store) : Prop :=
  ∀ seat ∈ st.seats, seat.status = .released → ∀ d, seat.releaseDate = some d →
    ∀ b ∈ st.bookings, b.seat = seat.id → b.status = .active → b.date ≠ d

/-! ## Fixtures -/

/-- Seat 1, the designated seat of user 1. -/
def seatD1 : Seat :=
  { id := 1, type := .designated, designatedFor := some 1, squad := some 1, batch := some 1,
    status := .available, isTempFloating := false, releasedBy := none, releaseDate := none }

/-- Seat 9, a floating seat. -/
def seatF9 : Seat :=
  { id := 9, type := .floating, designatedFor := none, squad := none, batch := none,
    status := .available, isTempFloating := false, releasedBy := none, releaseDate := none }

/-- User 1, a batch 1 employee who owns seat 1. -/
def user1 : User := { id := 1, batch := 1, squad := 1, designatedSeat := some 1, role := .employee }

/-- User 2, a batch 2 employee without a designated seat. -/
def user2 : User := { id := 2, batch := 2, squad := 1, designatedSeat := none, role := .employee }

/-- Two users, two seats, no booking. -/
def demoStore : Store := { users := [user1, user2], seats := [seatD1, seatF9], bookings := [] }

/-- The clock reads 10:00 on day 0. -/
def demoNow : Int := 36000000

/-- The instant 01:00 on day 2. -/
def demoDate : Int := 176400000

/-- A request for seat 1 on day 2 with the default times. -/
def demoRequest : BookRequest :=
  { seatId := 1, date := demoDate, startTime := none, endTime := none }

/-- Five requests: user 1 books seat 1, user 2 tries the same seat, user 1 cancels,
user 1 releases, user 2 books the seat. -/
def demoCalls : List Call :=
  [.reserve demoNow 1 demoRequest, .reserve demoNow 2 demoRequest,
   .cancel demoNow { id := 1, role := .employee } 1, .release demoNow 1 demoDate,
   .reserve demoNow 2 demoRequest]

/-- The booking user 1 gets for seat 1 on day 2 in `demoStore`. -/
def demoBooking1 : Booking :=
  { id := 1, user := 1, seat := 1, date := 172800000, bookingType := .designated,
    startTime := defaultStartTime, endTime := defaultEndTime, status := .active,
    bookedAt := demoNow, cancelledAt := none }

/-- The store `demoStore` after user 1 booked seat 1 for day 2. -/
def demoStore1 : Store := { demoStore with bookings := [demoBooking1] }

/-- Seat 1 as released by its owner, user 1, for day 2. -/
def demoSeatReleased : Seat := markReleased seatD1 1 172800000

/-- The store `demoStore` after user 1 released seat 1 for day 2. -/
def demoReleased : Store := { demoStore with seats := [demoSeatReleased, seatF9] }

/-- The booking user 2 gets for seat 1 on day 2 in `demoReleased`. -/
def demoBooking2 : Booking :=
  { id := 1, user := 2, seat := 1, date := 172800000, bookingType := .floating,
    startTime := defaultStartTime, endTime := defaultEndTime, status := .active,
    bookedAt := demoNow, cancelledAt := none }

/-- The store `demoReleased` after user 2 booked seat 1 for day 2. -/
def demoStore2 : Store := { demoStore with bookings := [demoBooking2] }

/-- The booking `demoBooking1` as cancelled at `demoNow`. -/
def demoBooking1Cancelled : Booking := markCancelled demoBooking1 demoNow

/-- The store `demoStore1` after user 1 cancelled the booking of seat 1 for day 2. -/
def demoStore1Cancelled : Store :=
  { demoStore with seats := [demoSeatReleased, seatF9], bookings := [demoBooking1Cancelled] }

/-- The booking user 2 gets for seat 1 on day 2 after user 1 cancelled. -/
def demoBooking3 : Booking :=
  { id := 2, user := 2, seat := 1, date := 172800000, bookingType := .floating,
    startTime := defaultStartTime, endTime := defaultEndTime, status := .active,
    bookedAt := demoNow, cancelledAt := none }

/-- The store `demoStore1Cancelled` after user 2 booked seat 1 for day 2: the booking of
user 1 is cancelled, the booking of user 2 is active, seat 1 is in the normal state. -/
def demoStoreRebooked : Store :=
  { demoStore with bookings := [demoBooking1Cancelled, demoBooking3] }

/-- A request of user 2 for the floating seat 9 on day 2 with the default times. -/
def demoFloatingRequest : BookRequest :=
  { seatId := 9, date := demoDate, startTime := none, endTime := none }

/-- A request for seat 1 on day 3 with the default times. -/
def demoRequestDay3 : BookRequest :=
  { seatId := 1, date := 259200000, startTime := none, endTime := none }

/-- Monday 1 January 2024, 08:30. -/
def demoMonday : Int := 1704097800000

/-- The booking of user 1 for seat 1 on day 2, marked completed. -/
def demoBookingCompleted : Booking := { demoBooking1 with status := .completed }

/-- The store `demoStore` with the completed booking of user 1. -/
def demoStoreCompleted : Store := { demoStore with bookings := [demoBookingCompleted] }

/-- Monday 3 January of the year 50, 00:00. -/
def demoYear50 : Int := -60589123200000

/-- Four requests: user 1 books seat 1 for day 2 and cancels, user 2 books seat 1 for
day 2, and user 1 cancels the cancelled booking once more. -/
def demoRecancelCalls : List Call :=
  [.reserve demoNow 1 demoRequest, .cancel demoNow { id := 1, role := .employee } 1,
   .reserve demoNow 2 demoRequest, .cancel 40000000 { id := 1, role := .employee } 1]

/-! ## Statements the handlers do not satisfy -/

/-- The statement that a successful `cancelBooking` marks the booked seat released for
the date of the booking exactly when the cancelled booking is of type `designated` and
dated today or later, and writes no seat in every other case. -/
def CancelReleasesByBookingType : Prop :=
  ∀ (st : Store) (now : Int) (reqUser : ReqUser) (bookingId : Nat) (b0 : Booking) (d : Bool),
    findBooking st.bookings bookingId = some b0 →
    (cancelBooking st now reqUser bookingId).2 = .cancelled d →
    ((b0.bookingType = .designated ∧ startOfDay now ≤ b0.date) →
        ∃ seat, findSeat (cancelBooking st now reqUser bookingId).1.seats b0.seat = some seat ∧
          seat.status = .released ∧ seat.releaseDate = some b0.date) ∧
      (¬ (b0.bookingType = .designated ∧ startOfDay now ≤ b0.date) →
        (cancelBooking st now reqUser bookingId).1.seats = st.seats)

/-- The statement that `cancelBooking` of a booking whose status is already `cancelled`
does not succeed and leaves the store as it was. -/
def CancelOfCancelledChangesNothing : Prop :=
  ∀ (st : Store) (now : Int) (reqUser : ReqUser) (bookingId : Nat) (b0 : Booking),
    findBooking st.bookings bookingId = some b0 → b0.status = .cancelled →
    (∀ d, (cancelBooking st now reqUser bookingId).2 ≠ .cancelled d) ∧
      (cancelBooking st now reqUser bookingId).1 = st

/-- The statement that `bookSeat` creates no booking of a floating seat for a future date
within the horizon while `canBookFloatingSeat` says the floating window is closed. -/
def FloatingWindowGatesReserve : Prop :=
  ∀ (st : Store) (now : Int) (userId : Nat) (req : BookRequest) (seat : Seat),
    findSeat st.seats req.seatId = some seat → seat.type = .floating →
    dayNumber now < dayNumber req.date → WithinHorizon now req.date →
    canBookFloatingSeat now req.date = false →
    ∀ b, (bookSeat st now userId req).2 ≠ .created b

/-- The statement that a seat released for the date `x` is still released for `x` after
a successful `bookSeat` of it for another date. -/
def ReleaseSurvivesOtherDate : Prop :=
  ∀ (st st1 : Store) (now : Int) (userId : Nat) (req : BookRequest) (b : Booking)
    (seat : Seat) (releaser : Nat) (x : Int),
    bookSeat st now userId req = (st1, .created b) →
    findSeat st.seats req.seatId = some seat → IsReleasedFor seat releaser x →
    startOfDay req.date ≠ x →
    ∃ seat1, findSeat st1.seats req.seatId = some seat1 ∧ seat1.status = .released ∧
      seat1.releaseDate = some x

/-- The statement that, whenever a successful `cancelBooking` marks the booked seat
released, the releaser recorded on the seat is the requester of the cancellation. -/
def CancelRecordsRequester : Prop :=
  ∀ (st : Store) (now : Int) (reqUser : ReqUser) (bookingId : Nat) (b0 : Booking) (d : Bool)
    (seat : Seat),
    findBooking st.bookings bookingId = some b0 →
    (cancelBooking st now reqUser bookingId).2 = .cancelled d →
    findSeat st.seats b0.seat = some seat → seat.type = .designated →
    startOfDay now ≤ b0.date →
    ∃ seat1, findSeat (cancelBooking st now reqUser bookingId).1.seats b0.seat = some seat1 ∧
      seat1.status = .released ∧ seat1.releasedBy = some reqUser.id

/-- The statement that `floatingInfo.total` is the number of floating seats plus the
number of designated seats marked released for the date, that `floatingInfo.booked` is the
number of active bookings of the day whose seat is in that pool, and that
`floatingInfo.available` is their difference. -/
def FloatingInfoCountsReleasedSeats : Prop :=
  ∀ (st : Store) (now : Int) (userId : Nat) (date : Int) (a : Availability),
    getAvailableSeats st now userId date = .ok a →
    a.floatingInfo.total =
        ((st.seats.filter (fun s => s.type == .floating)).length : Int) +
          ((st.seats.filter (releasedOn date)).length : Int) ∧
      a.floatingInfo.booked =
        (((activeBookingsOn st date).filter (fun b =>
          st.seats.any (fun s => s.id == b.seat && inPoolOn date s))).length : Int) ∧
      a.floatingInfo.available = a.floatingInfo.total - a.floatingInfo.booked

/-! ## Seat ownership after seeding -/

/-- The seats of the store whose `designatedFor` is the user `uid`. -/
def seatsOwnedBy (st : Store) (uid : Nat) : List Seat :=
  st.seats.filter fun s => s.designatedFor == some uid

/-- The owners of the designated seats of a batch and squad, one entry per seat. -/
def squadOwners (st : Store) (batch squad : Nat) : List Nat :=
  (st.seats.filter fun s =>
    s.type == .designated && s.batch == some batch && s.squad == some squad).filterMap
      fun s => s.designatedFor

/-- Seat ownership is one-to-one: no user owns more than one seat, the four designated
seats of each batch and squad are bound to four distinct users of that batch and squad,
and a user's `designatedSeat` is a seat exactly when that seat's `designatedFor` is the
user. -/
def OwnershipOneToOne (st : Store) : Prop :=
  (∀ u ∈ st.users, (seatsOwnedBy st u.id).length ≤ 1) ∧
    (∀ batch ∈ [1, 2], ∀ squad ∈ [1, 2, 3, 4, 5],
      (squadOwners st batch squad).length = 4 ∧ (squadOwners st batch squad).Nodup ∧
        ∀ uid ∈ squadOwners st batch squad,
          ∃ u ∈ st.users, u.id = uid ∧ u.batch = batch ∧ u.squad = squad) ∧
    (∀ u ∈ st.users, ∀ s ∈ st.seats,
      u.designatedSeat = some s.id ↔ s.designatedFor = some u.id)

/-! # Properties -/

/-! ## Dates: basic facts -/

theorem startOfDay_le (t : Int) : startOfDay t ≤ t := by
  unfold startOfDay dayMs; omega

theorem startOfDay_idem (t : Int) : startOfDay (startOfDay t) = startOfDay t := by
  unfold startOfDay dayMs; omega

theorem startOfDay_mod (t : Int) : startOfDay t % dayMs = 0 := by
  unfold startOfDay dayMs; omega

theorem getDayRange_startOfDay (t : Int) : getDayRange (startOfDay t) = getDayRange t := by
  simp [getDayRange, endOfDay, startOfDay_idem]

theorem inRange_self (t : Int) : inRange (getDayRange t) (startOfDay t) = true := by
  simp [inRange, getDayRange, endOfDay]

/-- A midnight lies in the day range of `d` only when it is the midnight of `d`. -/
theorem inRange_startOfDay (d t : Int) (h : inRange (getDayRange d) (startOfDay t) = true) :
    startOfDay t = startOfDay d := by
  simp only [inRange, getDayRange, endOfDay, Bool.and_eq_true, decide_eq_true_eq] at h
  unfold startOfDay dayMs at *
  omega

theorem bookSeat_of_passes {st : Store} {now : Int} {userId : Nat} {req : BookRequest}
    {seat : Seat} (h : Passes st now userId req seat) :
    bookSeat st now userId req =
      ({ st with seats := seatsAfterBooking st.seats seat,
                 bookings := st.bookings ++ [bookingFor st now userId req seat] },
        .created (bookingFor st now userId req seat)) := by
  obtain ⟨h1, h2, h3, h4, h5⟩ := h
  simp [bookSeat, h1, h2, h3, h4, h5, bookingFor, seatsAfterBooking, clearRelease]

/-- Every run of `bookSeat` either passes all checks or leaves the store alone and
answers with one of the five errors. -/
theorem bookSeat_cases (st : Store) (now : Int) (userId : Nat) (req : BookRequest) :
    (∃ seat, Passes st now userId req seat) ∨
      ((bookSeat st now userId req).1 = st ∧
        ∀ b, (bookSeat st now userId req).2 ≠ .created b) := by
  unfold Passes
  by_cases h1 : jsStringGe (orDefault req.startTime defaultStartTime)
      (orDefault req.endTime defaultEndTime) = true
  · right; simp [bookSeat, h1]
  · cases h2 : findSeat st.seats req.seatId with
    | none => right; simp [bookSeat, h1, h2]
    | some seat =>
      by_cases h3 : (isWithinBookingWindow now (startOfDay req.date)).allowed = true
      · cases h4 : st.bookings.find? (userActiveIn userId (getDayRange (startOfDay req.date))) with
        | some x => right; simp [bookSeat, h1, h2, h3, h4]
        | none =>
          cases h5 : st.bookings.find?
              (seatActiveIn req.seatId (getDayRange (startOfDay req.date))) with
          | some x => right; simp [bookSeat, h1, h2, h3, h4, h5]
          | none => left; exact ⟨seat, by simpa using h1, rfl, h3, rfl, rfl⟩
      · right; simp [bookSeat, h1, h2, h3]

theorem activeOnly_seatActiveOn (s : Nat) (d : Int) : ActiveOnly (seatActiveOn s d) := by
  intro b h; simp [seatActiveOn] at h; exact h.2

theorem activeOnly_userActiveOn (u : Nat) (d : Int) : ActiveOnly (userActiveOn u d) := by
  intro b h; simp [userActiveOn] at h; exact h.2

theorem activeOnly_seatActiveIn (s : Nat) (r : DayRange) : ActiveOnly (seatActiveIn s r) := by
  intro b h; simp [seatActiveIn] at h; exact h.2

theorem activeOnly_userActiveIn (u : Nat) (r : DayRange) : ActiveOnly (userActiveIn u r) := by
  intro b h; simp [userActiveIn] at h; exact h.2

theorem countP_map_le (p : Booking → Bool) (f : Booking → Booking)
    (h : ∀ b, p (f b) = true → p b = true) (bs : List Booking) :
    (bs.map f).countP p ≤ bs.countP p := by
  rw [List.countP_map]
  exact List.countP_mono_left (fun b _ hb => h b hb)

/-- Saving a booking that is not active can only lower the count of a filter that only
active bookings pass. -/
theorem countP_saveBooking_le {p : Booking → Bool} (hp : ActiveOnly p) (c : Booking)
    (hc : c.status ≠ .active) (bs : List Booking) :
    (saveBooking bs c).countP p ≤ bs.countP p := by
  unfold saveBooking
  apply countP_map_le
  intro b hb
  by_cases hid : b.id = c.id
  · rw [if_pos hid] at hb
    exact absurd (hp c hb) hc
  · rwa [if_neg hid] at hb

/-- The bookings after `cancelBooking`: untouched, or one booking saved as cancelled. -/
theorem cancelBooking_bookings (st : Store) (now : Int) (reqUser : ReqUser) (id : Nat) :
    (cancelBooking st now reqUser id).1.bookings = st.bookings ∨
      ∃ b0 : Booking, findBooking st.bookings id = some b0 ∧
        (cancelBooking st now reqUser id).1.bookings =
          saveBooking st.bookings { b0 with status := .cancelled, cancelledAt := some now } := by
  cases h : findBooking st.bookings id with
  | none => left; simp [cancelBooking, h]
  | some b0 =>
    by_cases hf : b0.user ≠ reqUser.id ∧ reqUser.role ≠ .admin
    · left; simp [cancelBooking, h, hf.1, hf.2]
    · right; refine ⟨b0, rfl, ?_⟩
      simp only [cancelBooking, h, if_neg hf]

/-- The bookings after `releaseDesignatedSeat`: untouched, or one booking saved as
cancelled. -/
theorem releaseDesignatedSeat_bookings (st : Store) (now : Int) (userId : Nat) (date : Int) :
    (releaseDesignatedSeat st now userId date).1.bookings = st.bookings ∨
      ∃ b0 : Booking, (releaseDesignatedSeat st now userId date).1.bookings =
          saveBooking st.bookings { b0 with status := .cancelled, cancelledAt := some now } := by
  cases h1 : findUser st.users userId with
  | none => left; simp [releaseDesignatedSeat, h1]
  | some user =>
    cases h2 : user.designatedSeat with
    | none => left; simp [releaseDesignatedSeat, h1, h2]
    | some seatId =>
      cases h3 : findSeat st.seats seatId with
      | none => left; simp [releaseDesignatedSeat, h1, h2, h3]
      | some seat =>
        cases h4 : st.bookings.find? (seatActiveIn seat.id (getDayRange (startOfDay date))) with
        | none => left; simp [releaseDesignatedSeat, h1, h2, h3, h4]
        | some b0 =>
          by_cases hu : b0.user = userId
          · right; exact ⟨b0, by simp [releaseDesignatedSeat, h1, h2, h3, h4, hu]⟩
          · left; simp [releaseDesignatedSeat, h1, h2, h3, h4, hu]

theorem cancelBooking_countP_le {p : Booking → Bool} (hp : ActiveOnly p) (st : Store)
    (now : Int) (reqUser : ReqUser) (id : Nat) :
    (cancelBooking st now reqUser id).1.bookings.countP p ≤ st.bookings.countP p := by
  rcases cancelBooking_bookings st now reqUser id with h | ⟨b0, _, h⟩
  · rw [h]
  · rw [h]; exact countP_saveBooking_le hp _ (by simp) _

theorem releaseDesignatedSeat_countP_le {p : Booking → Bool} (hp : ActiveOnly p) (st : Store)
    (now : Int) (userId : Nat) (date : Int) :
    (releaseDesignatedSeat st now userId date).1.bookings.countP p ≤ st.bookings.countP p := by
  rcases releaseDesignatedSeat_bookings st now userId date with h | ⟨b0, h⟩
  · rw [h]
  · rw [h]; exact countP_saveBooking_le hp _ (by simp) _

/-- The bookings after `bookSeat`: untouched, or the new booking appended after all
checks passed. -/
theorem bookSeat_bookings (st : Store) (now : Int) (userId : Nat) (req : BookRequest) :
    (bookSeat st now userId req).1.bookings = st.bookings ∨
      ∃ seat, Passes st now userId req seat ∧
        (bookSeat st now userId req).1.bookings =
          st.bookings ++ [bookingFor st now userId req seat] := by
  rcases bookSeat_cases st now userId req with ⟨seat, h⟩ | ⟨h, _⟩
  · right; exact ⟨seat, h, by rw [bookSeat_of_passes h]⟩
  · left; rw [h]

theorem countP_eq_zero_of_find_none {p : Booking → Bool} {bs : List Booking}
    (h : bs.find? p = none) : bs.countP p = 0 := by
  rw [List.countP_eq_zero]
  intro b hb
  have := List.find?_eq_none.mp h b hb
  simpa using this

theorem countP_eq_zero_of_imp {p q : Booking → Bool} {bs : List Booking}
    (hq : bs.find? q = none) (himp : ∀ b, p b = true → q b = true) : bs.countP p = 0 := by
  have h0 := countP_eq_zero_of_find_none hq
  have hle : bs.countP p ≤ bs.countP q := List.countP_mono_left (fun b _ hb => himp b hb)
  omega

theorem countP_append_one_le {p : Booking → Bool} {bs : List Booking} {nb : Booking}
    (h1 : bs.countP p ≤ 1) (h0 : p nb = true → bs.countP p = 0) :
    (bs ++ [nb]).countP p ≤ 1 := by
  rw [List.countP_append, List.countP_cons, List.countP_nil]
  by_cases h : p nb = true
  · rw [if_pos h, h0 h]
  · rw [if_neg h]; omega

theorem seatActiveIn_of_on {seatId : Nat} {t : Int} {b : Booking}
    (h : seatActiveOn seatId (startOfDay t) b = true) :
    seatActiveIn seatId (getDayRange (startOfDay t)) b = true := by
  simp only [seatActiveOn, Bool.and_eq_true, beq_iff_eq] at h
  obtain ⟨⟨h1, h2⟩, h3⟩ := h
  simp [seatActiveIn, h1, h2, h3, getDayRange_startOfDay, inRange_self]

theorem userActiveIn_of_on {userId : Nat} {t : Int} {b : Booking}
    (h : userActiveOn userId (startOfDay t) b = true) :
    userActiveIn userId (getDayRange (startOfDay t)) b = true := by
  simp only [userActiveOn, Bool.and_eq_true, beq_iff_eq] at h
  obtain ⟨⟨h1, h2⟩, h3⟩ := h
  simp [userActiveIn, h1, h2, h3, getDayRange_startOfDay, inRange_self]

theorem getDayRange_congr {d t : Int} (h : startOfDay t = startOfDay d) :
    getDayRange d = getDayRange (startOfDay t) := by
  simp [getDayRange, endOfDay, startOfDay_idem, h]

theorem bookSeat_noDoubleSeat {st : Store} (now : Int) (userId : Nat) (req : BookRequest)
    (h : NoDoubleSeat st.bookings) : NoDoubleSeat (bookSeat st now userId req).1.bookings := by
  rcases bookSeat_bookings st now userId req with e | ⟨seat, hp, e⟩
  · rw [e]; exact h
  · rw [e]
    intro s d
    apply countP_append_one_le (h s d)
    intro hnb
    simp only [seatActiveOn, bookingFor, Bool.and_eq_true, beq_iff_eq] at hnb
    obtain ⟨⟨hs, hd⟩, _⟩ := hnb
    subst hs hd
    exact countP_eq_zero_of_imp hp.2.2.2.2 (fun b hb => seatActiveIn_of_on hb)

theorem bookSeat_noDoubleSeatDay {st : Store} (now : Int) (userId : Nat) (req : BookRequest)
    (h : NoDoubleSeatDay st.bookings) :
    NoDoubleSeatDay (bookSeat st now userId req).1.bookings := by
  rcases bookSeat_bookings st now userId req with e | ⟨seat, hp, e⟩
  · rw [e]; exact h
  · rw [e]
    intro s d
    apply countP_append_one_le (h s d)
    intro hnb
    simp only [seatActiveIn, bookingFor, Bool.and_eq_true, beq_iff_eq] at hnb
    obtain ⟨⟨hs, hd⟩, _⟩ := hnb
    subst hs
    rw [getDayRange_congr (inRange_startOfDay d req.date hd)]
    exact countP_eq_zero_of_find_none hp.2.2.2.2

theorem bookSeat_noDoubleUser {st : Store} (now : Int) (userId : Nat) (req : BookRequest)
    (h : NoDoubleUser st.bookings) : NoDoubleUser (bookSeat st now userId req).1.bookings := by
  rcases bookSeat_bookings st now userId req with e | ⟨seat, hp, e⟩
  · rw [e]; exact h
  · rw [e]
    intro u d
    apply countP_append_one_le (h u d)
    intro hnb
    simp only [userActiveOn, bookingFor, Bool.and_eq_true, beq_iff_eq] at hnb
    obtain ⟨⟨hu, hd⟩, _⟩ := hnb
    subst hu hd
    exact countP_eq_zero_of_imp hp.2.2.2.1 (fun b hb => userActiveIn_of_on hb)

theorem bookSeat_noDoubleUserDay {st : Store} (now : Int) (userId : Nat) (req : BookRequest)
    (h : NoDoubleUserDay st.bookings) :
    NoDoubleUserDay (bookSeat st now userId req).1.bookings := by
  rcases bookSeat_bookings st now userId req with e | ⟨seat, hp, e⟩
  · rw [e]; exact h
  · rw [e]
    intro u d
    apply countP_append_one_le (h u d)
    intro hnb
    simp only [userActiveIn, bookingFor, Bool.and_eq_true, beq_iff_eq] at hnb
    obtain ⟨⟨hu, hd⟩, _⟩ := hnb
    subst hu
    rw [getDayRange_congr (inRange_startOfDay d req.date hd)]
    exact countP_eq_zero_of_find_none hp.2.2.2.1

/-- A property of the booking collection that says, for every key, that a filter only
active bookings pass counts at most one booking. -/
theorem step_countP_le_one {κ : Type} (q : κ → Booking → Bool) (hq : ∀ k, ActiveOnly (q k))
    (hbook : ∀ (st : Store) (now : Int) (userId : Nat) (req : BookRequest),
      (∀ k, st.bookings.countP (q k) ≤ 1) →
        ∀ k, (bookSeat st now userId req).1.bookings.countP (q k) ≤ 1)
    (st : Store) (calls : List Call) (h : ∀ k, st.bookings.countP (q k) ≤ 1) :
    ∀ k, (run st calls).bookings.countP (q k) ≤ 1 := by
  induction calls generalizing st with
  | nil => exact h
  | cons c cs ih =>
    apply ih
    cases c with
    | reserve now userId req => exact hbook st now userId req h
    | cancel now reqUser bookingId =>
      intro k
      exact le_trans (cancelBooking_countP_le (hq k) st now reqUser bookingId) (h k)
    | release now userId date =>
      intro k
      exact le_trans (releaseDesignatedSeat_countP_le (hq k) st now userId date) (h k)

theorem run_noDoubleSeat (st : Store) (calls : List Call) (h : NoDoubleSeat st.bookings) :
    NoDoubleSeat (run st calls).bookings := by
  have := step_countP_le_one (fun (k : Nat × Int) => seatActiveOn k.1 k.2)
    (fun k => activeOnly_seatActiveOn k.1 k.2)
    (fun st now u req h0 k => bookSeat_noDoubleSeat now u req (fun s d => h0 (s, d)) k.1 k.2)
    st calls (fun k => h k.1 k.2)
  exact fun s d => this (s, d)

theorem run_noDoubleSeatDay (st : Store) (calls : List Call) (h : NoDoubleSeatDay st.bookings) :
    NoDoubleSeatDay (run st calls).bookings := by
  have := step_countP_le_one (fun (k : Nat × Int) => seatActiveIn k.1 (getDayRange k.2))
    (fun k => activeOnly_seatActiveIn k.1 _)
    (fun st now u req h0 k => bookSeat_noDoubleSeatDay now u req (fun s d => h0 (s, d)) k.1 k.2)
    st calls (fun k => h k.1 k.2)
  exact fun s d => this (s, d)

theorem run_noDoubleUser (st : Store) (calls : List Call) (h : NoDoubleUser st.bookings) :
    NoDoubleUser (run st calls).bookings := by
  have := step_countP_le_one (fun (k : Nat × Int) => userActiveOn k.1 k.2)
    (fun k => activeOnly_userActiveOn k.1 k.2)
    (fun st now u req h0 k => bookSeat_noDoubleUser now u req (fun s d => h0 (s, d)) k.1 k.2)
    st calls (fun k => h k.1 k.2)
  exact fun s d => this (s, d)

theorem run_noDoubleUserDay (st : Store) (calls : List Call) (h : NoDoubleUserDay st.bookings) :
    NoDoubleUserDay (run st calls).bookings := by
  have := step_countP_le_one (fun (k : Nat × Int) => userActiveIn k.1 (getDayRange k.2))
    (fun k => activeOnly_userActiveIn k.1 _)
    (fun st now u req h0 k => bookSeat_noDoubleUserDay now u req (fun s d => h0 (s, d)) k.1 k.2)
    st calls (fun k => h k.1 k.2)
  exact fun s d => this (s, d)

/-! ## Reserving -/

theorem isWithinBookingWindow_allowed (now t : Int) :
    (isWithinBookingWindow now t).allowed = true ↔
      startOfDay now ≤ startOfDay t ∧ startOfDay t ≤ startOfDay now + 14 * dayMs := by
  unfold isWithinBookingWindow
  simp only []
  split
  · simp only [Bool.false_eq_true, false_iff]; omega
  · split
    · simp only [Bool.false_eq_true, false_iff]; omega
    · simp only [true_iff]; omega

theorem findSeat_isSome_iff (seats : List Seat) (id : Nat) :
    (∃ seat, findSeat seats id = some seat) ↔ ∃ seat ∈ seats, seat.id = id := by
  unfold findSeat
  constructor
  · rintro ⟨seat, h⟩
    exact ⟨seat, List.mem_of_find?_eq_some h, by simpa using List.find?_some h⟩
  · rintro ⟨seat, hm, hid⟩
    cases h : seats.find? (fun s => s.id == id) with
    | some x => exact ⟨x, rfl⟩
    | none =>
      have := List.find?_eq_none.mp h seat hm
      simp [hid] at this

theorem find_userActiveIn_none (bs : List Booking) (userId : Nat) (r : DayRange) :
    bs.find? (userActiveIn userId r) = none ↔
      ∀ b ∈ bs, b.user = userId → b.status = .active → inRange r b.date = false := by
  rw [List.find?_eq_none]
  constructor
  · intro h b hb hu hs
    have := h b hb
    simpa [userActiveIn, hu, hs] using this
  · intro h b hb
    simp only [userActiveIn, Bool.and_eq_true, beq_iff_eq, not_and]
    rintro ⟨hu, hr⟩ hs
    rw [h b hb hu hs] at hr
    exact Bool.false_ne_true hr

theorem find_seatActiveIn_none (bs : List Booking) (seatId : Nat) (r : DayRange) :
    bs.find? (seatActiveIn seatId r) = none ↔
      ∀ b ∈ bs, b.seat = seatId → b.status = .active → inRange r b.date = false := by
  rw [List.find?_eq_none]
  constructor
  · intro h b hb hu hs
    have := h b hb
    simpa [seatActiveIn, hu, hs] using this
  · intro h b hb
    simp only [seatActiveIn, Bool.and_eq_true, beq_iff_eq, not_and]
    rintro ⟨hu, hr⟩ hs
    rw [h b hb hu hs] at hr
    exact Bool.false_ne_true hr

theorem passes_iff_reservable (st : Store) (now : Int) (userId : Nat) (req : BookRequest) :
    (∃ seat, Passes st now userId req seat) ↔ Reservable st now userId req := by
  unfold Passes Reservable
  rw [← findSeat_isSome_iff, isWithinBookingWindow_allowed, startOfDay_idem,
    find_userActiveIn_none, find_seatActiveIn_none, getDayRange_startOfDay]
  simp only [jsStringGe, Bool.not_eq_false']
  constructor
  · rintro ⟨seat, h1, h2, h3, h4, h5⟩
    exact ⟨h1, ⟨seat, h2⟩, h3, h4, h5⟩
  · rintro ⟨h1, ⟨seat, h2⟩, h3, h4, h5⟩
    exact ⟨seat, h1, h2, h3, h4, h5⟩

theorem findSeat_saveSeat (seats : List Seat) (seat : Seat) (id : Nat) :
    findSeat (saveSeat seats seat) id =
      (findSeat seats id).map (fun s => if s.id = seat.id then seat else s) := by
  unfold findSeat saveSeat
  rw [List.find?_map]
  have hcomp : ((fun s : Seat => s.id == id) ∘ fun s => if s.id = seat.id then seat else s) =
      fun s : Seat => s.id == id := by
    funext s
    simp only [Function.comp]
    by_cases hs : s.id = seat.id
    · rw [if_pos hs, hs]
    · rw [if_neg hs]
  rw [hcomp]

theorem findSeat_id {seats : List Seat} {id : Nat} {seat : Seat}
    (h : findSeat seats id = some seat) : seat.id = id := by
  simpa using List.find?_some h

theorem findSeat_seatsAfterBooking_isSome {seats : List Seat} {seat x : Seat} {id : Nat}
    (h : findSeat seats id = some x) :
    ∃ y, findSeat (seatsAfterBooking seats seat) id = some y := by
  unfold seatsAfterBooking
  split
  · rw [findSeat_saveSeat, h]; exact ⟨_, rfl⟩
  · exact ⟨x, h⟩

/-- What a `created` answer of `bookSeat` tells. -/
theorem bookSeat_created {st st1 : Store} {now : Int} {userId : Nat} {req : BookRequest}
    {b : Booking} (h : bookSeat st now userId req = (st1, .created b)) :
    ∃ seat, Passes st now userId req seat ∧ b = bookingFor st now userId req seat ∧
      st1 = { st with seats := seatsAfterBooking st.seats seat,
                      bookings := st.bookings ++ [bookingFor st now userId req seat] } := by
  rcases bookSeat_cases st now userId req with ⟨seat, hp⟩ | ⟨_, hne⟩
  · refine ⟨seat, hp, ?_⟩
    rw [bookSeat_of_passes hp] at h
    simp only [Prod.mk.injEq, Response.created.injEq] at h
    exact ⟨h.2.symm, h.1.symm⟩
  · exact absurd (by rw [h]) (hne b)

/-- C1. No double seat-booking, sequentially: if every (seat, date) pair has at most one
active booking, it still has after every sequence of `bookSeat`, `cancelBooking` and
`releaseDesignatedSeat` requests served one after the other.  Both readings of the pair
are covered: the stored `date` field, and the day of a date as the handlers filter it. -/
theorem no_double_seat_booking_sequential (st : Store) (calls : List Call) :
    (NoDoubleSeat st.bookings → NoDoubleSeat (run st calls).bookings) ∧
      (NoDoubleSeatDay st.bookings → NoDoubleSeatDay (run st calls).bookings) :=
  ⟨run_noDoubleSeat st calls, run_noDoubleSeatDay st calls⟩

theorem no_double_seat_booking_sequential_witness :
    NoDoubleSeat demoStore1.bookings ∧ NoDoubleSeat (run demoStore1 demoCalls).bookings ∧
      NoDoubleSeatDay (run demoStore1 demoCalls).bookings :=
  ⟨fun _ _ => List.countP_le_length _,
    (no_double_seat_booking_sequential demoStore1 demoCalls).1
      (fun _ _ => List.countP_le_length _),
    (no_double_seat_booking_sequential demoStore1 demoCalls).2
      (fun _ _ => List.countP_le_length _)⟩

/-- C2. No double user-booking, sequentially: if every (user, date) pair has at most one
active booking, it still has after every sequence of `bookSeat`, `cancelBooking` and
`releaseDesignatedSeat` requests served one after the other, whatever the seats are.
Both readings of the pair are covered: the stored `date` field, and the day of a date
as the handlers filter it. -/
theorem no_double_user_booking_sequential (st : Store) (calls : List Call) :
    (NoDoubleUser st.bookings → NoDoubleUser (run st calls).bookings) ∧
      (NoDoubleUserDay st.bookings → NoDoubleUserDay (run st calls).bookings) :=
  ⟨run_noDoubleUser st calls, run_noDoubleUserDay st calls⟩

theorem no_double_user_booking_sequential_witness :
    NoDoubleUser demoStore1.bookings ∧ NoDoubleUser (run demoStore1 demoCalls).bookings ∧
      NoDoubleUserDay (run demoStore1 demoCalls).bookings :=
  ⟨fun _ _ => List.countP_le_length _,
    (no_double_user_booking_sequential demoStore1 demoCalls).1
      (fun _ _ => List.countP_le_length _),
    (no_double_user_booking_sequential demoStore1 demoCalls).2
      (fun _ _ => List.countP_le_length _)⟩

/-- C3. `bookSeat` creates a booking if and only if the start time is before the end
time, the seat exists, the date is within the booking horizon, and neither the user nor
the seat has an active booking on that date.  Under these five conditions it answers
`created` and appends the booking, whatever the seat kind, its owner, its release state,
the batch of the user and the time of day; otherwise it leaves the store as it was. -/
theorem reserve_creates_booking_iff (st : Store) (now : Int) (userId : Nat)
    (req : BookRequest) :
    (Reservable st now userId req ↔
      ∃ b, (bookSeat st now userId req).2 = .created b ∧
        (bookSeat st now userId req).1.bookings = st.bookings ++ [b]) ∧
      (¬ Reservable st now userId req →
        (bookSeat st now userId req).1 = st ∧
          ∀ b, (bookSeat st now userId req).2 ≠ .created b) := by
  rw [← passes_iff_reservable]
  refine ⟨⟨?_, ?_⟩, ?_⟩
  · rintro ⟨seat, hp⟩
    exact ⟨bookingFor st now userId req seat, by rw [bookSeat_of_passes hp],
      by rw [bookSeat_of_passes hp]⟩
  · rintro ⟨b, hb, _⟩
    rcases bookSeat_cases st now userId req with hp | ⟨_, hne⟩
    · exact hp
    · exact absurd hb (hne b)
  · intro hn
    rcases bookSeat_cases st now userId req with hp | h
    · exact absurd hp hn
    · exact h

theorem reserve_creates_booking_iff_witness :
    Reservable demoStore demoNow 1 demoRequest ∧
      ∃ b, (bookSeat demoStore demoNow 1 demoRequest).2 = .created b ∧
        (bookSeat demoStore demoNow 1 demoRequest).1.bookings = demoStore.bookings ++ [b] :=
  have hr : Reservable demoStore demoNow 1 demoRequest := by
    unfold Reservable; decide
  ⟨hr, (reserve_creates_booking_iff demoStore demoNow 1 demoRequest).1.mp hr⟩

/-- C4. After a successful `bookSeat` of a seat for a date, every `bookSeat` of the same
seat for the same day by a user with a valid time range, a date within the horizon and
no active booking of their own on that day (so a user other than the first one) is
answered `seatAlreadyBooked`, and the store stays as it was. -/
theorem second_reserve_seat_already_booked (st st1 : Store) (now : Int) (userId : Nat)
    (req : BookRequest) (b : Booking)
    (h : bookSeat st now userId req = (st1, .created b))
    (now2 : Int) (userId2 : Nat) (req2 : BookRequest)
    (hseat : req2.seatId = req.seatId)
    (hday : startOfDay req2.date = startOfDay req.date)
    (htime : jsStringLt (orDefault req2.startTime defaultStartTime)
      (orDefault req2.endTime defaultEndTime) = true)
    (hwin : startOfDay now2 ≤ startOfDay req2.date ∧
      startOfDay req2.date ≤ startOfDay now2 + 14 * dayMs)
    (hfree : ∀ x ∈ st1.bookings, x.user = userId2 → x.status = .active →
      inRange (getDayRange req2.date) x.date = false) :
    userId2 ≠ userId ∧ bookSeat st1 now2 userId2 req2 = (st1, .seatAlreadyBooked) := by
  obtain ⟨seat, hp, hb, hst⟩ := bookSeat_created h
  have hmem : b ∈ st1.bookings := by rw [hst, hb]; simp
  have hbseat : b.seat = req2.seatId := by rw [hb, hseat]; rfl
  have hbdate : inRange (getDayRange req2.date) b.date = true := by
    have : b.date = startOfDay req2.date := by rw [hb, hday]; rfl
    rw [this]; exact inRange_self _
  have hbact : b.status = .active := by rw [hb]; rfl
  have hbuser : b.user = userId := by rw [hb]; rfl
  refine ⟨?_, ?_⟩
  · intro he
    have := hfree b hmem (by rw [hbuser, he]) hbact
    rw [hbdate] at this
    exact Bool.noConfusion this
  · obtain ⟨y, hy⟩ : ∃ y, findSeat st1.seats req2.seatId = some y := by
      rw [hst, hseat]; exact findSeat_seatsAfterBooking_isSome hp.2.1
    have h1 : jsStringGe (orDefault req2.startTime defaultStartTime)
        (orDefault req2.endTime defaultEndTime) = false := by simp [jsStringGe, htime]
    have h3 : (isWithinBookingWindow now2 (startOfDay req2.date)).allowed = true := by
      rw [isWithinBookingWindow_allowed, startOfDay_idem]; exact hwin
    have h4 : st1.bookings.find? (userActiveIn userId2 (getDayRange (startOfDay req2.date)))
        = none := by
      rw [find_userActiveIn_none, getDayRange_startOfDay]; exact hfree
    cases h5 : st1.bookings.find?
        (seatActiveIn req2.seatId (getDayRange (startOfDay req2.date))) with
    | none =>
      rw [find_seatActiveIn_none, getDayRange_startOfDay] at h5
      have := h5 b hmem hbseat hbact
      rw [hbdate] at this
      exact Bool.noConfusion this
    | some x => simp [bookSeat, h1, hy, h3, h4, h5]

theorem second_reserve_seat_already_booked_witness :
    bookSeat demoStore demoNow 1 demoRequest = (demoStore1, .created demoBooking1) ∧
      bookSeat demoStore1 demoNow 2 demoRequest = (demoStore1, .seatAlreadyBooked) :=
  ⟨by decide,
    (second_reserve_seat_already_booked demoStore demoStore1 demoNow 1 demoRequest
      demoBooking1 (by decide) demoNow 2 demoRequest rfl rfl (by decide) (by decide)
      (by decide)).2⟩

/-- C5. The booking created by a successful `bookSeat` is the one appended to the
collection; it is active, it carries the requesting user, the requested seat, the
requested date stripped to midnight and the start and end times given (the defaults
`09:00` and `18:00` for a time left out); its type is `designated` if and only if the
seat is a designated seat whose `designatedFor` is the requesting user, and `floating`
in every other case. -/
theorem created_booking_fields (st st1 : Store) (now : Int) (userId : Nat)
    (req : BookRequest) (b : Booking)
    (h : bookSeat st now userId req = (st1, .created b)) :
    st1.bookings = st.bookings ++ [b] ∧
      b.status = .active ∧ b.user = userId ∧ b.seat = req.seatId ∧
      b.date = startOfDay req.date ∧ b.date % dayMs = 0 ∧
      b.date ≤ req.date ∧ req.date < b.date + dayMs ∧
      b.startTime = orDefault req.startTime defaultStartTime ∧
      b.endTime = orDefault req.endTime defaultEndTime ∧
      (∀ t, req.startTime = some t → t ≠ [] → b.startTime = t) ∧
      (∀ t, req.endTime = some t → t ≠ [] → b.endTime = t) ∧
      ∃ seat, findSeat st.seats req.seatId = some seat ∧
        (b.bookingType = .designated ↔
          seat.type = .designated ∧ seat.designatedFor = some userId) ∧
        (b.bookingType = .floating ↔
          ¬ (seat.type = .designated ∧ seat.designatedFor = some userId)) := by
  obtain ⟨seat, hp, hb, hst⟩ := bookSeat_created h
  subst hb
  refine ⟨by rw [hst], rfl, rfl, rfl, rfl, startOfDay_mod _, startOfDay_le _, ?_, rfl, rfl,
    ?_, ?_, seat, hp.2.1, ?_, ?_⟩
  · simp only [bookingFor]; unfold startOfDay dayMs; omega
  · intro t ht hne
    cases t with
    | nil => exact absurd rfl hne
    | cons c cs => simp [bookingFor, ht, orDefault]
  · intro t ht hne
    cases t with
    | nil => exact absurd rfl hne
    | cons c cs => simp [bookingFor, ht, orDefault]
  · by_cases h1 : seat.type = .designated <;>
      by_cases h2 : seat.designatedFor = some userId <;> simp [bookingFor, h1, h2]
  · by_cases h1 : seat.type = .designated <;>
      by_cases h2 : seat.designatedFor = some userId <;> simp [bookingFor, h1, h2]

theorem created_booking_fields_witness :
    bookSeat demoStore demoNow 1 demoRequest = (demoStore1, .created demoBooking1) ∧
      demoBooking1.status = .active ∧ demoBooking1.date = startOfDay demoRequest.date ∧
      demoBooking1.bookingType = .designated :=
  have h := created_booking_fields demoStore demoStore1 demoNow 1 demoRequest demoBooking1
    (by decide)
  ⟨by decide, h.2.1, h.2.2.2.2.1, by decide⟩

theorem findSeat_saveSeat_self {seats : List Seat} {id : Nat} {seat seat2 : Seat}
    (h : findSeat seats id = some seat) (hid : seat2.id = seat.id) :
    findSeat (saveSeat seats seat2) id = some seat2 := by
  rw [findSeat_saveSeat, h]
  simp [hid]

theorem findSeat_seatsAfterBooking {seats : List Seat} {id : Nat} {seat : Seat}
    (h : findSeat seats id = some seat) :
    findSeat (seatsAfterBooking seats seat) id =
      some (if seat.status = .released then clearRelease seat else seat) := by
  unfold seatsAfterBooking
  by_cases hs : seat.status = .released
  · simp only [hs, beq_self_eq_true, if_true]
    exact findSeat_saveSeat_self h rfl
  · have : (seat.status == SeatStatus.released) = false := by simpa using hs
    simp only [this, hs, if_false]
    exact h

/-- The outcomes of `releaseDesignatedSeat`, one per path through the handler. -/
theorem releaseDesignatedSeat_cases (st : Store) (now : Int) (userId : Nat) (date : Int) :
    (findUser st.users userId = none ∧
        releaseDesignatedSeat st now userId date = (st, .serverError)) ∨
      (∃ user, findUser st.users userId = some user ∧ user.designatedSeat = none ∧
        releaseDesignatedSeat st now userId date = (st, .noDesignatedSeat)) ∨
      (∃ user seatId, findUser st.users userId = some user ∧
        user.designatedSeat = some seatId ∧ findSeat st.seats seatId = none ∧
        releaseDesignatedSeat st now userId date = (st, .seatNotFound)) ∨
      (∃ user seatId seat eb, findUser st.users userId = some user ∧
        user.designatedSeat = some seatId ∧ findSeat st.seats seatId = some seat ∧
        st.bookings.find? (seatActiveIn seatId (getDayRange date)) = some eb ∧
        eb.user ≠ userId ∧
        releaseDesignatedSeat st now userId date = (st, .forbidden)) ∨
      (∃ user seatId seat eb, findUser st.users userId = some user ∧
        user.designatedSeat = some seatId ∧ findSeat st.seats seatId = some seat ∧
        st.bookings.find? (seatActiveIn seatId (getDayRange date)) = some eb ∧
        eb.user = userId ∧
        releaseDesignatedSeat st now userId date =
          ({ st with seats := saveSeat st.seats (markReleased seat userId (startOfDay date)),
                     bookings := saveBooking st.bookings (markCancelled eb now) },
            .released true (markReleased seat userId (startOfDay date)))) ∨
      (∃ user seatId seat, findUser st.users userId = some user ∧
        user.designatedSeat = some seatId ∧ findSeat st.seats seatId = some seat ∧
        st.bookings.find? (seatActiveIn seatId (getDayRange date)) = none ∧
        releaseDesignatedSeat st now userId date =
          ({ st with seats := saveSeat st.seats (markReleased seat userId (startOfDay date)) },
            .released false (markReleased seat userId (startOfDay date)))) := by
  cases h1 : findUser st.users userId with
  | none => left; exact ⟨rfl, by simp [releaseDesignatedSeat, h1]⟩
  | some user =>
    right
    cases h2 : user.designatedSeat with
    | none => left; exact ⟨user, rfl, h2, by simp [releaseDesignatedSeat, h1, h2]⟩
    | some seatId =>
      right
      cases h3 : findSeat st.seats seatId with
      | none => left; exact ⟨user, seatId, rfl, h2, h3, by simp [releaseDesignatedSeat, h1, h2, h3]⟩
      | some seat =>
        right
        have hid : seat.id = seatId := findSeat_id h3
        cases h4 : st.bookings.find? (seatActiveIn seatId (getDayRange date)) with
        | none =>
          right; right
          refine ⟨user, seatId, seat, rfl, h2, h3, h4, ?_⟩
          simp [releaseDesignatedSeat, h1, h2, h3, hid, getDayRange_startOfDay, h4, markReleased]
        | some eb =>
          by_cases hu : eb.user = userId
          · right; left
            refine ⟨user, seatId, seat, eb, rfl, h2, h3, h4, hu, ?_⟩
            simp [releaseDesignatedSeat, h1, h2, h3, hid, getDayRange_startOfDay, h4, hu,
              markReleased, markCancelled]
          · left
            refine ⟨user, seatId, seat, eb, rfl, h2, h3, h4, hu, ?_⟩
            simp [releaseDesignatedSeat, h1, h2, h3, hid, getDayRange_startOfDay, h4, hu]

/-- The outcomes of `cancelBooking`, one per path through the handler. -/
theorem cancelBooking_cases (st : Store) (now : Int) (reqUser : ReqUser) (id : Nat) :
    (findBooking st.bookings id = none ∧
        cancelBooking st now reqUser id = (st, .notFound)) ∨
      (∃ b0, findBooking st.bookings id = some b0 ∧
        (b0.user ≠ reqUser.id ∧ reqUser.role ≠ .admin) ∧
        cancelBooking st now reqUser id = (st, .forbidden)) ∨
      (∃ b0, findBooking st.bookings id = some b0 ∧
        ¬ (b0.user ≠ reqUser.id ∧ reqUser.role ≠ .admin) ∧
        cancelBooking st now reqUser id =
          ({ st with seats := seatsAfterCancel st.seats b0 now,
                     bookings := saveBooking st.bookings (markCancelled b0 now) },
            .cancelled (b0.bookingType == .designated))) := by
  cases h : findBooking st.bookings id with
  | none => left; exact ⟨rfl, by simp [cancelBooking, h]⟩
  | some b0 =>
    right
    by_cases hf : b0.user ≠ reqUser.id ∧ reqUser.role ≠ .admin
    · left; exact ⟨b0, rfl, hf, by simp [cancelBooking, h, hf.1, hf.2]⟩
    · right
      refine ⟨b0, rfl, hf, ?_⟩
      simp only [cancelBooking, h, if_neg hf, seatsAfterCancel, markCancelled, markReleased]

theorem isNormal_clearRelease (seat : Seat) : IsNormal (clearRelease seat) :=
  ⟨rfl, rfl, rfl, rfl⟩

theorem sameIdentity_clearRelease (seat : Seat) : SameIdentity (clearRelease seat) seat :=
  ⟨rfl, rfl, rfl, rfl, rfl⟩

/-- The response seat of a successful `releaseDesignatedSeat` is marked released. -/
theorem releaseDesignatedSeat_released {st st1 : Store} {now : Int} {userId : Nat}
    {date : Int} {hb : Bool} {seat : Seat}
    (h : releaseDesignatedSeat st now userId date = (st1, .released hb seat)) :
    ∃ user seat0, findUser st.users userId = some user ∧
      user.designatedSeat = some seat0.id ∧ findSeat st.seats seat0.id = some seat0 ∧
      seat = markReleased seat0 userId (startOfDay date) ∧
      st1.seats = saveSeat st.seats seat ∧ st1.users = st.users ∧
      ((hb = false ∧ st.bookings.find? (seatActiveIn seat0.id (getDayRange date)) = none ∧
          st1.bookings = st.bookings) ∨
        (hb = true ∧ ∃ eb, st.bookings.find? (seatActiveIn seat0.id (getDayRange date)) = some eb ∧
          eb.user = userId ∧ st1.bookings = saveBooking st.bookings (markCancelled eb now))) := by
  rcases releaseDesignatedSeat_cases st now userId date with
    ⟨_, e⟩ | ⟨_, _, _, e⟩ | ⟨_, _, _, _, _, e⟩ | ⟨_, _, _, _, _, _, _, _, _, e⟩ |
    ⟨user, seatId, seat0, eb, h1, h2, h3, h4, h5, e⟩ | ⟨user, seatId, seat0, h1, h2, h3, h4, e⟩
  · rw [e] at h; simp at h
  · rw [e] at h; simp at h
  · rw [e] at h; simp at h
  · rw [e] at h; simp at h
  · rw [e] at h
    simp only [Prod.mk.injEq, Response.released.injEq] at h
    obtain ⟨hst, hhb, hs⟩ := h
    have hid : seat0.id = seatId := findSeat_id h3
    subst hid
    refine ⟨user, seat0, h1, h2, h3, hs.symm, ?_, ?_, Or.inr ⟨hhb.symm, eb, h4, h5, ?_⟩⟩
    · rw [← hst, ← hs]
    · rw [← hst]
    · rw [← hst]
  · rw [e] at h
    simp only [Prod.mk.injEq, Response.released.injEq] at h
    obtain ⟨hst, hhb, hs⟩ := h
    have hid : seat0.id = seatId := findSeat_id h3
    subst hid
    refine ⟨user, seat0, h1, h2, h3, hs.symm, ?_, ?_, Or.inl ⟨hhb.symm, h4, ?_⟩⟩
    · rw [← hst, ← hs]
    · rw [← hst]
    · rw [← hst]

/-- C6. After a successful `bookSeat` of a seat whose status was `released`, the seat is
in the normal state (status `available`, `releasedBy` and `releaseDate` cleared,
`isTempFloating` false) and otherwise as it was; a successful `bookSeat` of a seat whose
status was not `released` leaves the seat collection unchanged.  In particular, when the
store booked in is the one a successful `releaseDesignatedSeat` of the owner left and
the user booking the released seat is not the owner, the booking is `floating` and the
seat is back in the normal state. -/
theorem reserve_clears_release (st st1 : Store) (now : Int) (userId : Nat)
    (req : BookRequest) (b : Booking) (seat : Seat)
    (h : bookSeat st now userId req = (st1, .created b))
    (hseat : findSeat st.seats req.seatId = some seat) :
    (seat.status = .released →
        ∃ seat1, findSeat st1.seats req.seatId = some seat1 ∧ IsNormal seat1 ∧
          SameIdentity seat1 seat) ∧
      (seat.status ≠ .released → st1.seats = st.seats) ∧
      (∀ (st0 : Store) (now0 : Int) (owner : Nat) (date : Int) (hb : Bool),
        releaseDesignatedSeat st0 now0 owner date = (st, .released hb seat) →
        seat.designatedFor = some owner → userId ≠ owner →
        b.bookingType = .floating ∧
          ∃ seat1, findSeat st1.seats req.seatId = some seat1 ∧ IsNormal seat1) := by
  obtain ⟨seat2, hp, hb, hst⟩ := bookSeat_created h
  have he : seat2 = seat := by
    have := hp.2.1; rw [hseat] at this; exact (Option.some.inj this).symm
  subst he
  have hseats : st1.seats = seatsAfterBooking st.seats seat2 := by rw [hst]
  have hclear : seat2.status = .released →
      findSeat st1.seats req.seatId = some (clearRelease seat2) := by
    intro hs
    rw [hseats, findSeat_seatsAfterBooking hseat, if_pos hs]
  refine ⟨?_, ?_, ?_⟩
  · intro hs
    exact ⟨_, hclear hs, isNormal_clearRelease _, sameIdentity_clearRelease _⟩
  · intro hs
    have : (seat2.status == SeatStatus.released) = false := by simpa using hs
    rw [hseats, seatsAfterBooking, this]; rfl
  · intro st0 now0 owner date hb0 hrel hown hne
    obtain ⟨_, seat0, _, _, _, hm, _⟩ := releaseDesignatedSeat_released hrel
    have hs : seat2.status = .released := by rw [hm]; rfl
    refine ⟨?_, _, hclear hs, isNormal_clearRelease _⟩
    rw [hb]
    simp [bookingFor, hown, Ne.symm hne]

theorem reserve_clears_release_witness :
    releaseDesignatedSeat demoStore demoNow 1 demoDate =
        (demoReleased, .released false demoSeatReleased) ∧
      bookSeat demoReleased demoNow 2 demoRequest = (demoStore2, .created demoBooking2) ∧
      demoBooking2.bookingType = .floating ∧
      ∃ seat1, findSeat demoStore2.seats demoRequest.seatId = some seat1 ∧ IsNormal seat1 :=
  have h := (reserve_clears_release demoReleased demoStore2 demoNow 2 demoRequest demoBooking2
    demoSeatReleased (by decide) (by decide)).2.2 demoStore demoNow 1 demoDate false
    (by decide) rfl (by decide)
  ⟨by decide, by decide, h.1, h.2⟩

/-! ## Fresh identifiers -/

theorem lt_freshBookingId {bs : List Booking} {x : Booking} (h : x ∈ bs) :
    x.id < freshBookingId bs := by
  unfold freshBookingId
  induction bs with
  | nil => cases h
  | cons y ys ih =>
    simp only [List.map_cons, List.foldr_cons]
    rcases List.mem_cons.mp h with e | e
    · subst e; omega
    · have := ih e; omega

theorem findBooking_append_fresh (bs : List Booking) (b : Booking)
    (h : b.id = freshBookingId bs) : findBooking (bs ++ [b]) b.id = some b := by
  unfold findBooking
  rw [List.find?_append]
  have hnone : bs.find? (fun x => x.id == b.id) = none := by
    rw [List.find?_eq_none]
    intro x hx
    have := lt_freshBookingId hx
    simp only [beq_iff_eq]
    omega
  rw [hnone]
  simp

/-- The bookings after saving a booking under the identifier of the last one. -/
theorem mem_saveBooking_append {bs : List Booking} {b c x : Booking} (hc : c.id = b.id)
    (hx : x ∈ saveBooking (bs ++ [b]) c) : x ∈ bs ∨ x = c := by
  unfold saveBooking at hx
  obtain ⟨y, hy, rfl⟩ := List.mem_map.mp hx
  by_cases hid : y.id = c.id
  · right; rw [if_pos hid]
  · left
    rw [if_neg hid]
    rcases List.mem_append.mp hy with e | e
    · exact e
    · have : y = b := by simpa using e
      exact absurd (by rw [this, hc]) hid

/-- C7. Round trip.  Let `owner` be the `designatedFor` of the designated seat, and let
`bookSeat` of that seat by `owner` succeed for a date that is today or later when the
cancellation is served.  Then `cancelBooking` of the created booking by `owner` succeeds
and leaves the seat released for that date (midnight) by `owner` and the booking
cancelled; and in the store it leaves, every `bookSeat` of the seat for the same day by
another user with a valid time range, a date within the horizon and no active booking
on that day succeeds, creates a `floating` booking and leaves the seat in the normal
state. -/
theorem reserve_cancel_round_trip (st st1 : Store) (now1 now2 : Int) (owner : Nat)
    (role : Role) (req : BookRequest) (b : Booking) (seat : Seat)
    (hseat : findSeat st.seats req.seatId = some seat)
    (htype : seat.type = .designated) (hown : seat.designatedFor = some owner)
    (hbook : bookSeat st now1 owner req = (st1, .created b))
    (htoday : startOfDay now2 ≤ startOfDay req.date) :
    ∃ st2, cancelBooking st1 now2 { id := owner, role := role } b.id = (st2, .cancelled true) ∧
      (∃ seat2, findSeat st2.seats req.seatId = some seat2 ∧
        IsReleasedFor seat2 owner (startOfDay req.date) ∧ SameIdentity seat2 seat) ∧
      (∀ x ∈ st2.bookings, x.id = b.id → x.status = .cancelled) ∧
      ∀ (now3 : Int) (userId : Nat) (req3 : BookRequest),
        userId ≠ owner → req3.seatId = req.seatId →
        startOfDay req3.date = startOfDay req.date →
        jsStringLt (orDefault req3.startTime defaultStartTime)
          (orDefault req3.endTime defaultEndTime) = true →
        (startOfDay now3 ≤ startOfDay req3.date ∧
          startOfDay req3.date ≤ startOfDay now3 + 14 * dayMs) →
        (∀ x ∈ st2.bookings, x.user = userId → x.status = .active →
          inRange (getDayRange req3.date) x.date = false) →
        ∃ st3 b3, bookSeat st2 now3 userId req3 = (st3, .created b3) ∧
          b3.bookingType = .floating ∧
          ∃ seat3, findSeat st3.seats req.seatId = some seat3 ∧ IsNormal seat3 := by
  obtain ⟨seat0, hp, hb, hst⟩ := bookSeat_created hbook
  have he : seat0 = seat := by
    have := hp.2.1; rw [hseat] at this; exact (Option.some.inj this).symm
  subst he
  have hbid : b.id = freshBookingId st.bookings := by rw [hb]; rfl
  have hbks : st1.bookings = st.bookings ++ [b] := by rw [hst, hb]
  have hseats1 : st1.seats = seatsAfterBooking st.seats seat0 := by rw [hst]
  have hfind : findBooking st1.bookings b.id = some b := by
    rw [hbks]; exact findBooking_append_fresh _ _ hbid
  have hbtype : b.bookingType = .designated := by
    rw [hb]; simp [bookingFor, htype, hown]
  have hbuser : b.user = owner := by rw [hb]; rfl
  have hbseat : b.seat = req.seatId := by rw [hb]; rfl
  have hbdate : b.date = startOfDay req.date := by rw [hb]; rfl
  -- the seat as the cancellation finds it
  obtain ⟨seatA, hA, hAtype, hAid⟩ : ∃ seatA, findSeat st1.seats req.seatId = some seatA ∧
      seatA.type = .designated ∧ SameIdentity seatA seat0 := by
    rw [hseats1, findSeat_seatsAfterBooking hseat]
    by_cases hs : seat0.status = .released
    · exact ⟨clearRelease seat0, by rw [if_pos hs], htype, sameIdentity_clearRelease _⟩
    · exact ⟨seat0, by rw [if_neg hs], htype, rfl, rfl, rfl, rfl, rfl⟩
  rcases cancelBooking_cases st1 now2 { id := owner, role := role } b.id with
    ⟨hn, _⟩ | ⟨b0, h0, hf, _⟩ | ⟨b0, h0, _, e⟩
  · rw [hfind] at hn; cases hn
  · rw [hfind] at h0; cases h0; exact absurd hbuser hf.1
  · rw [hfind] at h0; cases h0
    have hseats2 : seatsAfterCancel st1.seats b now2 =
        saveSeat st1.seats (markReleased seatA owner (startOfDay req.date)) := by
      unfold seatsAfterCancel
      rw [hbseat, hA]
      simp [hAtype, hbdate, htoday, hbuser]
    have hfind2 : findSeat (seatsAfterCancel st1.seats b now2) req.seatId =
        some (markReleased seatA owner (startOfDay req.date)) := by
      rw [hseats2]; exact findSeat_saveSeat_self hA rfl
    refine ⟨_, by rw [e, hbtype]; rfl,
      ⟨markReleased seatA owner (startOfDay req.date), hfind2, ⟨rfl, rfl, rfl, rfl⟩, hAid⟩,
      ?_, ?_⟩
    · intro x hx hid
      simp only [saveBooking, markCancelled, List.mem_map] at hx
      obtain ⟨y, _, rfl⟩ := hx
      by_cases hy : y.id = b.id
      · rw [if_pos hy]
      · rw [if_neg hy] at hid; exact absurd hid hy
    · intro now3 userId req3 hne hseat3 hday htime hwin hfree
      have hpass : Passes
          { st1 with seats := seatsAfterCancel st1.seats b now2,
                     bookings := saveBooking st1.bookings (markCancelled b now2) }
          now3 userId req3 (markReleased seatA owner (startOfDay req.date)) := by
        refine ⟨by simp [jsStringGe, htime], by rw [hseat3]; exact hfind2, ?_, ?_, ?_⟩
        · rw [isWithinBookingWindow_allowed, startOfDay_idem]; exact hwin
        · rw [find_userActiveIn_none, getDayRange_startOfDay]; exact hfree
        · rw [find_seatActiveIn_none, getDayRange_startOfDay]
          intro x hx hxs hxa
          simp only [] at hx
          rw [hbks] at hx
          have hcid : (markCancelled b now2).id = b.id := rfl
          rcases mem_saveBooking_append hcid hx with hx | hx
          · have := (find_seatActiveIn_none _ _ _).mp hp.2.2.2.2 x hx (by rw [hxs, hseat3]) hxa
            rw [getDayRange_congr hday.symm, getDayRange_startOfDay]
            rw [getDayRange_startOfDay] at this
            exact this
          · rw [hx] at hxa; cases hxa
      refine ⟨_, _, bookSeat_of_passes hpass, ?_, ?_⟩
      · simp [bookingFor, markReleased, hAid.2.2.1, hown, Ne.symm hne]
      · refine ⟨clearRelease (markReleased seatA owner (startOfDay req.date)), ?_,
          isNormal_clearRelease _⟩
        simp only []
        rw [findSeat_seatsAfterBooking hfind2]
        simp [markReleased]

theorem reserve_cancel_round_trip_witness :
    bookSeat demoStore demoNow 1 demoRequest = (demoStore1, .created demoBooking1) ∧
      cancelBooking demoStore1 demoNow { id := 1, role := .employee } demoBooking1.id =
        (demoStore1Cancelled, .cancelled true) ∧
      ∃ st3 b3, bookSeat demoStore1Cancelled demoNow 2 demoRequest = (st3, .created b3) ∧
        b3.bookingType = .floating ∧
        ∃ seat3, findSeat st3.seats demoRequest.seatId = some seat3 ∧ IsNormal seat3 := by
  obtain ⟨st2, hc, _, _, h3⟩ := reserve_cancel_round_trip demoStore demoStore1 demoNow demoNow 1
    .employee demoRequest demoBooking1 seatD1 (by decide) (by decide) (by decide) (by decide)
    (by decide)
  have e : cancelBooking demoStore1 demoNow { id := 1, role := .employee } demoBooking1.id =
      (demoStore1Cancelled, .cancelled true) := by decide
  have hst : st2 = demoStore1Cancelled := by
    rw [e] at hc; exact (Prod.mk.inj hc).1.symm
  subst hst
  exact ⟨by decide, e,
    h3 demoNow 2 demoRequest (by decide) rfl rfl (by decide) (by decide) (by decide)⟩

/-! ## Releasing -/

theorem eq_of_countP_le_one {p : Booking → Bool} {l : List Booking} (h : l.countP p ≤ 1)
    {a b : Booking} (ha : a ∈ l) (hb : b ∈ l) (hpa : p a = true) (hpb : p b = true) :
    a = b := by
  induction l with
  | nil => cases ha
  | cons x xs ih =>
    rw [List.countP_cons] at h
    rcases List.mem_cons.mp ha with ea | ea <;> rcases List.mem_cons.mp hb with eb | eb
    · rw [ea, eb]
    · subst ea
      have : 0 < xs.countP p := List.countP_pos_iff.mpr ⟨b, eb, hpb⟩
      rw [if_pos hpa] at h; omega
    · subst eb
      have : 0 < xs.countP p := List.countP_pos_iff.mpr ⟨a, ea, hpa⟩
      rw [if_pos hpb] at h; omega
    · exact ih (by omega) ea eb

theorem saveSeat_idem (seats : List Seat) (seat : Seat) :
    saveSeat (saveSeat seats seat) seat = saveSeat seats seat := by
  unfold saveSeat
  rw [List.map_map]
  apply List.map_congr_left
  intro s _
  simp only [Function.comp]
  by_cases hs : s.id = seat.id
  · simp [hs]
  · simp [hs]

/-- After the booking found by the seat query was saved as cancelled, the query finds
nothing, provided the seat had at most one active booking in the day. -/
theorem find_after_cancel {bs : List Booking} {seatId : Nat} {r : DayRange} {eb : Booking}
    (hinv : bs.countP (seatActiveIn seatId r) ≤ 1)
    (hfind : bs.find? (seatActiveIn seatId r) = some eb) (now : Int) :
    (saveBooking bs (markCancelled eb now)).find? (seatActiveIn seatId r) = none := by
  rw [List.find?_eq_none]
  intro x hx
  obtain ⟨y, hy, rfl⟩ := List.mem_map.mp hx
  by_cases hid : y.id = (markCancelled eb now).id
  · rw [if_pos hid]; simp [seatActiveIn, markCancelled]
  · rw [if_neg hid]
    intro hpy
    have := eq_of_countP_le_one hinv hy (List.mem_of_find?_eq_some hfind) hpy
      (List.find?_some hfind)
    exact hid (by rw [this]; rfl)

/-- C8. Releasing is idempotent.  In a store where every seat has at most one active
booking per day, whenever `releaseDesignatedSeat` of a user for a date succeeds, the same
request served again right afterwards succeeds too, cancels nothing and leaves the whole
store (the release fields of the seat and the status of every booking included) exactly
as the first call left it. -/
theorem release_idempotent (st st1 : Store) (now1 now2 : Int) (userId : Nat) (date : Int)
    (hb : Bool) (seat : Seat)
    (hinv : NoDoubleSeatDay st.bookings)
    (h : releaseDesignatedSeat st now1 userId date = (st1, .released hb seat)) :
    releaseDesignatedSeat st1 now2 userId date = (st1, .released false seat) := by
  obtain ⟨user, seat0, h1, h2, h3, hs, hseats, husers, hbk⟩ := releaseDesignatedSeat_released h
  have hfs : findSeat st1.seats seat0.id = some seat := by
    rw [hseats]; exact findSeat_saveSeat_self h3 (by rw [hs]; rfl)
  have hnone : st1.bookings.find? (seatActiveIn seat0.id (getDayRange date)) = none := by
    rcases hbk with ⟨_, hn, e⟩ | ⟨_, eb, he, _, e⟩
    · rw [e]; exact hn
    · rw [e]; exact find_after_cancel (hinv _ _) he now1
  rcases releaseDesignatedSeat_cases st1 now2 userId date with
    ⟨c, _⟩ | ⟨u, c1, c2, _⟩ | ⟨u, sid, c1, c2, c3, _⟩ | ⟨u, sid, s, eb, c1, c2, c3, c4, _⟩ |
    ⟨u, sid, s, eb, c1, c2, c3, c4, _⟩ | ⟨u, sid, s, c1, c2, c3, c4, e⟩
  · rw [husers, h1] at c; cases c
  · rw [husers, h1] at c1; cases c1; rw [h2] at c2; cases c2
  · rw [husers, h1] at c1; cases c1; rw [h2] at c2; cases c2; rw [hfs] at c3; cases c3
  · rw [husers, h1] at c1; cases c1; rw [h2] at c2; cases c2; rw [hnone] at c4; cases c4
  · rw [husers, h1] at c1; cases c1; rw [h2] at c2; cases c2; rw [hnone] at c4; cases c4
  · rw [husers, h1] at c1; cases c1; rw [h2] at c2; cases c2; rw [hfs] at c3; cases c3
    have hm : markReleased seat userId (startOfDay date) = seat := by rw [hs]; rfl
    rw [e, hm, hseats, saveSeat_idem, ← hseats]

theorem release_idempotent_witness :
    releaseDesignatedSeat demoStore1 demoNow 1 demoDate =
        (demoStore1Cancelled, .released true demoSeatReleased) ∧
      releaseDesignatedSeat demoStore1Cancelled 40000000 1 demoDate =
        (demoStore1Cancelled, .released false demoSeatReleased) :=
  ⟨by decide,
    release_idempotent demoStore1 demoStore1Cancelled demoNow 40000000 1 demoDate true
      demoSeatReleased (fun _ _ => List.countP_le_length _) (by decide)⟩

theorem replacedAt_map {α : Type} (key : α → Nat) (id : Nat) (d : α) (l : List α) :
    ReplacedAt key id d l (l.map (fun x => if key x = id then d else x)) := by
  unfold ReplacedAt
  induction l with
  | nil => exact List.Forall₂.nil
  | cons x xs ih =>
    refine List.Forall₂.cons ?_ ih
    by_cases hx : key x = id
    · simp [hx]
    · simp [hx]

/-- C9. A successful `releaseDesignatedSeat` of a user for a date leaves the seat the
user document names with status `released`, `releaseDate` the midnight of the date and
`releasedBy` the user, whether or not a booking existed, and leaves every other seat and
every user as it was.  Either the seat had no active booking in that day and no booking
changed, or the active booking found was the user's and is now cancelled with
`cancelledAt` stamped, every booking under another identifier being as it was.  Where
every seat has at most one active booking per day, an active booking the user held on
that seat for that day is the one cancelled. -/
theorem release_effects (st st1 : Store) (now : Int) (userId : Nat) (date : Int)
    (hb : Bool) (seat : Seat)
    (h : releaseDesignatedSeat st now userId date = (st1, .released hb seat)) :
    ∃ user seat0, findUser st.users userId = some user ∧
      user.designatedSeat = some seat0.id ∧ findSeat st.seats seat0.id = some seat0 ∧
      findSeat st1.seats seat0.id = some seat ∧
      IsReleasedFor seat userId (startOfDay date) ∧ SameIdentity seat seat0 ∧
      ReplacedAt Seat.id seat0.id seat st.seats st1.seats ∧ st1.users = st.users ∧
      ((hb = false ∧ st1.bookings = st.bookings ∧
          ∀ x ∈ st.bookings, x.seat = seat0.id → x.status = .active →
            inRange (getDayRange date) x.date = false) ∨
        (hb = true ∧ ∃ eb ∈ st.bookings, eb.user = userId ∧ eb.seat = seat0.id ∧
          eb.status = .active ∧ inRange (getDayRange date) eb.date = true ∧
          ReplacedAt Booking.id eb.id { eb with status := .cancelled, cancelledAt := some now }
            st.bookings st1.bookings)) ∧
      (NoDoubleSeatDay st.bookings →
        ∀ x ∈ st.bookings, x.user = userId → x.seat = seat0.id → x.status = .active →
          inRange (getDayRange date) x.date = true →
          ReplacedAt Booking.id x.id { x with status := .cancelled, cancelledAt := some now }
            st.bookings st1.bookings) := by
  obtain ⟨user, seat0, h1, h2, h3, hs, hseats, husers, hbk⟩ := releaseDesignatedSeat_released h
  have hsid : seat.id = seat0.id := by rw [hs]; rfl
  refine ⟨user, seat0, h1, h2, h3, ?_, ?_, ?_, ?_, husers, ?_, ?_⟩
  · rw [hseats]; exact findSeat_saveSeat_self h3 hsid
  · rw [hs]; exact ⟨rfl, rfl, rfl, rfl⟩
  · rw [hs]; exact ⟨rfl, rfl, rfl, rfl, rfl⟩
  · rw [hseats, saveSeat, hsid]; exact replacedAt_map _ _ _ _
  · rcases hbk with ⟨e0, hn, e⟩ | ⟨e0, eb, he, hu, e⟩
    · exact Or.inl ⟨e0, e, (find_seatActiveIn_none _ _ _).mp hn⟩
    · right
      have hp := List.find?_some he
      simp only [seatActiveIn, Bool.and_eq_true, beq_iff_eq] at hp
      refine ⟨e0, eb, List.mem_of_find?_eq_some he, hu, hp.1.1, hp.2, hp.1.2, ?_⟩
      rw [e]; exact replacedAt_map _ _ _ _
  · intro hinv x hx hxu hxs hxa hxr
    have hpx : seatActiveIn seat0.id (getDayRange date) x = true := by
      simp [seatActiveIn, hxs, hxa, hxr]
    rcases hbk with ⟨_, hn, _⟩ | ⟨_, eb, he, _, e⟩
    · have := List.find?_eq_none.mp hn x hx
      exact absurd hpx this
    · have hxe : x = eb :=
        eq_of_countP_le_one (hinv _ _) hx (List.mem_of_find?_eq_some he) hpx
          (List.find?_some he)
      subst hxe
      rw [e]; exact replacedAt_map _ _ _ _

theorem release_effects_witness :
    releaseDesignatedSeat demoStore1 demoNow 1 demoDate =
        (demoStore1Cancelled, .released true demoSeatReleased) ∧
      ∃ (user : User) (seat0 : Seat), findUser demoStore1.users 1 = some user ∧
        findSeat demoStore1Cancelled.seats seat0.id = some demoSeatReleased ∧
        IsReleasedFor demoSeatReleased 1 (startOfDay demoDate) := by
  obtain ⟨user, seat0, h1, _, _, h4, h5, _⟩ := release_effects demoStore1 demoStore1Cancelled
    demoNow 1 demoDate true demoSeatReleased (by decide)
  exact ⟨by decide, user, seat0, h1, h4, h5⟩

/-- C10. For a requester whose user document exists, `releaseDesignatedSeat` answers
`noDesignatedSeat` if and only if the document names no designated seat.  Otherwise,
every seat having at most one active booking per day, it answers `forbidden` if and only
if the named seat exists and has an active booking in the day of the date that belongs
to another user; it succeeds if and only if the seat exists and has no such booking, and
answers `seatNotFound` if and only if the seat does not exist.  Whenever it answers
`noDesignatedSeat` or `forbidden` the store is as it was. -/
theorem release_failures (st : Store) (now : Int) (userId : Nat) (date : Int) (user : User)
    (huser : findUser st.users userId = some user) :
    ((releaseDesignatedSeat st now userId date).2 = .noDesignatedSeat ↔
        user.designatedSeat = none) ∧
      (∀ seatId, user.designatedSeat = some seatId → NoDoubleSeatDay st.bookings →
        ((releaseDesignatedSeat st now userId date).2 = .forbidden ↔
            (∃ seat ∈ st.seats, seat.id = seatId) ∧
              BookedByOther st.bookings seatId date userId) ∧
          ((∃ hb s, (releaseDesignatedSeat st now userId date).2 = .released hb s) ↔
            (∃ seat ∈ st.seats, seat.id = seatId) ∧
              ¬ BookedByOther st.bookings seatId date userId) ∧
          ((releaseDesignatedSeat st now userId date).2 = .seatNotFound ↔
            ¬ ∃ seat ∈ st.seats, seat.id = seatId)) ∧
      ((releaseDesignatedSeat st now userId date).2 = .noDesignatedSeat ∨
          (releaseDesignatedSeat st now userId date).2 = .forbidden →
        (releaseDesignatedSeat st now userId date).1 = st) := by
  rcases releaseDesignatedSeat_cases st now userId date with
    ⟨c, _⟩ | ⟨u, c1, c2, e⟩ | ⟨u, sid, c1, c2, c3, e⟩ | ⟨u, sid, s, eb, c1, c2, c3, c4, c5, e⟩ |
    ⟨u, sid, s, eb, c1, c2, c3, c4, c5, e⟩ | ⟨u, sid, s, c1, c2, c3, c4, e⟩
  · rw [huser] at c; cases c
  · rw [huser] at c1; cases c1
    refine ⟨by simp [e, c2], ?_, by simp [e]⟩
    intro seatId hd; rw [c2] at hd; cases hd
  · rw [huser] at c1; cases c1
    refine ⟨by simp [e, c2], ?_, by simp [e]⟩
    intro seatId hd _; rw [c2] at hd; cases hd
    have hex : ¬ ∃ seat ∈ st.seats, seat.id = sid := by
      rw [← findSeat_isSome_iff, c3]; simp
    exact ⟨by simp [e, hex], by simp [e, hex], by simp [e, hex]⟩
  · rw [huser] at c1; cases c1
    have hp := List.find?_some c4
    simp only [seatActiveIn, Bool.and_eq_true, beq_iff_eq] at hp
    have hother : BookedByOther st.bookings sid date userId :=
      ⟨eb, List.mem_of_find?_eq_some c4, hp.1.1, hp.2, hp.1.2, c5⟩
    have hex : ∃ seat ∈ st.seats, seat.id = sid := (findSeat_isSome_iff _ _).mp ⟨s, c3⟩
    refine ⟨by simp [e, c2], ?_, by simp [e]⟩
    intro seatId hd _; rw [c2] at hd; cases hd
    exact ⟨by simp [e, hother, hex], by simp [e, hother], by simp [e, hex]⟩
  · rw [huser] at c1; cases c1
    have hex : ∃ seat ∈ st.seats, seat.id = sid := (findSeat_isSome_iff _ _).mp ⟨s, c3⟩
    refine ⟨by simp [e, c2], ?_, by simp [e]⟩
    intro seatId hd hinv; rw [c2] at hd; cases hd
    have hnot : ¬ BookedByOther st.bookings sid date userId := by
      rintro ⟨x, hx, hxs, hxa, hxr, hxu⟩
      have hpx : seatActiveIn sid (getDayRange date) x = true := by
        simp [seatActiveIn, hxs, hxa, hxr]
      have := eq_of_countP_le_one (hinv _ _) hx (List.mem_of_find?_eq_some c4) hpx
        (List.find?_some c4)
      exact hxu (by rw [this, c5])
    exact ⟨by simp [e, hnot], by simp [e, hnot, hex], by simp [e, hex]⟩
  · rw [huser] at c1; cases c1
    have hex : ∃ seat ∈ st.seats, seat.id = sid := (findSeat_isSome_iff _ _).mp ⟨s, c3⟩
    refine ⟨by simp [e, c2], ?_, by simp [e]⟩
    intro seatId hd _; rw [c2] at hd; cases hd
    have hnot : ¬ BookedByOther st.bookings sid date userId := by
      rintro ⟨x, hx, hxs, hxa, hxr, _⟩
      have := (find_seatActiveIn_none _ _ _).mp c4 x hx hxs hxa
      rw [hxr] at this; cases this
    exact ⟨by simp [e, hnot], by simp [e, hnot, hex], by simp [e, hex]⟩

theorem release_failures_witness :
    ((releaseDesignatedSeat demoStore2 demoNow 1 demoDate).2 = .forbidden ↔
        (∃ seat ∈ demoStore2.seats, seat.id = 1) ∧
          BookedByOther demoStore2.bookings 1 demoDate 1) ∧
      releaseDesignatedSeat demoStore2 demoNow 1 demoDate = (demoStore2, .forbidden) ∧
      releaseDesignatedSeat demoStore2 demoNow 2 demoDate = (demoStore2, .noDesignatedSeat) :=
  ⟨((release_failures demoStore2 demoNow 1 demoDate user1 (by decide)).2.1 1
      (by decide) (fun _ _ => List.countP_le_length _)).1,
    by decide, by decide⟩

/-! ## The outcomes of `bookSeat` -/

/-- The outcomes of `bookSeat`, one per path through the handler, each with the checks
that lead to it. -/
theorem bookSeat_outcomes (st : Store) (now : Int) (userId : Nat) (req : BookRequest) :
    (jsStringGe (orDefault req.startTime defaultStartTime)
          (orDefault req.endTime defaultEndTime) = true ∧
        bookSeat st now userId req = (st, .invalidTimeRange)) ∨
      (jsStringGe (orDefault req.startTime defaultStartTime)
          (orDefault req.endTime defaultEndTime) = false ∧
        findSeat st.seats req.seatId = none ∧
        bookSeat st now userId req = (st, .seatNotFound)) ∨
      (jsStringGe (orDefault req.startTime defaultStartTime)
          (orDefault req.endTime defaultEndTime) = false ∧
        (∃ seat, findSeat st.seats req.seatId = some seat) ∧
        (isWithinBookingWindow now (startOfDay req.date)).allowed = false ∧
        bookSeat st now userId req =
          (st, .outsideBookingHorizon
            (isWithinBookingWindow now (startOfDay req.date)).message)) ∨
      (jsStringGe (orDefault req.startTime defaultStartTime)
          (orDefault req.endTime defaultEndTime) = false ∧
        (∃ seat, findSeat st.seats req.seatId = some seat) ∧
        (isWithinBookingWindow now (startOfDay req.date)).allowed = true ∧
        (∃ x, st.bookings.find? (userActiveIn userId (getDayRange (startOfDay req.date))) =
          some x) ∧
        bookSeat st now userId req = (st, .duplicateUserBooking)) ∨
      (jsStringGe (orDefault req.startTime defaultStartTime)
          (orDefault req.endTime defaultEndTime) = false ∧
        (∃ seat, findSeat st.seats req.seatId = some seat) ∧
        (isWithinBookingWindow now (startOfDay req.date)).allowed = true ∧
        st.bookings.find? (userActiveIn userId (getDayRange (startOfDay req.date))) = none ∧
        (∃ x, st.bookings.find? (seatActiveIn req.seatId (getDayRange (startOfDay req.date))) =
          some x) ∧
        bookSeat st now userId req = (st, .seatAlreadyBooked)) ∨
      (∃ seat, Passes st now userId req seat ∧
        bookSeat st now userId req =
          ({ st with seats := seatsAfterBooking st.seats seat,
                     bookings := st.bookings ++ [bookingFor st now userId req seat] },
            .created (bookingFor st now userId req seat))) := by
  cases h1 : jsStringGe (orDefault req.startTime defaultStartTime)
      (orDefault req.endTime defaultEndTime) with
  | true => left; exact ⟨rfl, by simp [bookSeat, h1]⟩
  | false =>
    right
    cases h2 : findSeat st.seats req.seatId with
    | none => left; exact ⟨rfl, rfl, by simp [bookSeat, h1, h2]⟩
    | some seat =>
      right
      cases h3 : (isWithinBookingWindow now (startOfDay req.date)).allowed with
      | false => left; exact ⟨rfl, ⟨seat, rfl⟩, rfl, by simp [bookSeat, h1, h2, h3]⟩
      | true =>
        right
        cases h4 : st.bookings.find?
            (userActiveIn userId (getDayRange (startOfDay req.date))) with
        | some x => left; exact ⟨rfl, ⟨seat, rfl⟩, rfl, ⟨x, rfl⟩, by simp [bookSeat, h1, h2, h3, h4]⟩
        | none =>
          right
          cases h5 : st.bookings.find?
              (seatActiveIn req.seatId (getDayRange (startOfDay req.date))) with
          | some x =>
            left
            exact ⟨rfl, ⟨seat, rfl⟩, rfl, rfl, ⟨x, rfl⟩, by simp [bookSeat, h1, h2, h3, h4, h5]⟩
          | none =>
            right
            have hp : Passes st now userId req seat := ⟨h1, h2, h3, h4, h5⟩
            exact ⟨seat, hp, bookSeat_of_passes hp⟩

/-! ## Cancelling -/

theorem findBooking_isSome_iff (bookings : List Booking) (id : Nat) :
    (∃ b, findBooking bookings id = some b) ↔ ∃ b ∈ bookings, b.id = id := by
  unfold findBooking
  constructor
  · rintro ⟨b, h⟩
    exact ⟨b, List.mem_of_find?_eq_some h, by simpa using List.find?_some h⟩
  · rintro ⟨b, hm, hid⟩
    cases h : bookings.find? (fun x => x.id == id) with
    | some x => exact ⟨x, rfl⟩
    | none =>
      have := List.find?_eq_none.mp h b hm
      simp [hid] at this

theorem findBooking_id {bookings : List Booking} {id : Nat} {b : Booking}
    (h : findBooking bookings id = some b) : b.id = id := by
  simpa using List.find?_some h

theorem findBooking_mem {bookings : List Booking} {id : Nat} {b : Booking}
    (h : findBooking bookings id = some b) : b ∈ bookings :=
  List.mem_of_find?_eq_some h

theorem mem_saveBooking_self {bookings : List Booking} {b c : Booking} (hb : b ∈ bookings)
    (hid : b.id = c.id) : c ∈ saveBooking bookings c := by
  unfold saveBooking
  exact List.mem_map.mpr ⟨b, hb, by rw [if_pos hid]⟩

theorem eq_of_mem_saveBooking {bookings : List Booking} {c x : Booking}
    (hx : x ∈ saveBooking bookings c) (hid : x.id = c.id) : x = c := by
  unfold saveBooking at hx
  obtain ⟨y, _, rfl⟩ := List.mem_map.mp hx
  by_cases hy : y.id = c.id
  · rw [if_pos hy]
  · rw [if_neg hy] at hid; exact absurd hid hy

/-- C11. `cancelBooking` answers `notFound` if and only if no booking carries the
identifier.  Otherwise, `b0` being the booking found, it answers `forbidden` if and only
if the requester is neither the user of `b0` nor an admin.  On either failure the store
(bookings and seats) is as it was.  In every remaining case the answer is `cancelled`,
the booking is in the collection with status `cancelled` and `cancelledAt` the time of the
call, and every booking under another identifier is as it was. -/
theorem cancel_failures (st : Store) (now : Int) (reqUser : ReqUser) (bookingId : Nat) :
    ((cancelBooking st now reqUser bookingId).2 = .notFound ↔
        ¬ ∃ b ∈ st.bookings, b.id = bookingId) ∧
      (∀ b0, findBooking st.bookings bookingId = some b0 →
        ((cancelBooking st now reqUser bookingId).2 = .forbidden ↔
            b0.user ≠ reqUser.id ∧ reqUser.role ≠ .admin) ∧
          (¬ (b0.user ≠ reqUser.id ∧ reqUser.role ≠ .admin) →
            (∃ d, (cancelBooking st now reqUser bookingId).2 = .cancelled d) ∧
              ReplacedAt Booking.id bookingId
                { b0 with status := .cancelled, cancelledAt := some now }
                st.bookings (cancelBooking st now reqUser bookingId).1.bookings ∧
              (∃ x ∈ (cancelBooking st now reqUser bookingId).1.bookings, x.id = bookingId) ∧
              ∀ x ∈ (cancelBooking st now reqUser bookingId).1.bookings, x.id = bookingId →
                x.status = .cancelled ∧ x.cancelledAt = some now)) ∧
      ((cancelBooking st now reqUser bookingId).2 = .notFound ∨
          (cancelBooking st now reqUser bookingId).2 = .forbidden →
        (cancelBooking st now reqUser bookingId).1 = st) := by
  rcases cancelBooking_cases st now reqUser bookingId with
    ⟨hn, e⟩ | ⟨b1, h1, hf, e⟩ | ⟨b1, h1, hf, e⟩
  · have hno : ¬ ∃ b ∈ st.bookings, b.id = bookingId := by
      rw [← findBooking_isSome_iff, hn]; simp
    refine ⟨by simp [e, hno], ?_, by simp [e]⟩
    intro b0 h0; rw [hn] at h0; cases h0
  · have hyes : ∃ b ∈ st.bookings, b.id = bookingId :=
      (findBooking_isSome_iff _ _).mp ⟨b1, h1⟩
    refine ⟨by simp [e, hyes], ?_, by simp [e]⟩
    intro b0 h0; rw [h1] at h0; cases h0
    exact ⟨by simp [e, hf], fun hn => absurd hf hn⟩
  · have hyes : ∃ b ∈ st.bookings, b.id = bookingId :=
      (findBooking_isSome_iff _ _).mp ⟨b1, h1⟩
    have hid : b1.id = bookingId := findBooking_id h1
    refine ⟨by simp [e, hyes], ?_, by simp [e]⟩
    intro b0 h0; rw [h1] at h0; cases h0
    refine ⟨by simp [e, hf], fun _ => ⟨⟨_, by rw [e]⟩, ?_, ?_, ?_⟩⟩
    · rw [e, ← hid]; exact replacedAt_map _ _ _ _
    · rw [e]
      exact ⟨markCancelled b1 now, mem_saveBooking_self (findBooking_mem h1) rfl, hid⟩
    · rw [e]
      intro x hx hxid
      have : x = markCancelled b1 now := eq_of_mem_saveBooking hx (by rw [hxid, ← hid]; rfl)
      rw [this]; exact ⟨rfl, rfl⟩

theorem cancel_failures_witness :
    cancelBooking demoStore1 demoNow { id := 2, role := .employee } 1 =
        (demoStore1, .forbidden) ∧
      cancelBooking demoStore1 demoNow { id := 2, role := .employee } 7 =
        (demoStore1, .notFound) ∧
      ((cancelBooking demoStore1 demoNow { id := 2, role := .admin } 1).2 = .forbidden ↔
        demoBooking1.user ≠ 2 ∧ Role.admin ≠ Role.admin) ∧
      ∃ x ∈ (cancelBooking demoStore1 demoNow { id := 2, role := .admin } 1).1.bookings,
        x.id = 1 :=
  have h := (cancel_failures demoStore1 demoNow { id := 2, role := .admin } 1).2.1
    demoBooking1 (by decide)
  ⟨by decide, by decide, h.1, (h.2 (by decide)).2.2.1⟩

/-- C14. A failed `bookSeat` is atomic: whenever the answer is one of the five errors
(invalid time range, seat not found, outside the booking horizon, duplicate user booking,
seat already booked) the store, bookings and seats, is exactly what it was; and an answer
that is not `created` is one of these five. -/
theorem failed_reserve_atomic (st : Store) (now : Int) (userId : Nat) (req : BookRequest) :
    ((bookSeat st now userId req).2 = .invalidTimeRange ∨
        (bookSeat st now userId req).2 = .seatNotFound ∨
        (∃ m, (bookSeat st now userId req).2 = .outsideBookingHorizon m) ∨
        (bookSeat st now userId req).2 = .duplicateUserBooking ∨
        (bookSeat st now userId req).2 = .seatAlreadyBooked →
      (bookSeat st now userId req).1 = st) ∧
    ((∀ b, (bookSeat st now userId req).2 ≠ .created b) →
      (bookSeat st now userId req).2 = .invalidTimeRange ∨
        (bookSeat st now userId req).2 = .seatNotFound ∨
        (∃ m, (bookSeat st now userId req).2 = .outsideBookingHorizon m) ∨
        (bookSeat st now userId req).2 = .duplicateUserBooking ∨
        (bookSeat st now userId req).2 = .seatAlreadyBooked) := by
  rcases bookSeat_outcomes st now userId req with
    ⟨_, e⟩ | ⟨_, _, e⟩ | ⟨_, _, _, e⟩ | ⟨_, _, _, _, e⟩ | ⟨_, _, _, _, _, e⟩ | ⟨seat, _, e⟩
  · exact ⟨fun _ => by rw [e], fun _ => by simp [e]⟩
  · exact ⟨fun _ => by rw [e], fun _ => by simp [e]⟩
  · exact ⟨fun _ => by rw [e], fun _ => by simp [e]⟩
  · exact ⟨fun _ => by rw [e], fun _ => by simp [e]⟩
  · exact ⟨fun _ => by rw [e], fun _ => by simp [e]⟩
  · refine ⟨fun h => ?_, fun h => ?_⟩
    · rw [e] at h; simp at h
    · exact absurd (by rw [e]) (h _)

theorem failed_reserve_atomic_witness :
    (bookSeat demoStore1 demoNow 2 demoRequest).2 = .seatAlreadyBooked ∧
      (bookSeat demoStore1 demoNow 2 demoRequest).1 = demoStore1 :=
  ⟨by decide,
    (failed_reserve_atomic demoStore1 demoNow 2 demoRequest).1
      (Or.inr (Or.inr (Or.inr (Or.inr (by decide)))))⟩

theorem seatsAfterCancel_released {seats : List Seat} {b : Booking} {now : Int} {seat : Seat}
    (h : findSeat seats b.seat = some seat) (ht : seat.type = .designated)
    (hd : startOfDay now ≤ b.date) :
    seatsAfterCancel seats b now = saveSeat seats (markReleased seat b.user b.date) := by
  unfold seatsAfterCancel
  rw [h]
  simp [ht, hd]

theorem seatsAfterCancel_unchanged {seats : List Seat} {b : Booking} {now : Int}
    (h : ¬ ∃ seat, findSeat seats b.seat = some seat ∧ seat.type = .designated ∧
      startOfDay now ≤ b.date) :
    seatsAfterCancel seats b now = seats := by
  unfold seatsAfterCancel
  cases hs : findSeat seats b.seat with
  | none => rfl
  | some seat =>
    by_cases ht : seat.type = .designated
    · by_cases hd : startOfDay now ≤ b.date
      · exact absurd ⟨seat, hs, ht, hd⟩ h
      · simp [ht, hd]
    · simp [ht]

/-- What a `cancelled` answer of `cancelBooking` tells. -/
theorem cancelBooking_cancelled {st : Store} {now : Int} {reqUser : ReqUser} {id : Nat}
    {b0 : Booking} {d : Bool} (hfind : findBooking st.bookings id = some b0)
    (h : (cancelBooking st now reqUser id).2 = .cancelled d) :
    cancelBooking st now reqUser id =
      ({ st with seats := seatsAfterCancel st.seats b0 now,
                 bookings := saveBooking st.bookings (markCancelled b0 now) },
        .cancelled (b0.bookingType == .designated)) := by
  rcases cancelBooking_cases st now reqUser id with ⟨_, e⟩ | ⟨_, _, _, e⟩ | ⟨b1, h1, _, e⟩
  · rw [e] at h; simp at h
  · rw [e] at h; simp at h
  · rw [hfind] at h1; cases h1; exact e

/-- The seats after a successful `cancelBooking` of the booking `b0`. -/
theorem cancelBooking_seats {st : Store} {now : Int} {reqUser : ReqUser} {id : Nat}
    {b0 : Booking} {d : Bool} (hfind : findBooking st.bookings id = some b0)
    (h : (cancelBooking st now reqUser id).2 = .cancelled d) :
    (∀ seat, findSeat st.seats b0.seat = some seat → seat.type = .designated →
        startOfDay now ≤ b0.date →
        ∃ seat1, findSeat (cancelBooking st now reqUser id).1.seats b0.seat = some seat1 ∧
          IsReleasedFor seat1 b0.user b0.date ∧ SameIdentity seat1 seat ∧
          ReplacedAt Seat.id b0.seat seat1 st.seats (cancelBooking st now reqUser id).1.seats) ∧
      (¬ (∃ seat, findSeat st.seats b0.seat = some seat ∧ seat.type = .designated ∧
          startOfDay now ≤ b0.date) →
        (cancelBooking st now reqUser id).1.seats = st.seats) := by
  rw [cancelBooking_cancelled hfind h]
  refine ⟨?_, fun hn => seatsAfterCancel_unchanged hn⟩
  intro seat hs ht hd
  refine ⟨markReleased seat b0.user b0.date, ?_, ⟨rfl, rfl, rfl, rfl⟩, ⟨rfl, rfl, rfl, rfl, rfl⟩, ?_⟩
  · simp only [seatsAfterCancel_released hs ht hd]
    exact findSeat_saveSeat_self hs rfl
  · simp only [seatsAfterCancel_released hs ht hd]
    have hid0 : seat.id = b0.seat := findSeat_id hs
    have hid : (markReleased seat b0.user b0.date).id = b0.seat := hid0
    rw [saveSeat, hid]
    exact replacedAt_map _ _ _ _

/-- C12, as stated, fails: user 2 cancels a booking of type `floating` made on seat 1,
the designated seat of user 1, and the seat is marked released. -/
theorem cancel_releases_by_booking_type_counterexample : ¬ CancelReleasesByBookingType := by
  intro h
  have := (h demoStore2 demoNow { id := 2, role := .employee } 1 demoBooking2 false
    (by decide) (by decide)).2 (by decide)
  revert this
  decide

/-- C12, amended. On every successful `cancelBooking` the booked seat is marked released
for the date of the booking, by the user of the booking, if and only if the booked seat
is of type `designated` and the date of the booking is today or later, whatever the type
of the cancelled booking; every other seat is as it was.  In every other case (a floating
seat, a missing seat or a booking dated before today) the seat collection is unchanged. -/
theorem cancel_releases_designated_seat (st : Store) (now : Int) (reqUser : ReqUser)
    (bookingId : Nat) (b0 : Booking) (d : Bool)
    (hfind : findBooking st.bookings bookingId = some b0)
    (hok : (cancelBooking st now reqUser bookingId).2 = .cancelled d) :
    (∀ seat, findSeat st.seats b0.seat = some seat → seat.type = .designated →
        startOfDay now ≤ b0.date →
        ∃ seat1,
          findSeat (cancelBooking st now reqUser bookingId).1.seats b0.seat = some seat1 ∧
          IsReleasedFor seat1 b0.user b0.date ∧ SameIdentity seat1 seat ∧
          ReplacedAt Seat.id b0.seat seat1 st.seats
            (cancelBooking st now reqUser bookingId).1.seats) ∧
      (¬ (∃ seat, findSeat st.seats b0.seat = some seat ∧ seat.type = .designated ∧
          startOfDay now ≤ b0.date) →
        (cancelBooking st now reqUser bookingId).1.seats = st.seats) :=
  cancelBooking_seats hfind hok

theorem cancel_releases_designated_seat_witness :
    demoBooking2.bookingType = .floating ∧
      ∃ seat1, findSeat (cancelBooking demoStore2 demoNow { id := 2, role := .employee } 1).1.seats
          demoBooking2.seat = some seat1 ∧
        IsReleasedFor seat1 demoBooking2.user demoBooking2.date := by
  obtain ⟨seat1, h1, h2, _⟩ := (cancel_releases_designated_seat demoStore2 demoNow
    { id := 2, role := .employee } 1 demoBooking2 false (by decide) (by decide)).1 seatD1
    (by decide) (by decide) (by decide)
  exact ⟨by decide, seat1, h1, h2⟩

/-- The statement `CancelOfCancelledChangesNothing` does not hold of the handler: user 1
cancels once more the booking cancelled at 10:00; the call succeeds, stamps
`cancelledAt` anew and marks seat 1 released. -/
theorem cancel_of_cancelled_counterexample : ¬ CancelOfCancelledChangesNothing := by
  intro h
  have := (h demoStoreRebooked 40000000 { id := 1, role := .employee } 1 demoBooking1Cancelled
    (by decide) (by decide)).2
  revert this
  decide

/-- C13, what the handler does with a booking already cancelled, where the claim has it
refuse and change nothing.  `cancelBooking` never reads `booking.status`: requested by
the user of the booking or by an admin it answers `cancelled`, stamps `cancelledAt` with
the time of this call, leaves every booking under another identifier as it was, and
marks the seat released once more when the seat is a designated seat and the booking is
dated today or later; the seats are as they were in every other case only. -/
theorem cancel_of_cancelled_booking (st : Store) (now : Int) (reqUser : ReqUser)
    (bookingId : Nat) (b0 : Booking)
    (hfind : findBooking st.bookings bookingId = some b0)
    (hst : b0.status = .cancelled)
    (hauth : b0.user = reqUser.id ∨ reqUser.role = .admin) :
    (cancelBooking st now reqUser bookingId).2 = .cancelled (b0.bookingType == .designated) ∧
      ReplacedAt Booking.id bookingId { b0 with cancelledAt := some now }
        st.bookings (cancelBooking st now reqUser bookingId).1.bookings ∧
      (∀ x ∈ (cancelBooking st now reqUser bookingId).1.bookings, x.id = bookingId →
        x.status = .cancelled ∧ x.cancelledAt = some now) ∧
      (∀ seat, findSeat st.seats b0.seat = some seat → seat.type = .designated →
        startOfDay now ≤ b0.date →
        ∃ seat1,
          findSeat (cancelBooking st now reqUser bookingId).1.seats b0.seat = some seat1 ∧
          IsReleasedFor seat1 b0.user b0.date) ∧
      (¬ (∃ seat, findSeat st.seats b0.seat = some seat ∧ seat.type = .designated ∧
          startOfDay now ≤ b0.date) →
        (cancelBooking st now reqUser bookingId).1.seats = st.seats) := by
  have hnf : ¬ (b0.user ≠ reqUser.id ∧ reqUser.role ≠ .admin) := by
    rintro ⟨h1, h2⟩
    rcases hauth with h | h
    · exact h1 h
    · exact h2 h
  have hid : b0.id = bookingId := findBooking_id hfind
  rcases cancelBooking_cases st now reqUser bookingId with
    ⟨hn, _⟩ | ⟨b1, h1, hf, _⟩ | ⟨b1, h1, _, e⟩
  · rw [hfind] at hn; cases hn
  · rw [hfind] at h1; cases h1; exact absurd hf hnf
  · rw [hfind] at h1; cases h1
    have hresp : (cancelBooking st now reqUser bookingId).2 =
        .cancelled (b0.bookingType == .designated) := by rw [e]
    have hseats := cancelBooking_seats hfind hresp
    have hsame : markCancelled b0 now = { b0 with cancelledAt := some now } := by
      simp [markCancelled, hst]
    refine ⟨hresp, ?_, ?_, ?_, hseats.2⟩
    · rw [e, ← hid, ← hsame]; exact replacedAt_map _ _ _ _
    · rw [e]
      intro x hx hxid
      have : x = markCancelled b0 now := eq_of_mem_saveBooking hx (by rw [hxid, ← hid]; rfl)
      rw [this]; exact ⟨rfl, rfl⟩
    · intro seat hs ht hd
      obtain ⟨seat1, h1, h2, _⟩ := hseats.1 seat hs ht hd
      exact ⟨seat1, h1, h2⟩

theorem cancel_of_cancelled_booking_witness :
    demoBooking1Cancelled.status = .cancelled ∧
      demoBooking1Cancelled.cancelledAt = some 36000000 ∧
      findSeat demoStoreRebooked.seats 1 = some seatD1 ∧ IsNormal seatD1 ∧
      (cancelBooking demoStoreRebooked 40000000 { id := 1, role := .employee } 1).2 =
        .cancelled true ∧
      (∀ x ∈ (cancelBooking demoStoreRebooked 40000000
          { id := 1, role := .employee } 1).1.bookings,
        x.id = 1 → x.status = .cancelled ∧ x.cancelledAt = some 40000000) ∧
      ∃ seat1,
        findSeat (cancelBooking demoStoreRebooked 40000000
          { id := 1, role := .employee } 1).1.seats 1 = some seat1 ∧
        IsReleasedFor seat1 1 172800000 :=
  have h := cancel_of_cancelled_booking demoStoreRebooked 40000000 { id := 1, role := .employee }
    1 demoBooking1Cancelled (by decide) (by decide) (by decide)
  ⟨by decide, by decide, by decide, by unfold IsNormal; decide, h.1, h.2.2.1,
    h.2.2.2.1 seatD1 (by decide) (by decide) (by decide)⟩

/-! ## The booking horizon -/

theorem dayNumber_startOfDay (t : Int) : dayNumber (startOfDay t) = dayNumber t := by
  unfold dayNumber startOfDay dayMs; omega

theorem isWithinBookingWindow_past {now t : Int} (h : dayNumber t < dayNumber now) :
    isWithinBookingWindow now t = { allowed := false, message := some .pastDate } := by
  have : startOfDay t < startOfDay now := by
    unfold dayNumber at h; unfold startOfDay; unfold dayMs at *; omega
  simp [isWithinBookingWindow, this]

theorem isWithinBookingWindow_beyond {now t : Int} (h : dayNumber now + 15 ≤ dayNumber t) :
    isWithinBookingWindow now t = { allowed := false, message := some .beyondTwoWeeks } := by
  have h1 : ¬ startOfDay t < startOfDay now := by
    unfold dayNumber at h; unfold startOfDay; unfold dayMs at *; omega
  have h2 : startOfDay t > startOfDay now + 14 * dayMs := by
    unfold dayNumber at h; unfold startOfDay; unfold dayMs at *; omega
  simp [isWithinBookingWindow, h1, h2]

theorem isWithinBookingWindow_withinHorizon (now t : Int) :
    (isWithinBookingWindow now t).allowed = true ↔ WithinHorizon now t := by
  rw [isWithinBookingWindow_allowed]
  unfold WithinHorizon dayNumber startOfDay dayMs
  omega

theorem withinHorizon_startOfDay (now t : Int) :
    WithinHorizon now (startOfDay t) ↔ WithinHorizon now t := by
  unfold WithinHorizon; rw [dayNumber_startOfDay]

/-- With a valid time range and an existing seat, `bookSeat` answers
`outsideBookingHorizon` exactly when the window check refuses the date. -/
theorem bookSeat_horizon {st : Store} {now : Int} {userId : Nat} {req : BookRequest}
    (htime : jsStringLt (orDefault req.startTime defaultStartTime)
      (orDefault req.endTime defaultEndTime) = true)
    (hseat : ∃ seat ∈ st.seats, seat.id = req.seatId) :
    ((isWithinBookingWindow now req.date).allowed = false →
        bookSeat st now userId req =
          (st, .outsideBookingHorizon (isWithinBookingWindow now req.date).message)) ∧
      ((isWithinBookingWindow now req.date).allowed = true →
        ∀ m, (bookSeat st now userId req).2 ≠ .outsideBookingHorizon m) := by
  have hw : isWithinBookingWindow now (startOfDay req.date) = isWithinBookingWindow now req.date := by
    simp [isWithinBookingWindow, startOfDay_idem]
  have hge : jsStringGe (orDefault req.startTime defaultStartTime)
      (orDefault req.endTime defaultEndTime) = false := by simp [jsStringGe, htime]
  obtain ⟨seat, hs⟩ := (findSeat_isSome_iff _ _).mpr hseat
  rcases bookSeat_outcomes st now userId req with
    ⟨c, _⟩ | ⟨_, c, _⟩ | ⟨_, _, c, e⟩ | ⟨_, _, c, _, e⟩ | ⟨_, _, c, _, _, e⟩ | ⟨_, hp, e⟩
  · rw [hge] at c; cases c
  · rw [hs] at c; cases c
  · rw [hw] at c e
    exact ⟨fun _ => e, fun h => (by rw [c] at h; cases h)⟩
  · rw [hw] at c
    exact ⟨fun h => (by rw [c] at h; cases h), fun _ m => by simp [e]⟩
  · rw [hw] at c
    exact ⟨fun h => (by rw [c] at h; cases h), fun _ m => by simp [e]⟩
  · have c := hp.2.2.1
    rw [hw] at c
    exact ⟨fun h => (by rw [c] at h; cases h), fun _ m => by simp [e]⟩

/-- For an existing requester, `getAvailableSeats` answers `outsideBookingHorizon` exactly
when the window check refuses the date. -/
theorem getAvailableSeats_horizon {st : Store} {now : Int} {userId : Nat} {date : Int}
    {user : User} (huser : findUser st.users userId = some user) :
    ((isWithinBookingWindow now date).allowed = false →
        getAvailableSeats st now userId date =
          .outsideBookingHorizon (isWithinBookingWindow now date).message) ∧
      ((isWithinBookingWindow now date).allowed = true →
        ∀ m, getAvailableSeats st now userId date ≠ .outsideBookingHorizon m) := by
  refine ⟨fun h => ?_, fun h m => ?_⟩
  · simp [getAvailableSeats, huser, h]
  · simp only [getAvailableSeats, huser, h]
    simp only [Bool.not_true, Bool.false_eq_true, if_false]
    split <;> simp

/-- C15. `isWithinBookingWindow` allows a date if and only if its calendar day is today
or one of the fourteen days after it, both ends included, the time of day of the clock
and of the date being ignored.  Consequently `bookSeat` (with a valid time range and an
existing seat, the two checks it makes first) and `getAvailableSeats` (for an existing
requester) answer `outsideBookingHorizon` exactly for the dates outside this window: never
for today or today + 14, always for a past day and for today + 15 and every later day. -/
theorem booking_horizon (now date : Int) :
    ((isWithinBookingWindow now date).allowed = true ↔ WithinHorizon now date) ∧
      (∀ (st : Store) (userId : Nat) (req : BookRequest), req.date = date →
        jsStringLt (orDefault req.startTime defaultStartTime)
          (orDefault req.endTime defaultEndTime) = true →
        (∃ seat ∈ st.seats, seat.id = req.seatId) →
        ((∃ m, (bookSeat st now userId req).2 = .outsideBookingHorizon m) ↔
            ¬ WithinHorizon now date) ∧
          (dayNumber date < dayNumber now →
            bookSeat st now userId req = (st, .outsideBookingHorizon (some .pastDate))) ∧
          (dayNumber now + 15 ≤ dayNumber date →
            bookSeat st now userId req =
              (st, .outsideBookingHorizon (some .beyondTwoWeeks)))) ∧
      (∀ (st : Store) (userId : Nat) (user : User), findUser st.users userId = some user →
        ((∃ m, getAvailableSeats st now userId date = .outsideBookingHorizon m) ↔
            ¬ WithinHorizon now date) ∧
          (dayNumber date < dayNumber now →
            getAvailableSeats st now userId date = .outsideBookingHorizon (some .pastDate)) ∧
          (dayNumber now + 15 ≤ dayNumber date →
            getAvailableSeats st now userId date =
              .outsideBookingHorizon (some .beyondTwoWeeks))) := by
  have hiff := isWithinBookingWindow_withinHorizon now date
  refine ⟨hiff, ?_, ?_⟩
  · intro st userId req hd htime hseat
    subst hd
    have hb := @bookSeat_horizon st now userId req htime hseat
    refine ⟨?_, ?_, ?_⟩
    · rw [← hiff]
      cases ha : (isWithinBookingWindow now req.date).allowed with
      | false => simp [hb.1 ha]
      | true =>
        have := hb.2 ha
        simp [this]
    · intro hp
      have hw := isWithinBookingWindow_past hp
      have := hb.1 (by rw [hw])
      rw [this, hw]
    · intro hp
      have hw := isWithinBookingWindow_beyond hp
      have := hb.1 (by rw [hw])
      rw [this, hw]
  · intro st userId user huser
    have hg := @getAvailableSeats_horizon st now userId date user huser
    refine ⟨?_, ?_, ?_⟩
    · rw [← hiff]
      cases ha : (isWithinBookingWindow now date).allowed with
      | false => simp [hg.1 ha]
      | true =>
        have := hg.2 ha
        simp [this]
    · intro hp
      have hw := isWithinBookingWindow_past hp
      have := hg.1 (by rw [hw])
      rw [this, hw]
    · intro hp
      have hw := isWithinBookingWindow_beyond hp
      have := hg.1 (by rw [hw])
      rw [this, hw]

theorem booking_horizon_witness :
    (isWithinBookingWindow demoNow demoNow).allowed = true ∧
      (isWithinBookingWindow demoNow (demoNow + 14 * dayMs)).allowed = true ∧
      bookSeat demoStore demoNow 1 { demoRequest with date := demoNow + 15 * dayMs } =
        (demoStore, .outsideBookingHorizon (some .beyondTwoWeeks)) ∧
      getAvailableSeats demoStore (demoNow + dayMs) 1 demoNow =
        .outsideBookingHorizon (some .pastDate) :=
  ⟨(booking_horizon demoNow demoNow).1.mpr (by unfold WithinHorizon; decide),
    (booking_horizon demoNow (demoNow + 14 * dayMs)).1.mpr (by unfold WithinHorizon; decide),
    ((booking_horizon demoNow (demoNow + 15 * dayMs)).2.1 demoStore 1
      { demoRequest with date := demoNow + 15 * dayMs } rfl (by decide) (by decide)).2.2
      (by decide),
    ((booking_horizon (demoNow + dayMs) demoNow).2.2 demoStore 1 user1 (by decide)).2.1
      (by decide)⟩

/-! ## The time range -/

/-- On `HH:MM` strings the string comparison of `bookSeat` is the chronological order. -/
theorem jsStringLt_render (a b : TimeOfDay) (ha : a.Valid) (hb : b.Valid) :
    jsStringLt a.render b.render = true ↔ a.minutes < b.minutes := by
  obtain ⟨ha1, ha2⟩ := ha
  obtain ⟨hb1, hb2⟩ := hb
  simp only [TimeOfDay.render, TimeOfDay.minutes, jsStringLt]
  split_ifs <;> simp <;> omega

theorem bookSeat_invalidTimeRange_iff (st : Store) (now : Int) (userId : Nat)
    (req : BookRequest) :
    (bookSeat st now userId req).2 = .invalidTimeRange ↔
      jsStringLt (orDefault req.startTime defaultStartTime)
        (orDefault req.endTime defaultEndTime) = false := by
  have hge : ∀ b, jsStringGe (orDefault req.startTime defaultStartTime)
      (orDefault req.endTime defaultEndTime) = b ↔
      jsStringLt (orDefault req.startTime defaultStartTime)
        (orDefault req.endTime defaultEndTime) = !b := by
    intro b; cases b <;> simp [jsStringGe]
  rcases bookSeat_outcomes st now userId req with
    ⟨c, e⟩ | ⟨c, _, e⟩ | ⟨c, _, _, e⟩ | ⟨c, _, _, _, e⟩ | ⟨c, _, _, _, _, e⟩ | ⟨_, hp, e⟩
  · have := (hge true).mp c; simp [e, this]
  · have := (hge false).mp c; simp [e, this]
  · have := (hge false).mp c; simp [e, this]
  · have := (hge false).mp c; simp [e, this]
  · have := (hge false).mp c; simp [e, this]
  · have := (hge false).mp hp.1; simp [e, this]

theorem orDefault_render_start (s : Option TimeOfDay) :
    orDefault (s.map TimeOfDay.render) defaultStartTime =
      (s.getD { hour := 9, minute := 0 }).render := by
  cases s with
  | none => rfl
  | some t => rfl

theorem orDefault_render_end (s : Option TimeOfDay) :
    orDefault (s.map TimeOfDay.render) defaultEndTime =
      (s.getD { hour := 18, minute := 0 }).render := by
  cases s with
  | none => rfl
  | some t => rfl

/-- C16. For start and end times given as zero-padded 24-hour `HH:MM` strings, `bookSeat`
answers `invalidTimeRange` if and only if the start time is not strictly earlier than the
end time as times of day, a start time left out counting as 09:00 and an end time left
out as 18:00; the string comparison used agrees with the chronological order. -/
theorem invalid_time_range_iff (st : Store) (now : Int) (userId seatId : Nat) (date : Int)
    (startTime endTime : Option TimeOfDay)
    (hs : ∀ t, startTime = some t → t.Valid) (he : ∀ t, endTime = some t → t.Valid) :
    ((bookSeat st now userId (timedRequest seatId date startTime endTime)).2 =
          .invalidTimeRange ↔
        ¬ (startTime.getD { hour := 9, minute := 0 }).minutes <
          (endTime.getD { hour := 18, minute := 0 }).minutes) ∧
      (jsStringLt (startTime.getD { hour := 9, minute := 0 }).render
          (endTime.getD { hour := 18, minute := 0 }).render = true ↔
        (startTime.getD { hour := 9, minute := 0 }).minutes <
          (endTime.getD { hour := 18, minute := 0 }).minutes) := by
  have hvs : (startTime.getD { hour := 9, minute := 0 }).Valid := by
    cases startTime with
    | none => exact ⟨by decide, by decide⟩
    | some t => exact hs t rfl
  have hve : (endTime.getD { hour := 18, minute := 0 }).Valid := by
    cases endTime with
    | none => exact ⟨by decide, by decide⟩
    | some t => exact he t rfl
  have hlt := jsStringLt_render _ _ hvs hve
  refine ⟨?_, hlt⟩
  rw [bookSeat_invalidTimeRange_iff]
  simp only [timedRequest, orDefault_render_start, orDefault_render_end]
  rw [← hlt]
  simp

theorem invalid_time_range_iff_witness :
    (bookSeat demoStore demoNow 1
        (timedRequest 1 demoDate (some { hour := 18, minute := 0 }) none)).2 =
        .invalidTimeRange ∧
      (bookSeat demoStore demoNow 1
        (timedRequest 1 demoDate (some { hour := 9, minute := 30 })
          (some { hour := 10, minute := 5 }))).2 ≠ .invalidTimeRange :=
  ⟨(invalid_time_range_iff demoStore demoNow 1 1 demoDate (some { hour := 18, minute := 0 })
      none (fun t h => by cases h; exact ⟨by decide, by decide⟩)
      (fun t h => by cases h)).1.mpr (by decide),
    fun hinv => absurd ((invalid_time_range_iff demoStore demoNow 1 1 demoDate
      (some { hour := 9, minute := 30 }) (some { hour := 10, minute := 5 })
      (fun t h => by cases h; exact ⟨by decide, by decide⟩)
      (fun t h => by cases h; exact ⟨by decide, by decide⟩)).1.mp hinv) (by decide)⟩

/-! ## The floating window and the release record at booking time -/

/-- A successful `bookSeat` of a seat whose status is `released` leaves it in the normal
state. -/
theorem bookSeat_clears_released {st st1 : Store} {now : Int} {userId : Nat}
    {req : BookRequest} {b : Booking} {seat : Seat}
    (h : bookSeat st now userId req = (st1, .created b))
    (hseat : findSeat st.seats req.seatId = some seat) (hs : seat.status = .released) :
    findSeat st1.seats req.seatId = some (clearRelease seat) := by
  obtain ⟨seat2, hp, _, hst⟩ := bookSeat_created h
  have he : seat2 = seat := by
    have := hp.2.1; rw [hseat] at this; exact (Option.some.inj this).symm
  subst he
  have hseats : st1.seats = seatsAfterBooking st.seats seat2 := by rw [hst]
  rw [hseats, findSeat_seatsAfterBooking hseat, if_pos hs]

/-- C17, as stated, fails: at 10:00 on day 0 the floating window for day 2 is closed, and
user 2 books the floating seat 9 for day 2. -/
theorem floating_window_gates_reserve_counterexample : ¬ FloatingWindowGatesReserve := by
  intro h
  have := h demoStore demoNow 2 demoFloatingRequest seatF9 (by decide) (by decide)
    (by decide) (by unfold WithinHorizon; decide) (by decide)
    (bookingFor demoStore demoNow 2 demoFloatingRequest seatF9)
  revert this
  decide

/-- C17, amended. Floating seats are not gated by the floating window at booking time:
for a floating seat, `bookSeat` creates a booking, of type `floating`, whenever the five
conditions of a reservation hold, whether `canBookFloatingSeat` says the window is open
or closed. -/
theorem reserve_ignores_floating_window (st : Store) (now : Int) (userId : Nat)
    (req : BookRequest) (seat : Seat)
    (hseat : findSeat st.seats req.seatId = some seat) (htype : seat.type = .floating)
    (hres : Reservable st now userId req) :
    ∀ w : Bool, canBookFloatingSeat now req.date = w →
      ∃ b, (bookSeat st now userId req).2 = .created b ∧ b.bookingType = .floating ∧
        (bookSeat st now userId req).1.bookings = st.bookings ++ [b] := by
  intro w _
  obtain ⟨seat2, hp⟩ := (passes_iff_reservable st now userId req).mpr hres
  have he : seat2 = seat := by
    have := hp.2.1; rw [hseat] at this; exact (Option.some.inj this).symm
  subst he
  refine ⟨bookingFor st now userId req seat2, by rw [bookSeat_of_passes hp], ?_,
    by rw [bookSeat_of_passes hp]⟩
  simp [bookingFor, htype]

theorem reserve_ignores_floating_window_witness :
    canBookFloatingSeat demoNow demoFloatingRequest.date = false ∧
      ∃ b, (bookSeat demoStore demoNow 2 demoFloatingRequest).2 = .created b ∧
        b.bookingType = .floating ∧
        (bookSeat demoStore demoNow 2 demoFloatingRequest).1.bookings =
          demoStore.bookings ++ [b] :=
  ⟨by decide,
    reserve_ignores_floating_window demoStore demoNow 2 demoFloatingRequest seatF9
      (by decide) (by decide) (by unfold Reservable; decide) false (by decide)⟩

/-- C18, as stated, fails: seat 1 is released for day 2, user 2 books it for day 3, and
the seat is back in the normal state with the release date cleared. -/
theorem release_survives_other_date_counterexample : ¬ ReleaseSurvivesOtherDate := by
  intro h
  obtain ⟨seat1, h1, h2, _⟩ := h demoReleased
    (bookSeat demoReleased demoNow 2 demoRequestDay3).1 demoNow 2 demoRequestDay3
    (bookingFor demoReleased demoNow 2 demoRequestDay3 demoSeatReleased) demoSeatReleased 1
    172800000 (by decide) (by decide) (by unfold IsReleasedFor; decide) (by decide)
  have hf : findSeat (bookSeat demoReleased demoNow 2 demoRequestDay3).1.seats
      demoRequestDay3.seatId = some seatD1 := by decide
  rw [hf] at h1
  cases h1
  revert h2
  decide

/-- C18, amended. The release record of a seat is a single slot that is not compared
with the date at booking time: if the seat is released with release date `x`, every
successful `bookSeat` of the seat, for the day of `x` or for any other day, leaves the
seat in the normal state, the release date and the releaser cleared. -/
theorem reserve_consumes_release_any_date (st st1 : Store) (now : Int) (userId : Nat)
    (req : BookRequest) (b : Booking) (seat : Seat) (releaser : Nat) (x : Int)
    (h : bookSeat st now userId req = (st1, .created b))
    (hseat : findSeat st.seats req.seatId = some seat)
    (hrel : IsReleasedFor seat releaser x) :
    ∃ seat1, findSeat st1.seats req.seatId = some seat1 ∧ IsNormal seat1 ∧
      SameIdentity seat1 seat :=
  ⟨clearRelease seat, bookSeat_clears_released h hseat hrel.1,
    isNormal_clearRelease _, sameIdentity_clearRelease _⟩

theorem reserve_consumes_release_any_date_witness :
    IsReleasedFor demoSeatReleased 1 172800000 ∧
      startOfDay demoRequestDay3.date ≠ 172800000 ∧
      ∃ seat1, findSeat (bookSeat demoReleased demoNow 2 demoRequestDay3).1.seats
          demoRequestDay3.seatId = some seat1 ∧ IsNormal seat1 := by
  have hr : IsReleasedFor demoSeatReleased 1 172800000 := by unfold IsReleasedFor; decide
  obtain ⟨seat1, h1, h2, _⟩ := reserve_consumes_release_any_date demoReleased
    (bookSeat demoReleased demoNow 2 demoRequestDay3).1 demoNow 2 demoRequestDay3
    (bookingFor demoReleased demoNow 2 demoRequestDay3 demoSeatReleased) demoSeatReleased 1
    172800000 (by decide) (by decide) hr
  exact ⟨hr, by decide, seat1, h1, h2⟩

/-! ## Calendar rules -/

theorem one_le_dayOfMonth (t : Int) : 1 ≤ dayOfMonth t := by
  simp only [dayOfMonth, civilFromDays]
  omega

theorem startOfMonth_le (t : Int) : startOfMonth t ≤ t := by
  have h1 := one_le_dayOfMonth t
  have h2 := startOfDay_le t
  have h3 : 0 ≤ (dayOfMonth t - 1) * dayMs :=
    Int.mul_nonneg (by omega) (by unfold dayMs; omega)
  unfold startOfMonth
  omega

theorem daysSinceStartOfMonth_eq (t : Int) : daysSinceStartOfMonth t = dayOfMonth t - 1 := by
  unfold daysSinceStartOfMonth startOfMonth startOfDay
  generalize dayOfMonth t = d
  unfold dayMs
  omega

theorem diffWeeks_startOfMonth (t : Int) :
    diffWeeks t (startOfMonth t) = daysSinceStartOfMonth t / 7 := by
  have h := startOfMonth_le t
  unfold diffWeeks daysSinceStartOfMonth
  rw [Int.tdiv_eq_ediv (by omega) (by unfold dayMs; omega)]
  generalize t - startOfMonth t = x at *
  unfold dayMs
  omega

theorem getWeekNumber_eq_rotaWeek (t : Int) : getWeekNumber t = rotaWeek t := by
  unfold getWeekNumber rotaWeek
  simp only [diffWeeks_startOfMonth]
  generalize daysSinceStartOfMonth t / 7 = w
  by_cases h : (w + 1) % 2 = 0
  · have : ¬ (w + 1) % 2 = 1 := by omega
    simp [h, this]
  · have : (w + 1) % 2 = 1 := by omega
    simp [h, this]

theorem isoWeekday_range (t : Int) : 1 ≤ isoWeekday t ∧ isoWeekday t ≤ 7 := by
  unfold isoWeekday; omega

/-- C19. With the week of the rota being 1 when `floor(daysSinceStartOfMonth / 7) + 1` is
odd and 2 when it is even, `isWorkingDayForBatch` is true if and only if the week is 1,
the batch is 1 and the weekday is Monday, Tuesday or Wednesday, or the week is 2, the
batch is 2 and the weekday is Thursday or Friday.  In particular, on a Monday among the
first seven days of a month it is true for batch 1 and false for batch 2. -/
theorem working_day_iff (date : Int) (batch : Nat) :
    (isWorkingDayForBatch date batch = true ↔
        (rotaWeek date = 1 ∧ batch = 1 ∧
            (isoWeekday date = 1 ∨ isoWeekday date = 2 ∨ isoWeekday date = 3)) ∨
          (rotaWeek date = 2 ∧ batch = 2 ∧ (isoWeekday date = 4 ∨ isoWeekday date = 5))) ∧
      (isoWeekday date = 1 → 1 ≤ dayOfMonth date → dayOfMonth date ≤ 7 →
        isWorkingDayForBatch date 1 = true ∧ isWorkingDayForBatch date 2 = false) := by
  have hw := getWeekNumber_eq_rotaWeek date
  have hr : rotaWeek date = 1 ∨ rotaWeek date = 2 := by
    unfold rotaWeek; split <;> simp
  refine ⟨?_, ?_⟩
  · unfold isWorkingDayForBatch
    simp only [hw]
    rcases hr with h | h
    · simp only [h, if_true, Bool.and_eq_true, beq_iff_eq, decide_eq_true_eq]
      constructor
      · rintro ⟨⟨hb, h1⟩, h2⟩
        exact Or.inl ⟨trivial, hb, by omega⟩
      · rintro (⟨_, hb, hd⟩ | ⟨hc, _⟩)
        · exact ⟨⟨hb, by omega⟩, by omega⟩
        · exact absurd hc (by decide)
    · simp only [h, Bool.and_eq_true, beq_iff_eq, decide_eq_true_eq]
      constructor
      · intro hh
        have hh' : (batch = 2 ∧ isoWeekday date ≥ 4) ∧ isoWeekday date ≤ 5 := by simpa using hh
        exact Or.inr ⟨trivial, hh'.1.1, by omega⟩
      · rintro (⟨hc, _⟩ | ⟨_, hb, hd⟩)
        · exact absurd hc (by decide)
        · have : (batch = 2 ∧ isoWeekday date ≥ 4) ∧ isoWeekday date ≤ 5 :=
            ⟨⟨hb, by omega⟩, by omega⟩
          simpa using this
  · intro hmon h1 h7
    have hweek : rotaWeek date = 1 := by
      unfold rotaWeek
      rw [daysSinceStartOfMonth_eq]
      have : ((dayOfMonth date - 1) / 7 + 1) % 2 = 1 := by omega
      simp [this]
    unfold isWorkingDayForBatch
    simp [hw, hweek, hmon]

theorem working_day_iff_witness :
    isoWeekday demoMonday = 1 ∧ dayOfMonth demoMonday = 1 ∧
      isWorkingDayForBatch demoMonday 1 = true ∧ isWorkingDayForBatch demoMonday 2 = false :=
  have h := (working_day_iff demoMonday 1).2 (by decide) (by decide) (by decide)
  ⟨by decide, by decide, h.1, h.2⟩

/-! ## The floating window -/

/-- C20. `canBookFloatingSeat` is false for a date before today and true for a date of
today; for a later date it is true if and only if the clock is at or after 15:00:00 on
the calendar day immediately before the date, 15:00:00 itself included.  In particular,
for a date of tomorrow it is false at 14:59 today and true at 15:00:00 today. -/
theorem floating_window_open_iff (now date : Int) :
    (dayNumber date < dayNumber now → canBookFloatingSeat now date = false) ∧
      (dayNumber date = dayNumber now → canBookFloatingSeat now date = true) ∧
      (dayNumber now < dayNumber date →
        (canBookFloatingSeat now date = true ↔
          (dayNumber date - 1) * dayMs + 15 * 3600000 ≤ now)) ∧
      (dayNumber date = dayNumber now + 1 →
        canBookFloatingSeat (startOfDay now + 14 * 3600000 + 59 * 60000) date = false ∧
          canBookFloatingSeat (startOfDay now + 15 * 3600000) date = true) := by
  have key : ∀ n : Int, dayNumber n < dayNumber date →
      (canBookFloatingSeat n date = true ↔
        (dayNumber date - 1) * dayMs + 15 * 3600000 ≤ n) := by
    intro n h
    have h1 : ¬ startOfDay date < startOfDay n := by
      unfold dayNumber at h; unfold startOfDay; unfold dayMs at *; omega
    have h2 : ¬ startOfDay (startOfDay date) = startOfDay (startOfDay n) := by
      rw [startOfDay_idem, startOfDay_idem]
      unfold dayNumber at h; unfold startOfDay; unfold dayMs at *; omega
    simp only [canBookFloatingSeat, h1, h2, if_false, decide_eq_true_eq,
      setHourMinuteSecond]
    unfold dayNumber startOfDay dayMs
    omega
  refine ⟨?_, ?_, key now, ?_⟩
  · intro h
    have h1 : startOfDay date < startOfDay now := by
      unfold dayNumber at h; unfold startOfDay; unfold dayMs at *; omega
    simp [canBookFloatingSeat, h1]
  · intro h
    have h1 : ¬ startOfDay date < startOfDay now := by
      unfold dayNumber at h; unfold startOfDay; unfold dayMs at *; omega
    have h2 : startOfDay (startOfDay date) = startOfDay (startOfDay now) := by
      rw [startOfDay_idem, startOfDay_idem]
      unfold dayNumber at h; unfold startOfDay; unfold dayMs at *; omega
    simp [canBookFloatingSeat, h1, h2]
  · intro h
    constructor
    · have hd : dayNumber (startOfDay now + 14 * 3600000 + 59 * 60000) < dayNumber date := by
        unfold dayNumber at *; unfold startOfDay; unfold dayMs at *; omega
      have := key _ hd
      have hn : ¬ (dayNumber date - 1) * dayMs + 15 * 3600000 ≤
          startOfDay now + 14 * 3600000 + 59 * 60000 := by
        unfold dayNumber at *; unfold startOfDay; unfold dayMs at *; omega
      cases hc : canBookFloatingSeat (startOfDay now + 14 * 3600000 + 59 * 60000) date with
      | false => rfl
      | true => exact absurd (this.mp hc) hn
    · have hd : dayNumber (startOfDay now + 15 * 3600000) < dayNumber date := by
        unfold dayNumber at *; unfold startOfDay; unfold dayMs at *; omega
      refine (key _ hd).mpr ?_
      unfold dayNumber at *; unfold startOfDay; unfold dayMs at *; omega

theorem floating_window_open_iff_witness :
    canBookFloatingSeat 53940000 86400000 = false ∧
      canBookFloatingSeat 54000000 86400000 = true ∧
      canBookFloatingSeat demoNow demoNow = true ∧
      canBookFloatingSeat (demoNow + dayMs) demoNow = false :=
  have h := (floating_window_open_iff 53940000 86400000).2.2.2 (by decide)
  ⟨by decide, h.2, (floating_window_open_iff demoNow demoNow).2.1 rfl,
    (floating_window_open_iff (demoNow + dayMs) demoNow).1 (by decide)⟩

/-! ## The releaser recorded by a cancellation -/

/-- C23, as stated, fails: an admin, user 3, cancels the designated booking of user 1 and
the seat records user 1 as the releaser. -/
theorem cancel_records_requester_counterexample : ¬ CancelRecordsRequester := by
  intro h
  obtain ⟨seat1, h1, _, h3⟩ := h demoStore1 demoNow { id := 3, role := .admin } 1 demoBooking1
    true seatD1 (by decide) (by decide) (by decide) (by decide) (by decide)
  have hf : findSeat (cancelBooking demoStore1 demoNow { id := 3, role := .admin } 1).1.seats
      demoBooking1.seat = some demoSeatReleased := by decide
  rw [hf] at h1
  cases h1
  revert h3
  decide

/-- C23, amended. Whenever a successful `cancelBooking` marks the booked seat released,
the releaser recorded on the seat is the user of the cancelled booking: the requester
when the requester cancels a booking of their own, and still the user of the booking
when an admin cancels the booking of another user. -/
theorem cancel_records_booking_user (st : Store) (now : Int) (reqUser : ReqUser)
    (bookingId : Nat) (b0 : Booking) (d : Bool) (seat : Seat)
    (hfind : findBooking st.bookings bookingId = some b0)
    (hok : (cancelBooking st now reqUser bookingId).2 = .cancelled d)
    (hseat : findSeat st.seats b0.seat = some seat) (htype : seat.type = .designated)
    (hdate : startOfDay now ≤ b0.date) :
    ∃ seat1, findSeat (cancelBooking st now reqUser bookingId).1.seats b0.seat = some seat1 ∧
      seat1.status = .released ∧ seat1.releasedBy = some b0.user ∧
      (b0.user = reqUser.id → seat1.releasedBy = some reqUser.id) ∧
      (b0.user ≠ reqUser.id → reqUser.role = .admin ∧ seat1.releasedBy ≠ some reqUser.id) := by
  obtain ⟨seat1, h1, h2, _⟩ := (cancelBooking_seats hfind hok).1 seat hseat htype hdate
  refine ⟨seat1, h1, h2.1, h2.2.2.1, fun he => by rw [h2.2.2.1, he], fun hne => ⟨?_, ?_⟩⟩
  · rcases cancelBooking_cases st now reqUser bookingId with ⟨_, e⟩ | ⟨_, _, _, e⟩ | ⟨b1, hb1, hf, _⟩
    · rw [e] at hok; simp at hok
    · rw [e] at hok; simp at hok
    · rw [hfind] at hb1; cases hb1
      by_contra hr
      exact hf ⟨hne, hr⟩
  · rw [h2.2.2.1]
    intro he
    exact hne (Option.some.inj he)

theorem cancel_records_booking_user_witness :
    ∃ seat1, findSeat (cancelBooking demoStore1 demoNow { id := 3, role := .admin } 1).1.seats
        demoBooking1.seat = some seat1 ∧
      seat1.releasedBy = some 1 ∧ seat1.releasedBy ≠ some 3 := by
  obtain ⟨seat1, h1, _, h3, _, h5⟩ := cancel_records_booking_user demoStore1 demoNow
    { id := 3, role := .admin } 1 demoBooking1 true seatD1 (by decide) (by decide) (by decide)
    (by decide) (by decide)
  exact ⟨seat1, h1, h3, (h5 (by decide)).2⟩

/-! ## The order of the checks of `bookSeat` -/

/-- C27. When several checks of `bookSeat` fail at once, the answer is that of the first
failing check in the order: time range, seat lookup, booking horizon, booking of the user
on the date, booking of the seat on the date.  So for an existing seat the order is
`invalidTimeRange`, `outsideBookingHorizon`, `duplicateUserBooking`, `seatAlreadyBooked`:
an invalid time range for a date outside the horizon is answered `invalidTimeRange`, and
a user holding an active booking on the date who asks for a seat already booked on the
date is answered `duplicateUserBooking`. -/
theorem reserve_error_precedence (st : Store) (now : Int) (userId : Nat) (req : BookRequest) :
    (jsStringLt (orDefault req.startTime defaultStartTime)
          (orDefault req.endTime defaultEndTime) = false →
        (bookSeat st now userId req).2 = .invalidTimeRange) ∧
      (jsStringLt (orDefault req.startTime defaultStartTime)
          (orDefault req.endTime defaultEndTime) = true →
        ((¬ ∃ seat ∈ st.seats, seat.id = req.seatId) →
          (bookSeat st now userId req).2 = .seatNotFound) ∧
        ((∃ seat ∈ st.seats, seat.id = req.seatId) →
          (¬ WithinHorizon now req.date →
            ∃ m, (bookSeat st now userId req).2 = .outsideBookingHorizon m) ∧
          (WithinHorizon now req.date →
            ((∃ b ∈ st.bookings, b.user = userId ∧ b.status = .active ∧
                inRange (getDayRange req.date) b.date = true) →
              (bookSeat st now userId req).2 = .duplicateUserBooking) ∧
            ((¬ ∃ b ∈ st.bookings, b.user = userId ∧ b.status = .active ∧
                inRange (getDayRange req.date) b.date = true) →
              (∃ b ∈ st.bookings, b.seat = req.seatId ∧ b.status = .active ∧
                inRange (getDayRange req.date) b.date = true) →
              (bookSeat st now userId req).2 = .seatAlreadyBooked)))) := by
  have hge : ∀ b, jsStringGe (orDefault req.startTime defaultStartTime)
      (orDefault req.endTime defaultEndTime) = b ↔
      jsStringLt (orDefault req.startTime defaultStartTime)
        (orDefault req.endTime defaultEndTime) = !b := by
    intro b; cases b <;> simp [jsStringGe]
  have hwin : (isWithinBookingWindow now (startOfDay req.date)).allowed = true ↔
      WithinHorizon now req.date := by
    rw [isWithinBookingWindow_withinHorizon, withinHorizon_startOfDay]
  have huser : st.bookings.find? (userActiveIn userId (getDayRange (startOfDay req.date))) = none ↔
      ¬ ∃ b ∈ st.bookings, b.user = userId ∧ b.status = .active ∧
        inRange (getDayRange req.date) b.date = true := by
    rw [find_userActiveIn_none, getDayRange_startOfDay]
    constructor
    · rintro h ⟨b, hb, h1, h2, h3⟩
      rw [h b hb h1 h2] at h3; cases h3
    · intro h b hb h1 h2
      cases h3 : inRange (getDayRange req.date) b.date with
      | false => rfl
      | true => exact absurd ⟨b, hb, h1, h2, h3⟩ h
  have hseatb : st.bookings.find? (seatActiveIn req.seatId (getDayRange (startOfDay req.date)))
      = none ↔
      ¬ ∃ b ∈ st.bookings, b.seat = req.seatId ∧ b.status = .active ∧
        inRange (getDayRange req.date) b.date = true := by
    rw [find_seatActiveIn_none, getDayRange_startOfDay]
    constructor
    · rintro h ⟨b, hb, h1, h2, h3⟩
      rw [h b hb h1 h2] at h3; cases h3
    · intro h b hb h1 h2
      cases h3 : inRange (getDayRange req.date) b.date with
      | false => rfl
      | true => exact absurd ⟨b, hb, h1, h2, h3⟩ h
  rcases bookSeat_outcomes st now userId req with
    ⟨c, e⟩ | ⟨c, c2, e⟩ | ⟨c, c2, c3, e⟩ | ⟨c, c2, c3, ⟨x, c4⟩, e⟩ |
    ⟨c, c2, c3, c4, ⟨x, c5⟩, e⟩ | ⟨seat, hp, e⟩
  · have hl := (hge true).mp c
    refine ⟨fun _ => by rw [e], fun h => ?_⟩
    rw [hl] at h; cases h
  · have hno : ¬ ∃ seat ∈ st.seats, seat.id = req.seatId := by
      rw [← findSeat_isSome_iff, c2]; simp
    refine ⟨fun h => ?_, fun _ => ⟨fun _ => by rw [e], fun h => absurd h hno⟩⟩
    rw [(hge false).mp c] at h; cases h
  · have hout : ¬ WithinHorizon now req.date := by rw [← hwin, c3]; simp
    refine ⟨fun h => ?_, fun _ => ⟨fun h => ?_, fun _ => ⟨fun _ => ⟨_, by rw [e]⟩,
      fun h => absurd h hout⟩⟩⟩
    · rw [(hge false).mp c] at h; cases h
    · exact absurd ((findSeat_isSome_iff _ _).mp c2) h
  · have hin : WithinHorizon now req.date := hwin.mp c3
    have hdup : ∃ b ∈ st.bookings, b.user = userId ∧ b.status = .active ∧
        inRange (getDayRange req.date) b.date = true := by
      by_contra hn
      rw [huser.mpr hn] at c4; cases c4
    refine ⟨fun h => ?_, fun _ => ⟨fun h => ?_, fun _ => ⟨fun h => absurd hin h,
      fun _ => ⟨fun _ => by rw [e], fun h => absurd hdup h⟩⟩⟩⟩
    · rw [(hge false).mp c] at h; cases h
    · exact absurd ((findSeat_isSome_iff _ _).mp c2) h
  · have hin : WithinHorizon now req.date := hwin.mp c3
    have hnd := huser.mp c4
    refine ⟨fun h => ?_, fun _ => ⟨fun h => ?_, fun _ => ⟨fun h => absurd hin h,
      fun _ => ⟨fun h => absurd h hnd, fun _ _ => by rw [e]⟩⟩⟩⟩
    · rw [(hge false).mp c] at h; cases h
    · exact absurd ((findSeat_isSome_iff _ _).mp c2) h
  · have hin : WithinHorizon now req.date := hwin.mp hp.2.2.1
    have hnd := huser.mp hp.2.2.2.1
    have hns := hseatb.mp hp.2.2.2.2
    refine ⟨fun h => ?_, fun _ => ⟨fun h => ?_, fun _ => ⟨fun h => absurd hin h,
      fun _ => ⟨fun h => absurd h hnd, fun _ h => absurd h hns⟩⟩⟩⟩
    · rw [(hge false).mp hp.1] at h; cases h
    · exact absurd ((findSeat_isSome_iff _ _).mp ⟨seat, hp.2.1⟩) h

theorem reserve_error_precedence_witness :
    (bookSeat demoStore demoNow 1
        (timedRequest 1 (demoNow + 20 * dayMs) (some { hour := 18, minute := 0 }) none)).2 =
        .invalidTimeRange ∧
      (bookSeat demoStore1 demoNow 1 demoRequest).2 = .duplicateUserBooking :=
  ⟨(reserve_error_precedence demoStore demoNow 1
      (timedRequest 1 (demoNow + 20 * dayMs) (some { hour := 18, minute := 0 }) none)).1
      (by decide),
    ((((reserve_error_precedence demoStore1 demoNow 1 demoRequest).2 (by decide)).2
      (by decide)).2 (by unfold WithinHorizon; decide)).1 (by decide)⟩

/-! ## The ledger keeps its history -/

theorem sameIntent_refl (x : Booking) : SameIntent x x :=
  ⟨rfl, rfl, rfl, rfl, rfl, rfl, rfl, rfl, Or.inl rfl⟩

theorem sameIntent_trans {x y z : Booking} (h1 : SameIntent x y) (h2 : SameIntent y z) :
    SameIntent x z := by
  obtain ⟨a1, a2, a3, a4, a5, a6, a7, a8, a9⟩ := h1
  obtain ⟨b1, b2, b3, b4, b5, b6, b7, b8, b9⟩ := h2
  refine ⟨b1.trans a1, b2.trans a2, b3.trans a3, b4.trans a4, b5.trans a5, b6.trans a6,
    b7.trans a7, b8.trans a8, ?_⟩
  rcases b9 with h | h
  · rcases a9 with g | g
    · exact Or.inl (h.trans g)
    · exact Or.inr (h.trans g)
  · exact Or.inr h

theorem sameIntent_markCancelled (x : Booking) (now : Int) :
    SameIntent x (markCancelled x now) :=
  ⟨rfl, rfl, rfl, rfl, rfl, rfl, rfl, rfl, Or.inr rfl⟩

theorem historyPreserved_refl (l : List Booking) : HistoryPreserved l l :=
  fun _ x h => ⟨x, h, sameIntent_refl x⟩

theorem historyPreserved_trans {l1 l2 l3 : List Booking} (h1 : HistoryPreserved l1 l2)
    (h2 : HistoryPreserved l2 l3) : HistoryPreserved l1 l3 := by
  intro i x hx
  obtain ⟨y, hy, hxy⟩ := h1 i x hx
  obtain ⟨z, hz, hyz⟩ := h2 i y hy
  exact ⟨z, hz, sameIntent_trans hxy hyz⟩

theorem historyPreserved_append (l : List Booking) (b : Booking) :
    HistoryPreserved l (l ++ [b]) := by
  intro i x hx
  have hi : i < l.length := by
    by_contra hn
    rw [List.getElem?_eq_none (by omega)] at hx
    cases hx
  exact ⟨x, by rw [List.getElem?_append_left hi]; exact hx, sameIntent_refl x⟩

theorem eq_of_uniqueBookingIds {l : List Booking} (h : UniqueBookingIds l) {x y : Booking}
    (hx : x ∈ l) (hy : y ∈ l) (hid : x.id = y.id) : x = y :=
  List.inj_on_of_nodup_map h hx hy hid

theorem historyPreserved_saveBooking {l : List Booking} (h : UniqueBookingIds l) {b0 : Booking}
    (hb : b0 ∈ l) (now : Int) : HistoryPreserved l (saveBooking l (markCancelled b0 now)) := by
  intro i x hx
  have hxm : x ∈ l := List.getElem?_mem hx
  refine ⟨if x.id = (markCancelled b0 now).id then markCancelled b0 now else x, ?_, ?_⟩
  · unfold saveBooking
    rw [List.getElem?_map, hx]
    rfl
  · by_cases hid : x.id = (markCancelled b0 now).id
    · rw [if_pos hid]
      have : x = b0 := eq_of_uniqueBookingIds h hxm hb hid
      rw [this]; exact sameIntent_markCancelled _ _
    · rw [if_neg hid]; exact sameIntent_refl x

theorem uniqueBookingIds_saveBooking {l : List Booking} (h : UniqueBookingIds l)
    (b0 : Booking) (now : Int) : UniqueBookingIds (saveBooking l (markCancelled b0 now)) := by
  unfold UniqueBookingIds saveBooking at *
  rw [List.map_map]
  have : (Booking.id ∘ fun b => if b.id = (markCancelled b0 now).id then markCancelled b0 now
      else b) = Booking.id := by
    funext b
    simp only [Function.comp]
    by_cases hb : b.id = (markCancelled b0 now).id
    · rw [if_pos hb, hb]
    · rw [if_neg hb]
  rw [this]; exact h

theorem uniqueBookingIds_append_fresh {l : List Booking} (h : UniqueBookingIds l)
    {b : Booking} (hb : b.id = freshBookingId l) : UniqueBookingIds (l ++ [b]) := by
  unfold UniqueBookingIds at *
  rw [List.map_append, List.nodup_append]
  refine ⟨h, by simp, ?_⟩
  intro a ha hab
  obtain ⟨x, hx, rfl⟩ := List.mem_map.mp ha
  have hlt := lt_freshBookingId hx
  have : x.id = b.id := by simpa using hab
  omega

theorem releaseDesignatedSeat_bookings_mem (st : Store) (now : Int) (userId : Nat)
    (date : Int) :
    (releaseDesignatedSeat st now userId date).1.bookings = st.bookings ∨
      ∃ eb ∈ st.bookings, (releaseDesignatedSeat st now userId date).1.bookings =
        saveBooking st.bookings (markCancelled eb now) := by
  rcases releaseDesignatedSeat_cases st now userId date with
    ⟨_, e⟩ | ⟨_, _, _, e⟩ | ⟨_, _, _, _, _, e⟩ | ⟨_, _, _, _, _, _, _, _, _, e⟩ |
    ⟨_, _, _, eb, _, _, _, h4, _, e⟩ | ⟨_, _, _, _, _, _, _, e⟩
  · left; rw [e]
  · left; rw [e]
  · left; rw [e]
  · left; rw [e]
  · right; exact ⟨eb, List.mem_of_find?_eq_some h4, by rw [e]⟩
  · left; rw [e]

/-- One request keeps the history of the ledger and the uniqueness of the identifiers. -/
theorem step_history (st : Store) (c : Call) (h : UniqueBookingIds st.bookings) :
    HistoryPreserved st.bookings (step st c).bookings ∧
      UniqueBookingIds (step st c).bookings := by
  cases c with
  | reserve now userId req =>
    rcases bookSeat_bookings st now userId req with e | ⟨seat, _, e⟩
    · simp only [step]; rw [e]; exact ⟨historyPreserved_refl _, h⟩
    · simp only [step]; rw [e]
      exact ⟨historyPreserved_append _ _, uniqueBookingIds_append_fresh h rfl⟩
  | cancel now reqUser bookingId =>
    rcases cancelBooking_bookings st now reqUser bookingId with e | ⟨b0, hb, e⟩
    · simp only [step]; rw [e]; exact ⟨historyPreserved_refl _, h⟩
    · simp only [step]; rw [e]
      exact ⟨historyPreserved_saveBooking h (findBooking_mem hb) now,
        uniqueBookingIds_saveBooking h b0 now⟩
  | release now userId date =>
    rcases releaseDesignatedSeat_bookings_mem st now userId date with e | ⟨eb, hb, e⟩
    · simp only [step]; rw [e]; exact ⟨historyPreserved_refl _, h⟩
    · simp only [step]; rw [e]
      exact ⟨historyPreserved_saveBooking h hb now, uniqueBookingIds_saveBooking h eb now⟩

theorem run_history (st : Store) (calls : List Call) (h : UniqueBookingIds st.bookings) :
    HistoryPreserved st.bookings (run st calls).bookings ∧
      UniqueBookingIds (run st calls).bookings := by
  induction calls generalizing st with
  | nil => exact ⟨historyPreserved_refl _, h⟩
  | cons c cs ih =>
    have hs := step_history st c h
    have hr := ih (step st c) hs.2
    exact ⟨historyPreserved_trans hs.1 hr.1, hr.2⟩

theorem length_le_of_historyPreserved {l l1 : List Booking} (h : HistoryPreserved l l1) :
    l.length ≤ l1.length := by
  by_contra hn
  have hpos : l1.length < l.length := by omega
  obtain ⟨x1, hx1, _⟩ := h l1.length l[l1.length] (List.getElem?_eq_getElem hpos)
  rw [List.getElem?_eq_none (le_refl _)] at hx1
  cases hx1

theorem getElem?_saveBooking {l : List Booking} {b : Booking} {i : Nat} {x x1 : Booking}
    (hx : l[i]? = some x) (hx1 : (saveBooking l b)[i]? = some x1) :
    x1 = if x.id = b.id then b else x := by
  unfold saveBooking at hx1
  rw [List.getElem?_map, hx] at hx1
  exact (Option.some.inj hx1).symm

/-- Saving an active booking as cancelled moves no status but its own. -/
theorem statusKept_saveBooking {l : List Booking} (h : UniqueBookingIds l) {b0 : Booking}
    (hb : b0 ∈ l) (hact : b0.status = .active) (now : Int) {i : Nat} {x x1 : Booking}
    (hx : l[i]? = some x) (hx1 : (saveBooking l (markCancelled b0 now))[i]? = some x1) :
    StatusKept x x1 := by
  have e := getElem?_saveBooking hx hx1
  by_cases hid : x.id = (markCancelled b0 now).id
  · rw [if_pos hid] at e
    have hxb : x = b0 := eq_of_uniqueBookingIds h (List.getElem?_mem hx) hb hid
    rw [e, hxb]
    exact Or.inr ⟨hact, rfl⟩
  · rw [if_neg hid] at e
    rw [e]
    exact Or.inl rfl

theorem statusKept_of_sameIntent {x x1 : Booking} (h : SameIntent x x1)
    (hc : x.status ≠ .completed) : StatusKept x x1 := by
  rcases h.2.2.2.2.2.2.2.2 with h9 | h9
  · exact Or.inl h9
  · cases hs : x.status with
    | active => exact Or.inr ⟨hs, h9⟩
    | cancelled => exact Or.inl (h9.trans hs.symm)
    | completed => exact absurd hs hc

/-- C24, the ledger as the handlers keep it.  In a ledger whose bookings carry distinct
identifiers, no sequence of `bookSeat`, `cancelBooking` and `releaseDesignatedSeat`
requests removes a booking, and every booking that existed before is afterwards at its
place with the same identifier, user, seat, date, type, start time, end time and
`bookedAt`.  The status of a booking that was not `completed` is as it was or went from
`active` to `cancelled`; `bookSeat` changes no booking, `releaseDesignatedSeat` and a
`cancelBooking` of an active booking move a status from `active` to `cancelled` only.
A `cancelBooking` of a booking that is not active breaks the rule, because the handler
never reads the status: the completed booking of `demoStoreCompleted` is turned into a
cancelled one. -/
theorem bookings_history_preserved (st : Store) (calls : List Call)
    (huniq : UniqueBookingIds st.bookings) :
    HistoryPreserved st.bookings (run st calls).bookings ∧
      st.bookings.length ≤ (run st calls).bookings.length ∧
      UniqueBookingIds (run st calls).bookings ∧
      (∀ (i : Nat) (x x1 : Booking), st.bookings[i]? = some x →
        (run st calls).bookings[i]? = some x1 → x.status ≠ .completed → StatusKept x x1) ∧
      (∀ (now : Int) (userId : Nat) (req : BookRequest) (i : Nat) (x : Booking),
        st.bookings[i]? = some x → (bookSeat st now userId req).1.bookings[i]? = some x) ∧
      (∀ (now : Int) (userId : Nat) (date : Int) (i : Nat) (x x1 : Booking),
        st.bookings[i]? = some x →
        (releaseDesignatedSeat st now userId date).1.bookings[i]? = some x1 →
        StatusKept x x1) ∧
      (∀ (now : Int) (reqUser : ReqUser) (bookingId : Nat) (b0 : Booking),
        findBooking st.bookings bookingId = some b0 → b0.status = .active →
        ∀ (i : Nat) (x x1 : Booking), st.bookings[i]? = some x →
          (cancelBooking st now reqUser bookingId).1.bookings[i]? = some x1 →
          StatusKept x x1) ∧
      (UniqueBookingIds demoStoreCompleted.bookings ∧
        demoBookingCompleted.status = .completed ∧
        cancelBooking demoStoreCompleted demoNow { id := 1, role := .employee } 1 =
          ({ demoStoreCompleted with
              seats := [demoSeatReleased, seatF9],
              bookings := [{ demoBookingCompleted with
                status := .cancelled, cancelledAt := some demoNow }] },
            .cancelled true) ∧
        ¬ StatusKept demoBookingCompleted
          { demoBookingCompleted with status := .cancelled, cancelledAt := some demoNow }) := by
  have hrun := run_history st calls huniq
  refine ⟨hrun.1, length_le_of_historyPreserved hrun.1, hrun.2, ?_, ?_, ?_, ?_, ?_⟩
  · intro i x x1 hx hx1 hc
    obtain ⟨y, hy, hxy⟩ := hrun.1 i x hx
    rw [hx1] at hy
    cases hy
    exact statusKept_of_sameIntent hxy hc
  · intro now userId req i x hx
    rcases bookSeat_bookings st now userId req with e | ⟨seat, _, e⟩
    · rw [e]; exact hx
    · rw [e]
      have hi : i < st.bookings.length := by
        by_contra hn
        rw [List.getElem?_eq_none (by omega)] at hx
        cases hx
      rw [List.getElem?_append_left hi]; exact hx
  · intro now userId date i x x1 hx hx1
    rcases releaseDesignatedSeat_cases st now userId date with
      ⟨_, e⟩ | ⟨_, _, _, e⟩ | ⟨_, _, _, _, _, e⟩ | ⟨_, _, _, _, _, _, _, _, _, e⟩ |
      ⟨_, seatId, _, eb, _, _, _, h4, _, e⟩ | ⟨_, _, _, _, _, _, _, e⟩
    · rw [e] at hx1; rw [hx] at hx1; cases hx1; exact Or.inl rfl
    · rw [e] at hx1; rw [hx] at hx1; cases hx1; exact Or.inl rfl
    · rw [e] at hx1; rw [hx] at hx1; cases hx1; exact Or.inl rfl
    · rw [e] at hx1; rw [hx] at hx1; cases hx1; exact Or.inl rfl
    · rw [e] at hx1
      have hp := List.find?_some h4
      have hact : eb.status = .active := by
        unfold seatActiveIn at hp
        simp only [Bool.and_eq_true, beq_iff_eq] at hp
        exact hp.2
      exact statusKept_saveBooking huniq (List.mem_of_find?_eq_some h4) hact now hx hx1
    · rw [e] at hx1; rw [hx] at hx1; cases hx1; exact Or.inl rfl
  · intro now reqUser bookingId b0 hb hact i x x1 hx hx1
    rcases cancelBooking_bookings st now reqUser bookingId with e | ⟨b1, hb1, e⟩
    · rw [e, hx] at hx1; cases hx1; exact Or.inl rfl
    · rw [hb] at hb1; cases hb1
      rw [e] at hx1
      exact statusKept_saveBooking huniq (findBooking_mem hb) hact now hx hx1
  · refine ⟨by unfold UniqueBookingIds; decide, by decide, by decide, ?_⟩
    unfold StatusKept
    decide

theorem bookings_history_preserved_witness :
    UniqueBookingIds demoStore1.bookings ∧
      HistoryPreserved demoStore1.bookings (run demoStore1 demoCalls).bookings ∧
      (run demoStore1 demoCalls).bookings.length = 2 ∧
      (run demoStore1 demoCalls).bookings[0]? = some demoBooking1Cancelled ∧
      StatusKept demoBooking1 demoBooking1Cancelled :=
  have hu : UniqueBookingIds demoStore1.bookings := by unfold UniqueBookingIds; decide
  have h := bookings_history_preserved demoStore1 demoCalls hu
  ⟨hu, h.1, by decide, by decide,
    h.2.2.2.1 0 demoBooking1 demoBooking1Cancelled (by decide) (by decide) (by decide)⟩

/-! ## The availability snapshot -/

/-- What a 200 answer of `getAvailableSeats` tells about the flag and the counts. -/
theorem getAvailableSeats_ok {st : Store} {now : Int} {userId : Nat} {date : Int}
    {a : Availability} (h : getAvailableSeats st now userId date = .ok a) :
    ∃ user, findUser st.users userId = some user ∧
      (isWithinBookingWindow now date).allowed = true ∧
      a.hasReleasedOwnSeat = ownSeatFlag st userId user date ∧
      a.floatingInfo.baseFloating = ((st.seats.filter (fun s => s.type == .floating)).length : Int) ∧
      a.floatingInfo.released = ((releasedSeatIdsOn st date).length : Int) ∧
      a.floatingInfo.total = a.floatingInfo.baseFloating + a.floatingInfo.released ∧
      a.floatingInfo.booked =
        (((activeBookingsOn st date).filter (fun b =>
            match findSeat st.seats b.seat with
            | some seatObj => seatObj.type == .floating
            | none => false)).length : Int) +
          (((activeBookingsOn st date).filter (fun b =>
            (releasedSeatIdsOn st date).contains b.seat)).length : Int) ∧
      a.floatingInfo.available = a.floatingInfo.total - a.floatingInfo.booked := by
  unfold getAvailableSeats at h
  cases hu : findUser st.users userId with
  | none => rw [hu] at h; simp at h
  | some user =>
    rw [hu] at h
    simp only [] at h
    cases hw : (isWithinBookingWindow now date).allowed with
    | false => rw [hw] at h; simp at h
    | true =>
      rw [hw] at h
      simp only [Bool.not_true, Bool.false_eq_true, if_false] at h
      split at h
      · cases h
      · injection h with h
        subst h
        exact ⟨user, rfl, rfl, rfl, rfl, rfl, rfl, rfl, rfl⟩

theorem ownSeatFlag_false_of_no_cancelled {st : Store} {userId : Nat} {user : User}
    {date : Int}
    (h : ∀ b ∈ st.bookings, b.user = userId → b.status = .cancelled →
      inRange (getDayRange date) b.date = false) :
    ownSeatFlag st userId user date = false := by
  unfold ownSeatFlag
  cases user.designatedSeat with
  | none => rfl
  | some ownSeatId =>
    have hnone : st.bookings.find? (fun b =>
        b.user == userId && b.seat == ownSeatId && inRange (getDayRange date) b.date &&
          b.status == .cancelled) = none := by
      rw [List.find?_eq_none]
      intro b hb
      simp only [Bool.and_eq_true, beq_iff_eq, not_and]
      intro hh hs
      have := h b hb hh.1.1 hs
      rw [hh.2] at this
      cases this
    simp only [hnone]
    split <;> rfl

/-- C21, the flag as the handler computes it: for a user without a cancelled booking in
the day of the date, `hasReleasedOwnSeat` is false, whatever the release record of the
designated seat of the user says.  The release record is not read. -/
theorem released_flag_needs_cancelled_booking (st : Store) (now : Int) (userId : Nat)
    (date : Int) (a : Availability)
    (h : getAvailableSeats st now userId date = .ok a)
    (hnone : ∀ b ∈ st.bookings, b.user = userId → b.status = .cancelled →
      inRange (getDayRange date) b.date = false) :
    a.hasReleasedOwnSeat = false := by
  obtain ⟨user, _, _, hf, _⟩ := getAvailableSeats_ok h
  rw [hf]
  exact ownSeatFlag_false_of_no_cancelled hnone

theorem released_flag_needs_cancelled_booking_witness :
    releaseDesignatedSeat demoStore demoNow 1 demoDate =
        (demoReleased, .released false demoSeatReleased) ∧
      IsReleasedFor demoSeatReleased 1 (startOfDay demoDate) ∧
      ((getAvailableSeats demoReleased demoNow 1 demoDate).body.map
        (fun a => a.hasReleasedOwnSeat)) = some false := by
  refine ⟨by decide, by unfold IsReleasedFor; decide, ?_⟩
  cases h : getAvailableSeats demoReleased demoNow 1 demoDate with
  | ok a =>
    have := released_flag_needs_cancelled_booking demoReleased demoNow 1 demoDate a h
      (by decide)
    simp [AvailabilityResponse.body, this]
  | userNotFound => exact absurd h (by decide)
  | outsideBookingHorizon m =>
    have := (getAvailableSeats_horizon (by decide : findUser demoReleased.users 1 = some user1)).2
      (by decide : (isWithinBookingWindow demoNow demoDate).allowed = true) m
    exact absurd h this
  | serverError => exact absurd h (by decide)

/-! ## Sets of seat identifiers -/

theorem mem_setAdd {ids : List Nat} {id x : Nat} : x ∈ setAdd ids id ↔ x ∈ ids ∨ x = id := by
  unfold setAdd
  by_cases h : ids.contains id = true
  · rw [if_pos h]
    have hm : id ∈ ids := by simpa using h
    constructor
    · exact Or.inl
    · rintro (h1 | h1)
      · exact h1
      · rw [h1]; exact hm
  · rw [if_neg h]; simp

theorem nodup_setAdd {ids : List Nat} (h : ids.Nodup) (id : Nat) : (setAdd ids id).Nodup := by
  unfold setAdd
  by_cases hc : ids.contains id = true
  · rw [if_pos hc]; exact h
  · rw [if_neg hc]
    have hm : id ∉ ids := by simpa using hc
    rw [List.nodup_append]
    refine ⟨h, by simp, ?_⟩
    intro a ha hb
    have : a = id := by simpa using hb
    exact hm (this ▸ ha)

/-- A loop that adds to a set the key of some of the elements of a list. -/
theorem foldl_setAdd {α : Type} (f : List Nat → α → List Nat) (g : α → Option Nat)
    (hf : ∀ ids x, f ids x = match g x with
      | some k => setAdd ids k
      | none => ids) (l : List α) (init : List Nat) (hinit : init.Nodup) :
    (l.foldl f init).Nodup ∧
      ∀ y, y ∈ l.foldl f init ↔ y ∈ init ∨ ∃ x ∈ l, g x = some y := by
  induction l generalizing init with
  | nil => exact ⟨hinit, fun y => by simp⟩
  | cons a as ih =>
    rw [List.foldl_cons]
    have hstep : (f init a).Nodup ∧ ∀ y, y ∈ f init a ↔ y ∈ init ∨ g a = some y := by
      rw [hf]
      cases hg : g a with
      | none => exact ⟨hinit, fun y => by simp⟩
      | some k =>
        refine ⟨nodup_setAdd hinit k, fun y => ?_⟩
        rw [mem_setAdd]
        constructor
        · rintro (h | h)
          · exact Or.inl h
          · exact Or.inr (by rw [h])
        · rintro (h | h)
          · exact Or.inl h
          · exact Or.inr (Option.some.inj h).symm
    obtain ⟨h1, h2⟩ := ih (f init a) hstep.1
    refine ⟨h1, fun y => ?_⟩
    rw [h2, hstep.2]
    constructor
    · rintro ((h | h) | ⟨x, hx, hgx⟩)
      · exact Or.inl h
      · exact Or.inr ⟨a, List.mem_cons_self _ _, h⟩
      · exact Or.inr ⟨x, List.mem_cons_of_mem _ hx, hgx⟩
    · rintro (h | ⟨x, hx, hgx⟩)
      · exact Or.inl (Or.inl h)
      · rcases List.mem_cons.mp hx with e | e
        · subst e; exact Or.inl (Or.inr hgx)
        · exact Or.inr ⟨x, e, hgx⟩

theorem releasedByCancellation_spec (st : Store) (date : Int) :
    (releasedByCancellation st date).Nodup ∧
      ∀ y, y ∈ releasedByCancellation st date ↔
        ∃ b ∈ st.bookings, cancelledDesignatedOn date b = true ∧ b.seat = y := by
  have h := foldl_setAdd (fun ids (b : Booking) => setAdd ids b.seat) (fun b => some b.seat)
    (fun _ _ => rfl)
    (st.bookings.filter (fun b =>
      inRange (getDayRange date) b.date && b.status == .cancelled &&
        b.bookingType == .designated)) [] List.nodup_nil
  refine ⟨h.1, fun y => ?_⟩
  unfold releasedByCancellation
  rw [h.2]
  simp only [List.not_mem_nil, false_or, List.mem_filter, Option.some.injEq]
  constructor
  · rintro ⟨b, ⟨hb, hc⟩, hy⟩
    exact ⟨b, hb, hc, hy⟩
  · rintro ⟨b, hb, hc, hy⟩
    exact ⟨b, ⟨hb, hc⟩, hy⟩

theorem releasedSeatIdsOn_spec (st : Store) (date : Int) :
    (releasedSeatIdsOn st date).Nodup ∧
      ∀ y, y ∈ releasedSeatIdsOn st date ↔
        (∃ b ∈ st.bookings, cancelledDesignatedOn date b = true ∧ b.seat = y) ∨
          ∃ s ∈ st.seats, releasedOn date s = true ∧ s.id = y := by
  have hc := releasedByCancellation_spec st date
  have h := foldl_setAdd
    (fun ids (s : Seat) =>
      if s.type == .designated && s.status == .released then
        match s.releaseDate with
        | some rd =>
          if rd ≥ (getDayRange date).start ∧ rd < (getDayRange date).stop then setAdd ids s.id
          else ids
        | none => ids
      else ids)
    (fun s => if releasedOn date s then some s.id else none)
    (by
      intro ids s
      unfold releasedOn inRange
      cases hr : s.releaseDate with
      | none => simp only [hr]; split <;> simp
      | some rd =>
        simp only [hr]
        by_cases h1 : (s.type == SeatType.designated && s.status == SeatStatus.released) = true
        · by_cases h2 : rd ≥ (getDayRange date).start ∧ rd < (getDayRange date).stop
          · simp [h1, h2.1, h2.2]
          · have h3 : ¬ ((getDayRange date).start ≤ rd ∧ rd < (getDayRange date).stop) := h2
            have h4 : (decide ((getDayRange date).start ≤ rd) &&
                decide (rd < (getDayRange date).stop)) = false := by
              simpa using h3
            simp only [h1, if_true, h2, if_false, Bool.true_and, h4, Bool.false_eq_true]
        · simp [h1])
    st.seats (releasedByCancellation st date) hc.1
  refine ⟨h.1, fun y => ?_⟩
  unfold releasedSeatIdsOn
  rw [h.2, hc.2]
  constructor
  · rintro (h1 | ⟨s, hs, hg⟩)
    · exact Or.inl h1
    · have hg2 : (if releasedOn date s = true then some s.id else none) = some y := hg
      by_cases hr : releasedOn date s = true
      · rw [if_pos hr] at hg2
        exact Or.inr ⟨s, hs, hr, Option.some.inj hg2⟩
      · rw [if_neg hr] at hg2; cases hg2
  · rintro (h1 | ⟨s, hs, hr, hy⟩)
    · exact Or.inl h1
    · refine Or.inr ⟨s, hs, ?_⟩
      show (if releasedOn date s = true then some s.id else none) = some y
      rw [if_pos hr, hy]

theorem releasedSeatIdsStats_spec (st : Store) (date : Int) :
    (releasedSeatIdsStats st date).Nodup ∧
      ∀ y, y ∈ releasedSeatIdsStats st date ↔
        (∃ b ∈ st.bookings, cancelledDesignatedOn date b = true ∧ b.seat = y) ∨
          ∃ s ∈ st.seats, releasedOn date s = true ∧ s.id = y := by
  have hc := releasedByCancellation_spec st date
  have h := foldl_setAdd (fun ids (s : Seat) => setAdd ids s.id) (fun s => some s.id)
    (fun _ _ => rfl) (st.seats.filter (releasedOn date)) (releasedByCancellation st date) hc.1
  refine ⟨h.1, fun y => ?_⟩
  have hdef : releasedSeatIdsStats st date =
      (st.seats.filter (releasedOn date)).foldl (fun ids s => setAdd ids s.id)
        (releasedByCancellation st date) := rfl
  rw [hdef, h.2, hc.2]
  simp only [List.mem_filter, Option.some.injEq]
  constructor
  · rintro (h1 | ⟨s, ⟨hs, hr⟩, hy⟩)
    · exact Or.inl h1
    · exact Or.inr ⟨s, hs, hr, hy⟩
  · rintro (h1 | ⟨s, hs, hr, hy⟩)
    · exact Or.inl h1
    · exact Or.inr ⟨s, ⟨hs, hr⟩, hy⟩

theorem mem_releasedUnion (st : Store) (date : Int) (y : Nat) :
    y ∈ releasedUnion st date ↔
      (∃ b ∈ st.bookings, cancelledDesignatedOn date b = true ∧ b.seat = y) ∨
        ∃ s ∈ st.seats, releasedOn date s = true ∧ s.id = y := by
  unfold releasedUnion
  simp only [Finset.mem_union, List.mem_toFinset, List.mem_map, List.mem_filter]
  constructor
  · rintro (⟨b, ⟨hb, hc⟩, hy⟩ | ⟨s, ⟨hs, hr⟩, hy⟩)
    · exact Or.inl ⟨b, hb, hc, hy⟩
    · exact Or.inr ⟨s, hs, hr, hy⟩
  · rintro (⟨b, hb, hc, hy⟩ | ⟨s, hs, hr, hy⟩)
    · exact Or.inl ⟨b, ⟨hb, hc⟩, hy⟩
    · exact Or.inr ⟨s, ⟨hs, hr⟩, hy⟩

theorem releasedSeatIdsOn_card (st : Store) (date : Int) :
    (releasedSeatIdsOn st date).length = (releasedUnion st date).card := by
  have h := releasedSeatIdsOn_spec st date
  rw [← List.toFinset_card_of_nodup h.1]
  congr 1
  ext y
  rw [List.mem_toFinset, h.2, mem_releasedUnion]

theorem releasedSeatIdsStats_card (st : Store) (date : Int) :
    (releasedSeatIdsStats st date).length = (releasedUnion st date).card := by
  have h := releasedSeatIdsStats_spec st date
  rw [← List.toFinset_card_of_nodup h.1]
  congr 1
  ext y
  rw [List.mem_toFinset, h.2, mem_releasedUnion]

theorem contains_releasedSeatIdsOn (st : Store) (date : Int) (y : Nat) :
    (releasedSeatIdsOn st date).contains y = decide (y ∈ releasedUnion st date) := by
  have h := (releasedSeatIdsOn_spec st date).2 y
  rw [← mem_releasedUnion] at h
  by_cases hy : y ∈ releasedUnion st date
  · simp [hy, h.mpr hy]
  · have : y ∉ releasedSeatIdsOn st date := fun hm => hy (h.mp hm)
    simp [hy, this]

/-- For an existing requester, a date within the horizon and active bookings whose seats
all exist, `getAvailableSeats` answers 200. -/
theorem getAvailableSeats_isOk {st : Store} {now : Int} {userId : Nat} {date : Int}
    {user : User} (hu : findUser st.users userId = some user)
    (hw : (isWithinBookingWindow now date).allowed = true)
    (hd : (activeBookingsOn st date).any (fun b => (findSeat st.seats b.seat).isNone) = false) :
    ∃ a, getAvailableSeats st now userId date = .ok a := by
  unfold activeBookingsOn at hd
  unfold getAvailableSeats
  simp only [hu, hw, Bool.not_true, Bool.false_eq_true, if_false, hd]
  exact ⟨_, rfl⟩

/-- C22, as stated, fails: in `demoStoreRebooked` seat 1 is in the normal state, yet the
cancelled designated booking of user 1 makes `floatingInfo.total` count it. -/
theorem floating_info_counts_released_seats_counterexample :
    ¬ FloatingInfoCountsReleasedSeats := by
  intro h
  obtain ⟨a, ha⟩ := @getAvailableSeats_isOk demoStoreRebooked demoNow 2 demoDate user2
    (by decide) (by decide) (by decide)
  have hc := (h demoStoreRebooked demoNow 2 demoDate a ha).1
  obtain ⟨_, _, _, _, hb, hr, ht, _⟩ := getAvailableSeats_ok ha
  rw [ht, hb, hr] at hc
  revert hc
  decide

/-- C22, amended. In the answer of `getAvailableSeats` for a date, `floatingInfo.total` is
the number of floating seats plus the number of distinct seats of the two-method union
(the seats of the cancelled bookings of type `designated` in the day, united with the
designated seats marked released with a release date in the day); `floatingInfo.booked`
is the number of active bookings of the day on a floating seat plus the number of active
bookings of the day on a seat of that union; and `floatingInfo.available` is
`total - booked`. -/
theorem floating_info_counts (st : Store) (now : Int) (userId : Nat) (date : Int)
    (a : Availability) (h : getAvailableSeats st now userId date = .ok a) :
    a.floatingInfo.total =
        ((st.seats.filter (fun s => s.type == .floating)).length : Int) +
          ((releasedUnion st date).card : Int) ∧
      a.floatingInfo.released = ((releasedUnion st date).card : Int) ∧
      a.floatingInfo.booked =
        (((activeBookingsOn st date).filter (onFloatingSeat st)).length : Int) +
          (((activeBookingsOn st date).filter (fun b =>
            decide (b.seat ∈ releasedUnion st date))).length : Int) ∧
      a.floatingInfo.available = a.floatingInfo.total - a.floatingInfo.booked := by
  obtain ⟨_, _, _, _, hb, hr, ht, hk, hav⟩ := getAvailableSeats_ok h
  have hcard := releasedSeatIdsOn_card st date
  have hfun : (fun b : Booking => (releasedSeatIdsOn st date).contains b.seat) =
      fun b => decide (b.seat ∈ releasedUnion st date) := by
    funext b; exact contains_releasedSeatIdsOn st date b.seat
  refine ⟨?_, ?_, ?_, hav⟩
  · rw [ht, hb, hr, hcard]
  · rw [hr, hcard]
  · rw [hk, hfun]; rfl

theorem floating_info_counts_witness :
    ∃ a, getAvailableSeats demoStoreRebooked demoNow 2 demoDate = .ok a ∧
      a.floatingInfo.total = 2 ∧ a.floatingInfo.booked = 1 ∧ a.floatingInfo.available = 1 := by
  obtain ⟨a, ha⟩ := @getAvailableSeats_isOk demoStoreRebooked demoNow 2 demoDate user2
    (by decide) (by decide) (by decide)
  obtain ⟨_, _, _, _, hb, hr, ht, hk, hav⟩ := getAvailableSeats_ok ha
  have h := floating_info_counts demoStoreRebooked demoNow 2 demoDate a ha
  have h1 : a.floatingInfo.total = 2 := by rw [ht, hb, hr]; decide
  have h2 : a.floatingInfo.booked = 1 := by rw [hk]; decide
  exact ⟨a, ha, h1, h2, by rw [h.2.2.2, h1, h2]; decide⟩

/-! ## The daily statistics -/

theorem getSeatStats_releasedSeats (st : Store) (now : Int) (date : Int) :
    (getSeatStats st now (some date)).releasedSeats =
      ((releasedSeatIdsStats st date).length : Int) := rfl

/-- C25. For every store and date, `getSeatStats` reports
`available = totalSeats - booked` and `totalFloating = baseFloating + releasedSeats`; its
`releasedSeats` is the size of the two-method union (the seats of the cancelled bookings
of type `designated` in the day, united with the designated seats marked released with a
release date in the day); and whenever `getAvailableSeats` answers 200 for the same store
and date, its `floatingInfo.released` and `floatingInfo.total` are the `releasedSeats` and
the `totalFloating` of `getSeatStats`. -/
theorem seat_stats_agree (st : Store) (now : Int) (date : Int) :
    (∀ d : Option Int,
        (getSeatStats st now d).available =
            (getSeatStats st now d).totalSeats - (getSeatStats st now d).booked ∧
          (getSeatStats st now d).totalFloating =
            (getSeatStats st now d).baseFloating + (getSeatStats st now d).releasedSeats) ∧
      (getSeatStats st now (some date)).releasedSeats = ((releasedUnion st date).card : Int) ∧
      (getSeatStats st now none).releasedSeats = ((releasedUnion st now).card : Int) ∧
      (∀ (now1 : Int) (userId : Nat) (a : Availability),
        getAvailableSeats st now1 userId date = .ok a →
        a.floatingInfo.released = ((releasedUnion st date).card : Int) ∧
          (getSeatStats st now (some date)).releasedSeats = a.floatingInfo.released ∧
          (getSeatStats st now (some date)).totalFloating = a.floatingInfo.total) := by
  have hcard := releasedSeatIdsStats_card st date
  refine ⟨fun d => ⟨rfl, rfl⟩, ?_, ?_, ?_⟩
  · rw [getSeatStats_releasedSeats, hcard]
  · have : (getSeatStats st now none).releasedSeats =
        ((releasedSeatIdsStats st now).length : Int) := rfl
    rw [this, releasedSeatIdsStats_card]
  · intro now1 userId a h
    obtain ⟨_, _, _, _, hb, hr, ht, _⟩ := getAvailableSeats_ok h
    have hon := releasedSeatIdsOn_card st date
    have hrel : (getSeatStats st now (some date)).releasedSeats = a.floatingInfo.released := by
      rw [getSeatStats_releasedSeats, hr, hcard, hon]
    refine ⟨by rw [hr, hon], hrel, ?_⟩
    have htf : (getSeatStats st now (some date)).totalFloating =
        (getSeatStats st now (some date)).baseFloating +
          (getSeatStats st now (some date)).releasedSeats := rfl
    have hbf : (getSeatStats st now (some date)).baseFloating = a.floatingInfo.baseFloating := by
      rw [hb]; rfl
    rw [htf, hrel, hbf, ht]

theorem seat_stats_agree_witness :
    (getSeatStats demoStoreRebooked demoNow (some demoDate)).releasedSeats = 1 ∧
      (getSeatStats demoStoreRebooked demoNow (some demoDate)).totalFloating = 2 ∧
      ∃ a, getAvailableSeats demoStoreRebooked demoNow 2 demoDate = .ok a ∧
        (getSeatStats demoStoreRebooked demoNow (some demoDate)).totalFloating =
          a.floatingInfo.total := by
  obtain ⟨a, ha⟩ := @getAvailableSeats_isOk demoStoreRebooked demoNow 2 demoDate user2
    (by decide) (by decide) (by decide)
  exact ⟨by decide, by decide, a, ha,
    ((seat_stats_agree demoStoreRebooked demoNow demoDate).2.2.2 demoNow 2 a ha).2.2⟩

/-! ## The release record and active bookings -/

/-- C28, the handlers at the failing sequence: from a store without bookings and with all
seats in the normal state, user 1 books seat 1 for day 2 and cancels, user 2 books seat 1
for day 2, and user 1 cancels the cancelled booking once more; seat 1 is then marked
released for day 2 while the booking of user 2 for day 2 is active. -/
theorem recancel_breaks_release_exclusion :
    demoStore.bookings = [] ∧ (∀ s ∈ demoStore.seats, IsNormal s) ∧
      run demoStore [.reserve demoNow 1 demoRequest,
        .cancel demoNow { id := 1, role := .employee } 1,
        .reserve demoNow 2 demoRequest] = demoStoreRebooked ∧
      ReleaseExcludesOccupancy demoStoreRebooked ∧
      ¬ ReleaseExcludesOccupancy (run demoStore demoRecancelCalls) := by
  refine ⟨rfl, ?_, by decide, ?_, ?_⟩
  · unfold IsNormal; decide
  · unfold ReleaseExcludesOccupancy; decide
  · intro h
    have := h demoSeatReleased (by decide) (by decide) 172800000 (by decide) demoBooking3
      (by decide) (by decide) (by decide)
    exact this rfl

/-! ## The front-end copies of the calendar rules -/

theorem getDay_eq (t : Int) :
    (if getDay t = 0 then 7 else getDay t) = isoWeekday t := by
  unfold getDay isoWeekday
  split <;> omega

theorem yearOfEra_bounds (doe : Int) (h0 : 0 ≤ doe) (h1 : doe ≤ 146096) :
    0 ≤ (doe - doe / 1460 + doe / 36524 - doe / 146096) / 365 ∧
      (doe - doe / 1460 + doe / 36524 - doe / 146096) / 365 ≤ 399 := by
  omega

theorem dayOfYear_bounds (doe : Int) (h0 : 0 ≤ doe) (h1 : doe ≤ 146096) :
    0 ≤ doe - (365 * ((doe - doe / 1460 + doe / 36524 - doe / 146096) / 365) +
        (doe - doe / 1460 + doe / 36524 - doe / 146096) / 365 / 4 -
        (doe - doe / 1460 + doe / 36524 - doe / 146096) / 365 / 100) ∧
      doe - (365 * ((doe - doe / 1460 + doe / 36524 - doe / 146096) / 365) +
        (doe - doe / 1460 + doe / 36524 - doe / 146096) / 365 / 4 -
        (doe - doe / 1460 + doe / 36524 - doe / 146096) / 365 / 100) ≤ 365 := by
  have hy := yearOfEra_bounds doe h0 h1
  generalize hb : (doe - doe / 1460 + doe / 36524 - doe / 146096) / 365 = b at *
  have hf : doe / 36524 = 0 ∨ doe / 36524 = 1 ∨ doe / 36524 = 2 ∨ doe / 36524 = 3 ∨
      doe / 36524 = 4 := by omega
  have hg : doe / 146096 = 0 ∨ doe / 146096 = 1 := by omega
  have hd : b / 100 = 0 ∨ b / 100 = 1 ∨ b / 100 = 2 ∨ b / 100 = 3 := by omega
  rcases hf with hf | hf | hf | hf | hf <;> rcases hg with hg | hg <;>
    rcases hd with hd | hd | hd | hd <;> omega

/-- The first day of the month of the civil day `z`, found back from its year and
month. -/
theorem daysFromCivil_first (z : Int) :
    daysFromCivil (civilFromDays z).1 (civilFromDays z).2.1 1 =
      z - ((civilFromDays z).2.2 - 1) := by
  have hdoe0 : 0 ≤ z + 719468 - (z + 719468) / 146097 * 146097 := by omega
  have hdoe1 : z + 719468 - (z + 719468) / 146097 * 146097 ≤ 146096 := by omega
  have hy := yearOfEra_bounds _ hdoe0 hdoe1
  have hd := dayOfYear_bounds _ hdoe0 hdoe1
  unfold daysFromCivil civilFromDays
  simp only []
  generalize (z + 719468) / 146097 = era at *
  generalize hdoe : z + 719468 - era * 146097 = doe at *
  generalize (doe - doe / 1460 + doe / 36524 - doe / 146096) / 365 = yoe at *
  generalize hdoy : doe - (365 * yoe + yoe / 4 - yoe / 100) = doy at *
  have hmp0 : 0 ≤ (5 * doy + 2) / 153 := by omega
  have hmp1 : (5 * doy + 2) / 153 ≤ 11 := by omega
  generalize (5 * doy + 2) / 153 = mp at *
  have e2 : yoe + era * 400 - era * 400 = yoe := by omega
  by_cases h10 : mp < 10
  · have hm : ¬ (mp + 3 ≤ 2) := by omega
    have hm2 : mp + 3 > 2 := by omega
    simp only [h10, if_true, hm, if_false, hm2]
    have he : (yoe + era * 400) / 400 = era := by omega
    have : mp + 3 - 3 = mp := by omega
    rw [he, this, e2]
    omega
  · have hm : mp - 9 ≤ 2 := by omega
    have hm2 : ¬ (mp - 9 > 2) := by omega
    simp only [h10, if_false, hm, if_true, hm2]
    have e1 : yoe + era * 400 + 1 - 1 = yoe + era * 400 := by omega
    have he : (yoe + era * 400) / 400 = era := by omega
    have : mp - 9 + 9 = mp := by omega
    rw [e1, he, this, e2]
    omega

/-- Outside the years 0 to 99, `new Date(d.getFullYear(), d.getMonth(), 1)` is the start
of the month of `d`. -/
theorem newDate_first {t : Int} (h : ¬ (0 ≤ getFullYear t ∧ getFullYear t ≤ 99)) :
    newDate (getFullYear t) (getMonth t) 1 = startOfMonth t := by
  have hr := daysFromCivil_first (dayNumber t)
  have hm : getMonth t + 1 = (civilFromDays (dayNumber t)).2.1 := by
    unfold getMonth; omega
  unfold newDate
  simp only [h, if_false]
  rw [hm]
  unfold getFullYear
  rw [hr]
  unfold startOfMonth dayOfMonth startOfDay dayNumber dayMs
  generalize (civilFromDays (t / 86400000)).2.2 = d
  omega

theorem dateHelpers_getWeekNumber_eq {t : Int}
    (h : ¬ (0 ≤ getFullYear t ∧ getFullYear t ≤ 99)) :
    DateHelpers.getWeekNumber t = getWeekNumber t := by
  rw [getWeekNumber_eq_rotaWeek]
  have hs := startOfMonth_le t
  unfold DateHelpers.getWeekNumber rotaWeek daysSinceStartOfMonth
  simp only [newDate_first h]
  generalize t - startOfMonth t = x at *
  have hx : x / (7 * 24 * 60 * 60 * 1000) = x / dayMs / 7 := by
    unfold dayMs; omega
  rw [hx]
  generalize x / dayMs / 7 = w
  by_cases hw : (w + 1) % 2 = 0
  · have : ¬ (w + 1) % 2 = 1 := by omega
    simp [hw, this]
  · have : (w + 1) % 2 = 1 := by omega
    simp [hw, this]

/-- C29, the front-end copies against the back-end rules.  `canBookFloatingSeat` and
`isWithinBookingWindow` of `dateHelpers.js` return what the back-end functions return,
for every date and every reading of the clock.  `getWeekNumber` and
`isWorkingDayForBatch` return what the back-end functions return for every batch and
every date whose year is not one of 0 to 99.  In those years they do not agree: the
constructor `new Date(year, month, 1)` reads the year as `1900 + year`, so that on
Monday 3 January of the year 50 the front end computes week 2 and no working day for
batch 1, where the back end computes week 1 and a working day. -/
theorem front_end_rules_outside_two_digit_years (now date : Int) (batch : Nat) :
    DateHelpers.canBookFloatingSeat now date = canBookFloatingSeat now date ∧
      DateHelpers.isWithinBookingWindow now date = (isWithinBookingWindow now date).allowed ∧
      (¬ (0 ≤ getFullYear date ∧ getFullYear date ≤ 99) →
        DateHelpers.getWeekNumber date = getWeekNumber date ∧
          DateHelpers.isWorkingDayForBatch date batch = isWorkingDayForBatch date batch) ∧
      (getFullYear demoYear50 = 50 ∧ getMonth demoYear50 = 0 ∧ dayOfMonth demoYear50 = 3 ∧
        isoWeekday demoYear50 = 1 ∧
        newDate (getFullYear demoYear50) (getMonth demoYear50) 1 = -7305 * dayMs ∧
        startOfMonth demoYear50 = demoYear50 - 2 * dayMs ∧
        DateHelpers.getWeekNumber demoYear50 = 2 ∧ getWeekNumber demoYear50 = 1 ∧
        DateHelpers.isWorkingDayForBatch demoYear50 1 = false ∧
        isWorkingDayForBatch demoYear50 1 = true) := by
  refine ⟨?_, ?_, ?_, by decide⟩
  · unfold DateHelpers.canBookFloatingSeat canBookFloatingSeat setHours addDays
      setHourMinuteSecond
    simp only [startOfDay_idem]
    have h0 : ∀ t : Int, startOfDay t + 0 * 3600000 = startOfDay t := fun t => by omega
    simp only [h0]
    by_cases h1 : startOfDay date < startOfDay now
    · simp [h1]
    · by_cases h2 : startOfDay date = startOfDay now
      · simp [h2]
      · simp only [h1, h2, if_false]
        have : startOfDay (startOfDay date + -1 * dayMs) + 15 * 3600000 =
            startOfDay (startOfDay date - dayMs) + 15 * 3600000 + 0 * 60000 + 0 * 1000 +
              (startOfDay date - dayMs) % 1000 := by
          unfold startOfDay dayMs; omega
        rw [this]
  · unfold DateHelpers.isWithinBookingWindow isWithinBookingWindow setHours addDays
    have h0 : ∀ t : Int, startOfDay t + 0 * 3600000 = startOfDay t := fun t => by omega
    simp only [h0]
    by_cases h1 : startOfDay date < startOfDay now
    · have : ¬ startOfDay date ≥ startOfDay now := by omega
      simp [h1, this]
    · by_cases h2 : startOfDay date > startOfDay now + 14 * dayMs
      · have : ¬ startOfDay date ≤ startOfDay now + 14 * dayMs := by omega
        simp [h1, h2, this]
      · have h3 : startOfDay date ≥ startOfDay now := by omega
        have h4 : startOfDay date ≤ startOfDay now + 14 * dayMs := by omega
        simp [h1, h2, h3, h4]
  · intro hy
    refine ⟨dateHelpers_getWeekNumber_eq hy, ?_⟩
    unfold DateHelpers.isWorkingDayForBatch isWorkingDayForBatch
    simp only [dateHelpers_getWeekNumber_eq hy, getDay_eq]

theorem front_end_rules_outside_two_digit_years_witness :
    getFullYear demoMonday = 2024 ∧
      DateHelpers.isWorkingDayForBatch demoMonday 1 = true ∧
      isWorkingDayForBatch demoMonday 1 = true ∧
      DateHelpers.canBookFloatingSeat demoNow demoDate = false ∧
      canBookFloatingSeat demoNow demoDate = false ∧
      DateHelpers.isWithinBookingWindow demoNow demoDate = true :=
  have h := front_end_rules_outside_two_digit_years demoNow demoDate 1
  ⟨by decide,
    by rw [((front_end_rules_outside_two_digit_years demoNow demoMonday 1).2.2.1
      (by decide)).2]; decide,
    by decide, by rw [h.1]; decide, by decide, by rw [h.2.1]; decide⟩

/-! ## The seed script -/

set_option maxRecDepth 100000 in
set_option maxHeartbeats 1000000 in
/-- C30. What `seedData` leaves behind, whatever the store before: the bookings as they
were, 83 users and 50 seats; the four designated seats of every batch and squad all
name one and the same user as `designatedFor`, the first employee of that batch and
squad; ten users, not forty, end with a `designatedSeat`, each the last of the four
seats bound to them; seats 1 to 4 are all bound to user 2; and seat ownership is not
one-to-one. -/
theorem seed_binds_one_user_per_squad (st : Store) :
    (seedData st).bookings = st.bookings ∧
      (seedData st).users.length = 83 ∧ (seedData st).seats.length = 50 ∧
      (∀ batch ∈ [1, 2], ∀ squad ∈ [1, 2, 3, 4, 5],
        squadOwners (seedData st) batch squad =
          List.replicate 4 ((batch - 1) * 40 + (squad - 1) * 8 + 2)) ∧
      (seedData st).users.filterMap (fun u => u.designatedSeat.map fun s => (u.id, s)) =
        [(2, 4), (10, 8), (18, 12), (26, 16), (34, 20), (42, 24), (50, 28), (58, 32),
          (66, 36), (74, 40)] ∧
      (seatsOwnedBy (seedData st) 2).map (fun s => s.id) = [1, 2, 3, 4] ∧
      ¬ OwnershipOneToOne (seedData st) := by
  refine ⟨rfl, ?_⟩
  have h : (seedData demoStore).users.length = 83 ∧ (seedData demoStore).seats.length = 50 ∧
      (∀ batch ∈ [1, 2], ∀ squad ∈ [1, 2, 3, 4, 5],
        squadOwners (seedData demoStore) batch squad =
          List.replicate 4 ((batch - 1) * 40 + (squad - 1) * 8 + 2)) ∧
      (seedData demoStore).users.filterMap
          (fun u => u.designatedSeat.map fun s => (u.id, s)) =
        [(2, 4), (10, 8), (18, 12), (26, 16), (34, 20), (42, 24), (50, 28), (58, 32),
          (66, 36), (74, 40)] ∧
      (seatsOwnedBy (seedData demoStore) 2).map (fun s => s.id) = [1, 2, 3, 4] ∧
      ¬ (∀ u ∈ (seedData demoStore).users,
        (seatsOwnedBy (seedData demoStore) u.id).length ≤ 1) := by
    decide
  exact ⟨h.1, h.2.1, h.2.2.1, h.2.2.2.1, h.2.2.2.2.1, fun hc => h.2.2.2.2.2 hc.1⟩

end SeatBooking
